import Mathlib

/-!
# PPROG text-adventure engine: game state and command dispatch

A shallow embedding of `src/Entrega 2/game.c` and `src/Examen/game.c`.

* A C pointer into a registry array is a slot of a list of optional values;
  `NULL` is `none`, and a slot past the end of the list reads as `NULL`.
* A handler that mutates the game through pointers returns the new game.
* `scanf` input and the die's random source are arguments of the handlers.
* Text is a Lean `String`; identifiers are integers.
-/

namespace PPROG

/-- Identifiers are C `long` values. -/
abbrev Id := Int

/-- Modelled from the spec: the reserved sentinel identifier meaning "no entity"
(`types.h` is not among the sources). -/
def NO_ID : Id := -1

/-- Modelled from the spec: the two-valued result of an operation (`types.h` is not among the
sources). -/
inductive STATUS where
  | ERROR
  | OK
deriving DecidableEq, Repr

/-- Modelled from the spec: the boolean flag type of `types.h`, which is not among the sources. -/
inductive BOOL where
  | FALSE
  | TRUE
deriving DecidableEq, Repr

/-- Commands are C enum values, that is, integers indexing the callback table. -/
abbrev T_Command := Int

/-- Modelled from the spec: `NO_CMD`, the enum value before the first table entry. -/
def NO_CMD : T_Command := -1

/-- Reading slot `i` of a registry array: `NULL` past the recorded slots. -/
def slot {α : Type} (xs : List (Option α)) (i : Nat) : Option α :=
  match xs[i]? with
  | some x => x
  | none => none

/-- Writing slot `i` of a registry array: the slots the list did not record so far are
`NULL`, so a write past its end records the `NULL` slots in between too. -/
def write_slot {α : Type} (xs : List (Option α)) (i : Nat) (x : Option α) : List (Option α) :=
  if i < xs.length then xs.set i x else xs ++ List.replicate (i - xs.length) none ++ [x]

/-- The loop `while ((i < MAX) && (slots[i] != NULL)) i++` of `game_add_space` and
`game_set_object`, over the slots still to visit (the first `MAX` ones), from index `i`: the
index it stops at. -/
def first_free {α : Type} : List (Option α) → Nat → Nat
  | [], i => i
  | none :: _, i => i
  | some _ :: rest, i => first_free rest (i + 1)

/-! ## Entrega 2 -/

namespace Entrega2

/-- Modelled from the spec: a space (`space.c` is not among the sources): identifier, name, four
neighbour links and the ordered set of contained object identifiers. -/
structure Space where
  id : Id
  name : String
  north : Id
  east : Id
  south : Id
  west : Id
  objects : List Id
deriving DecidableEq, Repr

/-- Modelled from the spec: an object (`object.c` is not among the sources): identifier and
name. -/
structure Object where
  id : Id
  name : String
deriving DecidableEq, Repr

/-- Modelled from the spec: the player (`player.c` is not among the sources): current space id
and at most one carried object id (`NO_ID` if none). -/
structure Player where
  id : Id
  name : String
  location : Id
  object : Id
deriving DecidableEq, Repr

/-- Modelled from the spec: the die (`die.c` is not among the sources): configured bounds and
the last rolled value. -/
structure Die where
  id : Id
  min : Int
  max : Int
  last_roll : Int
deriving DecidableEq, Repr

/-- The game of `struct _Game`. -/
structure Game where
  player : Option Player
  objects : List (Option Object)
  spaces : List (Option Space)
  die : Option Die
  last_cmd : T_Command
  status : STATUS
deriving DecidableEq, Repr

/-- What a handler reads from outside the game: the `scanf` token and the die's random source. -/
structure Input where
  token : String
  rnd : Nat
deriving DecidableEq, Repr

/-- Modelled from the spec: `space_get_id` of the absent `space.c`; `NO_ID` for `NULL`. -/
def space_get_id : Option Space → Id
  | none => NO_ID
  | some s => s.id

/-- Modelled from the spec: `space_get_north` of the absent `space.c`; `NO_ID` for `NULL`. -/
def space_get_north : Option Space → Id
  | none => NO_ID
  | some s => s.north

/-- Modelled from the spec: `space_get_east` of the absent `space.c`; `NO_ID` for `NULL`. -/
def space_get_east : Option Space → Id
  | none => NO_ID
  | some s => s.east

/-- Modelled from the spec: `space_get_south` of the absent `space.c`; `NO_ID` for `NULL`. -/
def space_get_south : Option Space → Id
  | none => NO_ID
  | some s => s.south

/-- Modelled from the spec: `space_get_west` of the absent `space.c`; `NO_ID` for `NULL`. -/
def space_get_west : Option Space → Id
  | none => NO_ID
  | some s => s.west

/-- Modelled from the spec: `space_get_object(space, j)` of the absent `space.c`: the `j`-th
member of the space's object set, `NO_ID` past its end or for `NULL`. -/
def space_get_object (sp : Option Space) (j : Nat) : Id :=
  match sp with
  | none => NO_ID
  | some s => s.objects.getD j NO_ID

/-- Modelled from the spec: `space_set_object` of the absent `space.c`: appends the id to the
space's object set; fails for `NULL`, for `NO_ID` (a drop with nothing carried fails) and when
the set already holds `MAX_ID` members (capacity exceeded). -/
def space_set_object (MAX_ID : Nat) (sp : Option Space) (id : Id) : STATUS × Option Space :=
  match sp with
  | none => (STATUS.ERROR, none)
  | some s =>
    if id = NO_ID then (STATUS.ERROR, some s)
    else if MAX_ID ≤ s.objects.length then (STATUS.ERROR, some s)
    else (STATUS.OK, some { s with objects := s.objects ++ [id] })

/-- Modelled from the spec: `space_del_object` of the absent `space.c`: removes the id from the
space's object set; fails for `NULL` and when the id is not a member. -/
def space_del_object (sp : Option Space) (id : Id) : STATUS × Option Space :=
  match sp with
  | none => (STATUS.ERROR, none)
  | some s =>
    if id ∈ s.objects then (STATUS.OK, some { s with objects := s.objects.erase id })
    else (STATUS.ERROR, some s)

/-- Modelled from the spec: `object_get_id` of the absent `object.c`; `NO_ID` for `NULL`. -/
def object_get_id : Option Object → Id
  | none => NO_ID
  | some o => o.id

/-- Modelled from the spec: `player_get_location` of the absent `player.c`; `NO_ID` for
`NULL`. -/
def player_get_location : Option Player → Id
  | none => NO_ID
  | some p => p.location

/-- Modelled from the spec: `player_set_location` of the absent `player.c`: fails for `NULL`
and for `NO_ID`, otherwise stores the location. -/
def player_set_location (p : Option Player) (id : Id) : STATUS × Option Player :=
  match p with
  | none => (STATUS.ERROR, none)
  | some q =>
    if id = NO_ID then (STATUS.ERROR, some q)
    else (STATUS.OK, some { q with location := id })

/-- Modelled from the spec: `player_get_object` of the absent `player.c`; `NO_ID` for `NULL`. -/
def player_get_object : Option Player → Id
  | none => NO_ID
  | some p => p.object

/-- Modelled from the spec: `player_set_object` of the absent `player.c`: fails for `NULL`,
otherwise stores the id; storing `NO_ID` clears the carried slot. -/
def player_set_object (p : Option Player) (id : Id) : STATUS × Option Player :=
  match p with
  | none => (STATUS.ERROR, none)
  | some q => (STATUS.OK, some { q with object := id })

/-- Modelled from the spec: `die_roll` of the absent `die.c`: an integer within the configured
bounds, remembered as the last value; fails for `NULL`. -/
def die_roll (d : Option Die) (rnd : Nat) : STATUS × Option Die :=
  match d with
  | none => (STATUS.ERROR, none)
  | some e => (STATUS.OK, some { e with last_roll := e.min + (rnd : Int) % (e.max - e.min + 1) })

/-- Modelled from the spec: `die_print` of the absent `die.c`: fails only for `NULL`. -/
def die_print : Option Die → STATUS
  | none => STATUS.ERROR
  | some _ => STATUS.OK

/-- Command values in the order of `game_callback_fn_list`. -/
def UNKNOWN : T_Command := 0
/-- Command value of the table entry `game_callback_exit`. -/
def EXIT : T_Command := 1
/-- Command value of the table entry `game_callback_next`. -/
def NEXT : T_Command := 2
/-- Command value of the table entry `game_callback_back`. -/
def BACK : T_Command := 3
/-- Command value of the table entry `game_callback_take`. -/
def TAKE : T_Command := 4
/-- Command value of the table entry `game_callback_drop`. -/
def DROP : T_Command := 5
/-- Command value of the table entry `game_callback_roll`. -/
def ROLL : T_Command := 6
/-- Command value of the table entry `game_callback_left`. -/
def LEFT : T_Command := 7
/-- Command value of the table entry `game_callback_right`. -/
def RIGHT : T_Command := 8

/-- The scan `for (i = 0; i < MAX && slots[i] != NULL; i++) if (id == space_get_id(slots[i]))
return` over the slots from index `i` on: the index of the first match. -/
def find_space (id : Id) : List (Option Space) → Nat → Option Nat
  | [], _ => none
  | none :: _, _ => none
  | some s :: rest, i =>
    if id = space_get_id (some s) then some i else find_space id rest (i + 1)

/-- The slot `game_get_space` returns a pointer to. -/
def game_get_space_index (MAX_SPACES : Nat) (g : Game) (id : Id) : Option Nat :=
  if id = NO_ID then none else find_space id (g.spaces.take MAX_SPACES) 0

/-- The space `game_get_space` returns, `none` for `NULL`. -/
def game_get_space (MAX_SPACES : Nat) (g : Game) (id : Id) : Option Space :=
  match game_get_space_index MAX_SPACES g id with
  | none => none
  | some i => slot g.spaces i

/-- Embedding of `game_get_space_id_at`. -/
def game_get_space_id_at (MAX_SPACES : Nat) (g : Game) (index : Int) : Id :=
  if index < 0 ∨ (MAX_SPACES : Int) ≤ index then NO_ID
  else space_get_id (slot g.spaces index.toNat)

/-- Embedding of `game_get_player`. -/
def game_get_player (g : Game) : Option Player := g.player

/-- The loop of `game_get_object` over the slots still to visit. -/
def find_object (id : Id) : List (Option Object) → Option Object
  | [] => none
  | none :: _ => none
  | some o :: rest => if id = object_get_id (some o) then some o else find_object id rest

/-- Embedding of `game_get_object`. -/
def game_get_object (MAX_OBJECTS : Nat) (g : Game) (id : Id) : Option Object :=
  if id = NO_ID then none else find_object id (g.objects.take MAX_OBJECTS)

/-- The loop of `game_get_object_by_name` over the slots still to visit (`strcmp(...) == 0` is
string equality). -/
def find_object_by_name (name : String) : List (Option Object) → Option Object
  | [] => none
  | none :: _ => none
  | some o :: rest => if o.name = name then some o else find_object_by_name name rest

/-- Embedding of `game_get_object_by_name`. -/
def game_get_object_by_name (MAX_OBJECTS : Nat) (g : Game) (name : String) : Option Object :=
  find_object_by_name name (g.objects.take MAX_OBJECTS)

/-- The inner loop of `game_get_object_location` over the members of one object set still to
visit: `space_get_object` gives `NO_ID` past the end, which stops the loop, as does a member
equal to `NO_ID`. -/
def scan_objects (id : Id) : List Id → Bool
  | [] => false
  | x :: rest => if x = NO_ID then false else if x = id then true else scan_objects id rest

/-- The outer loop of `game_get_object_location` from slot `i` on: `(true, i)` when the inner
loop returned at slot `i`, `(false, i)` when the loop ended at index `i`. -/
def scan_spaces (MAX_ID : Nat) (id : Id) : List (Option Space) → Nat → Bool × Nat
  | [], i => (false, i)
  | none :: _, i => (false, i)
  | some s :: rest, i =>
    if scan_objects id (s.objects.take MAX_ID) then (true, i)
    else scan_spaces MAX_ID id rest (i + 1)

/-- Embedding of `game_get_object_location`: the outer loop visits the slots `0..MAX_SPACES`
up to the first `NULL`; both exits finish with `game_get_space_id_at`. -/
def game_get_object_location (MAX_SPACES MAX_ID : Nat) (g : Game) (id : Id) : Id :=
  let r := scan_spaces MAX_ID id (g.spaces.take (MAX_SPACES + 1)) 0
  if r.1 then game_get_space_id_at MAX_SPACES g r.2
  else if slot g.spaces r.2 = none then NO_ID
  else game_get_space_id_at MAX_SPACES g r.2

/-- Embedding of `game_get_status`. -/
def game_get_status (g : Game) : STATUS := g.status

/-- Embedding of `game_get_last_command`. -/
def game_get_last_command (g : Game) : T_Command := g.last_cmd

/-- Embedding of `game_callback_unknown`. -/
def game_callback_unknown (g : Game) : Game := g

/-- Embedding of `game_callback_exit`. -/
def game_callback_exit (g : Game) : Game := g

/-- The `for` loop shared, up to the link read, by the four movement handlers, over the slots
still to visit: at the first space whose id is `space_id` the player is moved along the link
unless it is `NO_ID`, and the status is set to `OK`. -/
def move_loop (link : Option Space → Id) (g : Game) (space_id : Id) : List (Option Space) → Game
  | [] => g
  | none :: _ => g
  | some s :: rest =>
    if space_get_id (some s) = space_id then
      let current_id := link (some s)
      let g1 := if current_id ≠ NO_ID then
          { g with player := (player_set_location g.player current_id).2 }
        else g
      { g1 with status := STATUS.OK }
    else move_loop link g space_id rest

/-- Embedding of `game_callback_next`. -/
def game_callback_next (MAX_SPACES : Nat) (g : Game) : Game :=
  let space_id := player_get_location g.player
  if space_get_south (game_get_space MAX_SPACES g space_id) = NO_ID then
    { g with status := STATUS.ERROR }
  else if space_id = NO_ID then { g with status := STATUS.ERROR }
  else move_loop space_get_south g space_id (g.spaces.take MAX_SPACES)

/-- Embedding of `game_callback_back`. -/
def game_callback_back (MAX_SPACES : Nat) (g : Game) : Game :=
  let space_id := player_get_location g.player
  if space_get_north (game_get_space MAX_SPACES g space_id) = NO_ID then
    { g with status := STATUS.ERROR }
  else if NO_ID = space_id then { g with status := STATUS.ERROR }
  else move_loop space_get_north g space_id (g.spaces.take MAX_SPACES)

/-- Embedding of `game_callback_left`. -/
def game_callback_left (MAX_SPACES : Nat) (g : Game) : Game :=
  let space_id := player_get_location g.player
  if NO_ID = space_id then { g with status := STATUS.ERROR }
  else move_loop space_get_west g space_id (g.spaces.take MAX_SPACES)

/-- Embedding of `game_callback_right`. -/
def game_callback_right (MAX_SPACES : Nat) (g : Game) : Game :=
  let space_id := player_get_location g.player
  if NO_ID = space_id then { g with status := STATUS.ERROR }
  else move_loop space_get_east g space_id (g.spaces.take MAX_SPACES)

/-- Writing through the pointer `game_get_space` returned: slot `i` of the registry gets the
updated space; a `NULL` pointer writes nothing. -/
def store_space (g : Game) (ptr : Option Nat) (sp : Option Space) : Game :=
  match ptr with
  | none => g
  | some i => { g with spaces := g.spaces.set i sp }

/-- Embedding of `game_callback_take`; `input` is the token `scanf` read. -/
def game_callback_take (MAX_SPACES MAX_OBJECTS MAX_ID : Nat) (g : Game) (input : String) : Game :=
  let object_id := object_get_id (game_get_object_by_name MAX_OBJECTS g input)
  if g.player = none ∨ object_id = NO_ID ∨ player_get_object (game_get_player g) ≠ NO_ID then
    { g with status := STATUS.ERROR }
  else if player_get_location g.player ≠ game_get_object_location MAX_SPACES MAX_ID g object_id then
    { g with status := STATUS.ERROR }
  else
    let r := player_set_object g.player object_id
    if r.1 = STATUS.ERROR then { g with status := STATUS.ERROR }
    else
      let g1 := { g with player := r.2 }
      let ptr := game_get_space_index MAX_SPACES g1
        (game_get_object_location MAX_SPACES MAX_ID g1 object_id)
      let d := space_del_object (game_get_space MAX_SPACES g1
        (game_get_object_location MAX_SPACES MAX_ID g1 object_id)) object_id
      let g2 := store_space g1 ptr d.2
      if d.1 = STATUS.ERROR then { g2 with status := STATUS.ERROR }
      else { g2 with status := STATUS.OK }

/-- Embedding of `game_callback_drop`. -/
def game_callback_drop (MAX_SPACES MAX_ID : Nat) (g : Game) : Game :=
  if g.player = none then { g with status := STATUS.ERROR }
  else
    let object_id := player_get_object g.player
    let ptr := game_get_space_index MAX_SPACES g (player_get_location g.player)
    let a := space_set_object MAX_ID (game_get_space MAX_SPACES g (player_get_location g.player))
      object_id
    let g1 := store_space g ptr a.2
    if a.1 = STATUS.ERROR then { g1 with status := STATUS.ERROR }
    else
      let r := player_set_object g1.player NO_ID
      if r.1 = STATUS.ERROR then { g1 with status := STATUS.ERROR }
      else { g1 with player := r.2, status := STATUS.OK }

/-- Embedding of `game_callback_roll`. -/
def game_callback_roll (g : Game) (rnd : Nat) : Game :=
  if g.die = none then { g with status := STATUS.ERROR }
  else
    let r := die_roll g.die rnd
    if r.1 = STATUS.ERROR then { g with status := STATUS.ERROR }
    else
      let g1 := { g with die := r.2 }
      if die_print g1.die = STATUS.ERROR then { g1 with status := STATUS.ERROR }
      else { g1 with status := STATUS.OK }

/-- The number of entries of the callback table, `#define N_CALLBACK 9`. -/
def N_CALLBACK : Nat := 9

/-- The table `game_callback_fn_list`, each handler given the outside input it reads. -/
def game_callback_fn_list (MAX_SPACES MAX_OBJECTS MAX_ID : Nat) : List (Game → Input → Game) :=
  [ fun g _ => game_callback_unknown g,
    fun g _ => game_callback_exit g,
    fun g _ => game_callback_next MAX_SPACES g,
    fun g _ => game_callback_back MAX_SPACES g,
    fun g i => game_callback_take MAX_SPACES MAX_OBJECTS MAX_ID g i.token,
    fun g _ => game_callback_drop MAX_SPACES MAX_ID g,
    fun g i => game_callback_roll g i.rnd,
    fun g _ => game_callback_left MAX_SPACES g,
    fun g _ => game_callback_right MAX_SPACES g ]

/-- Embedding of `game_update`: the returned status and the game afterwards; `none` when the
command value indexes outside the table (undefined behaviour in C). -/
def game_update (MAX_SPACES MAX_OBJECTS MAX_ID : Nat) (g : Game) (cmd : T_Command) (inp : Input) :
    Option (STATUS × Game) :=
  if cmd < 0 then none
  else
    match (game_callback_fn_list MAX_SPACES MAX_OBJECTS MAX_ID)[cmd.toNat]? with
    | none => none
    | some f => some (STATUS.OK, f { g with last_cmd := cmd } inp)

/-- Embedding of `game_create`. `mem` is what `malloc` returned (`none` for `NULL`, otherwise
the uninitialised memory, which the fields not written keep), `die` what `die_create`
returned. The first `MAX_SPACES` space slots and the first `MAX_OBJECTS` object slots are
cleared. -/
def game_create (MAX_SPACES MAX_OBJECTS : Nat) (mem : Option Game) (die : Option Die) :
    Option Game :=
  match mem with
  | none => none
  | some m =>
    if die = none then none
    else some { m with
      spaces := List.replicate MAX_SPACES none ++ m.spaces.drop MAX_SPACES,
      objects := List.replicate MAX_OBJECTS none ++ m.objects.drop MAX_OBJECTS,
      player := none,
      die := die,
      last_cmd := NO_CMD }

/-- Embedding of `game_add_space`; `none` is a `NULL` argument. -/
def game_add_space (MAX_SPACES : Nat) (g : Game) (space : Option Space) : STATUS × Game :=
  match space with
  | none => (STATUS.ERROR, g)
  | some s =>
    let i := first_free (g.spaces.take MAX_SPACES) 0
    if MAX_SPACES ≤ i then (STATUS.ERROR, g)
    else (STATUS.OK, { g with spaces := write_slot g.spaces i (some s) })

/-- Embedding of `game_set_player`; `none` is a `NULL` argument. -/
def game_set_player (g : Game) (player : Option Player) : STATUS × Game :=
  match player with
  | none => (STATUS.ERROR, g)
  | some p => (STATUS.OK, { g with player := some p })

/-- Embedding of `game_set_object`; `none` is a `NULL` argument. -/
def game_set_object (MAX_OBJECTS : Nat) (g : Game) (object : Option Object) : STATUS × Game :=
  match object with
  | none => (STATUS.ERROR, g)
  | some o =>
    let i := first_free (g.objects.take MAX_OBJECTS) 0
    if MAX_OBJECTS ≤ i then (STATUS.ERROR, g)
    else (STATUS.OK, { g with objects := write_slot g.objects i (some o) })

end Entrega2

/-! ## Examen -/

namespace Examen

/-- Modelled from the spec: a space (`space.c` is not among the sources): identifier, name, four
neighbour links and the illumination flag. -/
structure Space where
  id : Id
  name : String
  north : Id
  east : Id
  south : Id
  west : Id
  illuminated : BOOL
deriving DecidableEq, Repr

/-- Modelled from the spec: the game of the absent `game.h`, with the fields `game.c` uses: the
space registry, the player and object locations, the last command and the description of the
last look. -/
structure Game where
  spaces : List (Option Space)
  player_location : Id
  object_location : Id
  last_cmd : T_Command
  description : String
deriving DecidableEq, Repr

/-- Modelled from the spec: `space_get_id` of the absent `space.c`; `NO_ID` for `NULL`. -/
def space_get_id : Option Space → Id
  | none => NO_ID
  | some s => s.id

/-- Modelled from the spec: `space_get_north` of the absent `space.c`; `NO_ID` for `NULL`. -/
def space_get_north : Option Space → Id
  | none => NO_ID
  | some s => s.north

/-- Modelled from the spec: `space_get_south` of the absent `space.c`; `NO_ID` for `NULL`. -/
def space_get_south : Option Space → Id
  | none => NO_ID
  | some s => s.south

/-- Modelled from the spec: `space_get_illuminated` of the absent `space.c`; `FALSE` for
`NULL`. -/
def space_get_illuminated : Option Space → BOOL
  | none => BOOL.FALSE
  | some s => s.illuminated

/-- Modelled from the spec: `space_set_illuminated` of the absent `space.c`: sets the flag;
fails for `NULL`. -/
def space_set_illuminated (sp : Option Space) (b : BOOL) : STATUS × Option Space :=
  match sp with
  | none => (STATUS.ERROR, none)
  | some s => (STATUS.OK, some { s with illuminated := b })

/-- Modelled from the spec: `space_get_name` of the absent `space.c`: the name, `none` (a
`NULL` string) for `NULL`. -/
def space_get_name : Option Space → Option String
  | none => none
  | some s => some s.name

/-- Command values in the order of `game_callback_fn_list`. -/
def UNKNOWN : T_Command := 0
/-- Command value of the table entry `game_callback_exit`. -/
def EXIT : T_Command := 1
/-- Command value of the table entry `game_callback_next`. -/
def NEXT : T_Command := 2
/-- Command value of the table entry `game_callback_back`. -/
def BACK : T_Command := 3
/-- Command value of the table entry `game_callback_turnon`. -/
def TURNON : T_Command := 4
/-- Command value of the table entry `game_callback_turnoff`. -/
def TURNOFF : T_Command := 5
/-- Command value of the table entry `game_callback_look`. -/
def LOOK : T_Command := 6

/-- The scan `for (i = 0; i < MAX_SPACES && game->spaces[i] != NULL; i++)` of `game_get_space`
over the slots from index `i` on: the index of the first space with the id. -/
def find_space (id : Id) : List (Option Space) → Nat → Option Nat
  | [], _ => none
  | none :: _, _ => none
  | some s :: rest, i =>
    if id = space_get_id (some s) then some i else find_space id rest (i + 1)

/-- The slot `game_get_space` returns a pointer to. -/
def game_get_space_index (MAX_SPACES : Nat) (g : Game) (id : Id) : Option Nat :=
  if id = NO_ID then none else find_space id (g.spaces.take MAX_SPACES) 0

/-- The space `game_get_space` returns, `none` for `NULL`. -/
def game_get_space (MAX_SPACES : Nat) (g : Game) (id : Id) : Option Space :=
  match game_get_space_index MAX_SPACES g id with
  | none => none
  | some i => slot g.spaces i

/-- Embedding of `game_get_space_id_at`. -/
def game_get_space_id_at (MAX_SPACES : Nat) (g : Game) (position : Int) : Id :=
  if position < 0 ∨ (MAX_SPACES : Int) ≤ position then NO_ID
  else space_get_id (slot g.spaces position.toNat)

/-- Embedding of `game_set_player_location`. -/
def game_set_player_location (g : Game) (id : Id) : STATUS × Game :=
  if id = NO_ID then (STATUS.ERROR, g) else (STATUS.OK, { g with player_location := id })

/-- Embedding of `game_set_object_location`. -/
def game_set_object_location (g : Game) (id : Id) : STATUS × Game :=
  if id = NO_ID then (STATUS.ERROR, g) else (STATUS.OK, { g with object_location := id })

/-- What `strncpy(dst, src, n)` leaves as the text of `dst`: `src` itself when it is shorter
than `n` (the copy is then terminated inside the `n` bytes written), otherwise its first `n`
characters (the text ends there when the byte after them is the terminator). -/
def strncpy (src : String) (n : Nat) : String := ⟨src.data.take n⟩

/-- Embedding of `game_set_description`; `none` is a `NULL` description. -/
def game_set_description (WORD_SIZE : Nat) (g : Game) (description : Option String) :
    STATUS × Game :=
  match description with
  | none => (STATUS.ERROR, g)
  | some d => (STATUS.OK, { g with description := strncpy d WORD_SIZE })

/-- Embedding of `game_get_description`. -/
def game_get_description (g : Game) : String := g.description

/-- Embedding of `game_get_player_location`. -/
def game_get_player_location (g : Game) : Id := g.player_location

/-- Embedding of `game_get_object_location`. -/
def game_get_object_location (g : Game) : Id := g.object_location

/-- Embedding of `game_get_last_command`. -/
def game_get_last_command (g : Game) : T_Command := g.last_cmd

/-- Embedding of `game_callback_unknown`. -/
def game_callback_unknown (g : Game) : Game := g

/-- Embedding of `game_callback_exit`. -/
def game_callback_exit (g : Game) : Game := g

/-- The `for` loop shared, up to the link read, by `game_callback_next` and
`game_callback_back`, over the slots still to visit. -/
def move_loop (link : Option Space → Id) (g : Game) (space_id : Id) : List (Option Space) → Game
  | [] => g
  | none :: _ => g
  | some s :: rest =>
    if space_get_id (some s) = space_id then
      let current_id := link (some s)
      if current_id ≠ NO_ID then (game_set_player_location g current_id).2 else g
    else move_loop link g space_id rest

/-- Embedding of `game_callback_next`. -/
def game_callback_next (MAX_SPACES : Nat) (g : Game) : Game :=
  let space_id := game_get_player_location g
  if space_id = NO_ID then g
  else move_loop space_get_south g space_id (g.spaces.take MAX_SPACES)

/-- Embedding of `game_callback_back`. -/
def game_callback_back (MAX_SPACES : Nat) (g : Game) : Game :=
  let space_id := game_get_player_location g
  if NO_ID = space_id then g
  else move_loop space_get_north g space_id (g.spaces.take MAX_SPACES)

/-- Writing through the pointer `game_get_space` returned: slot `i` of the registry gets the
updated space; a `NULL` pointer writes nothing. -/
def store_space (g : Game) (ptr : Option Nat) (sp : Option Space) : Game :=
  match ptr with
  | none => g
  | some i => { g with spaces := g.spaces.set i sp }

/-- Embedding of `game_callback_turnon`. -/
def game_callback_turnon (MAX_SPACES : Nat) (g : Game) : Game :=
  let space_id := game_get_player_location g
  if space_id = NO_ID then g
  else store_space g (game_get_space_index MAX_SPACES g space_id)
    (space_set_illuminated (game_get_space MAX_SPACES g space_id) BOOL.TRUE).2

/-- Embedding of `game_callback_turnoff`. -/
def game_callback_turnoff (MAX_SPACES : Nat) (g : Game) : Game :=
  let space_id := game_get_player_location g
  if space_id = NO_ID then g
  else store_space g (game_get_space_index MAX_SPACES g space_id)
    (space_set_illuminated (game_get_space MAX_SPACES g space_id) BOOL.FALSE).2

/-- One `if (strcmp(input, long) == 0 || strcmp(input, short) == 0) { ... }` block of
`game_callback_look` for the space `sp`: the game afterwards, and whether the block
returned from the handler. -/
def look_block (WORD_SIZE : Nat) (g : Game) (input long short : String) (sp : Option Space) :
    Game × Bool :=
  if input = long ∨ input = short then
    if sp = none then (g, true)
    else if space_get_illuminated sp = BOOL.FALSE then
      ((game_set_description WORD_SIZE g (some "Space is not illuminated")).2, true)
    else ((game_set_description WORD_SIZE g (space_get_name sp)).2, false)
  else (g, false)

/-- The value an `int` holds after a `long` was assigned to it: the number of the same residue
modulo 2^32 within the range of `int` (32 bits beside a `long` of 64; the conversion the
compilers of such platforms make). A value of the range of `int` is kept. -/
def int_of_long (x : Int) : Int := (x + 2147483648) % 4294967296 - 2147483648

/-- Embedding of `game_callback_look`; `input` is the token `scanf` read. The local `act_id`
is declared `int`, so the player location (an `Id`, a `long`) is narrowed when it is stored
there, and the narrowed value is what is compared and looked up. -/
def game_callback_look (MAX_SPACES WORD_SIZE : Nat) (g : Game) (input : String) : Game :=
  let act_id := int_of_long (game_get_player_location g)
  if act_id = NO_ID then g
  else
    let next := game_get_space MAX_SPACES g (space_get_south (game_get_space MAX_SPACES g act_id))
    let act := game_get_space MAX_SPACES g act_id
    let back := game_get_space MAX_SPACES g (space_get_north (game_get_space MAX_SPACES g act_id))
    let b1 := look_block WORD_SIZE g input "back" "b" back
    if b1.2 then b1.1
    else
      let b2 := look_block WORD_SIZE b1.1 input "here" "h" act
      if b2.2 then b2.1
      else (look_block WORD_SIZE b2.1 input "next" "n" next).1

/-- The number of entries of the callback table, `#define N_CALLBACK 7`. -/
def N_CALLBACK : Nat := 7

/-- The table `game_callback_fn_list`, each handler given the `scanf` token it may read. -/
def game_callback_fn_list (MAX_SPACES WORD_SIZE : Nat) : List (Game → String → Game) :=
  [ fun g _ => game_callback_unknown g,
    fun g _ => game_callback_exit g,
    fun g _ => game_callback_next MAX_SPACES g,
    fun g _ => game_callback_back MAX_SPACES g,
    fun g _ => game_callback_turnon MAX_SPACES g,
    fun g _ => game_callback_turnoff MAX_SPACES g,
    fun g i => game_callback_look MAX_SPACES WORD_SIZE g i ]

/-- Embedding of `game_update`: the returned status and the game afterwards; `none` when the
command value indexes outside the table (undefined behaviour in C). -/
def game_update (MAX_SPACES WORD_SIZE : Nat) (g : Game) (cmd : T_Command) (input : String) :
    Option (STATUS × Game) :=
  if cmd < 0 then none
  else
    match (game_callback_fn_list MAX_SPACES WORD_SIZE)[cmd.toNat]? with
    | none => none
    | some f => some (STATUS.OK, f { g with description := "", last_cmd := cmd } input)

/-- Embedding of `game_add_space`; `none` is a `NULL` argument. -/
def game_add_space (MAX_SPACES : Nat) (g : Game) (space : Option Space) : STATUS × Game :=
  match space with
  | none => (STATUS.ERROR, g)
  | some s =>
    let i := first_free (g.spaces.take MAX_SPACES) 0
    if MAX_SPACES ≤ i then (STATUS.ERROR, g)
    else (STATUS.OK, { g with spaces := write_slot g.spaces i (some s) })

/-- Embedding of `game_create`: the first `MAX_SPACES` slots are set to `NULL`, both locations
to `NO_ID`, the last command to `NO_CMD` and the description to the empty text; `g` is the
memory handed in, whatever it holds. -/
def game_create (MAX_SPACES : Nat) (g : Game) : STATUS × Game :=
  (STATUS.OK, { g with
    spaces := List.replicate MAX_SPACES none ++ g.spaces.drop MAX_SPACES,
    player_location := NO_ID, object_location := NO_ID, last_cmd := NO_CMD,
    description := "" })

/-- Modelled from the spec: `space_create` of the absent `space.c`: a new space with the id,
without name or links and not illuminated. Whether the call delivers a space (it may find no
memory or refuse the id) is the argument `created`. -/
def space_create (created : Bool) (id : Id) : Option Space :=
  if created then
    some { id := id, name := "", north := NO_ID, east := NO_ID, south := NO_ID, west := NO_ID,
           illuminated := BOOL.FALSE }
  else none

/-- Modelled from the spec: `space_set_name` of the absent `space.c`; fails for `NULL`. -/
def space_set_name (sp : Option Space) (name : String) : STATUS × Option Space :=
  match sp with
  | none => (STATUS.ERROR, none)
  | some s => (STATUS.OK, some { s with name := name })

/-- Modelled from the spec: `space_set_north` of the absent `space.c`; fails for `NULL`. -/
def space_set_north (sp : Option Space) (id : Id) : STATUS × Option Space :=
  match sp with
  | none => (STATUS.ERROR, none)
  | some s => (STATUS.OK, some { s with north := id })

/-- Modelled from the spec: `space_set_east` of the absent `space.c`; fails for `NULL`. -/
def space_set_east (sp : Option Space) (id : Id) : STATUS × Option Space :=
  match sp with
  | none => (STATUS.ERROR, none)
  | some s => (STATUS.OK, some { s with east := id })

/-- Modelled from the spec: `space_set_south` of the absent `space.c`; fails for `NULL`. -/
def space_set_south (sp : Option Space) (id : Id) : STATUS × Option Space :=
  match sp with
  | none => (STATUS.ERROR, none)
  | some s => (STATUS.OK, some { s with south := id })

/-- Modelled from the spec: `space_set_west` of the absent `space.c`; fails for `NULL`. -/
def space_set_west (sp : Option Space) (id : Id) : STATUS × Option Space :=
  match sp with
  | none => (STATUS.ERROR, none)
  | some s => (STATUS.OK, some { s with west := id })

/-- The largest value of the C type `long`, taken of 64 bits. -/
def LONG_MAX : Int := 9223372036854775807

/-- The smallest value of the C type `long`, taken of 64 bits. -/
def LONG_MIN : Int := -9223372036854775808

/-- The character class `isspace` of the C library: blank, and the controls from tab to
carriage return. -/
def isspace (c : Char) : Bool := c.toNat = 32 || (9 ≤ c.toNat && c.toNat ≤ 13)

/-- The character class `isdigit` of the C library. -/
def isdigit (c : Char) : Bool := 48 ≤ c.toNat && c.toNat ≤ 57

/-- The decimal digits `atol` reads, continuing the value `acc`: it stops at the first
character that is no digit. -/
def atol_digits : List Char → Nat → Nat
  | [], acc => acc
  | c :: cs, acc => if isdigit c then atol_digits cs (acc * 10 + (c.toNat - 48)) else acc

/-- The C library function `atol` on a text: white space is skipped, then an optional sign and
the decimal digits are read, and a text without digits there gives 0. The C standard leaves the
call undefined (`none`) when the value is no `long`. -/
def atol (s : List Char) : Option Int :=
  let t := s.dropWhile isspace
  let v : Int :=
    match t with
    | [] => 0
    | c :: cs =>
      if c = '-' then - (atol_digits cs 0 : Int)
      else if c = '+' then (atol_digits cs 0 : Int)
      else (atol_digits t 0 : Int)
  if LONG_MIN ≤ v ∧ v ≤ LONG_MAX then some v else none

/-- The tokens the successive calls `strtok(text, delim)`, `strtok(NULL, delim)`, ... deliver
for a one-character delimiter: the maximal stretches without the delimiter, none of them
empty; `acc` is the token being read, last character first. After them `strtok` returns
`NULL`. -/
def strtok_tokens (delim : Char) : List Char → List Char → List (List Char)
  | [], acc => if acc = [] then [] else [acc.reverse]
  | c :: cs, acc =>
    if c = delim then
      if acc = [] then strtok_tokens delim cs [] else acc.reverse :: strtok_tokens delim cs []
    else strtok_tokens delim cs (c :: acc)

/-- The value of type `BOOL` that the assignment `illuminated = atol(toks)` stores: `FALSE`
for 0; any other number compares unequal to `FALSE`, as `TRUE` does. -/
def BOOL_of_long (v : Int) : BOOL := if v = 0 then BOOL.FALSE else BOOL.TRUE

/-- One pass of the loop `while (fgets(line, WORD_SIZE, file))` of `game_load_spaces`: the
text `fgets` delivers in `line` (fewer than `WORD_SIZE` characters), and whether
`space_create`, if the pass calls it, delivers a space. -/
structure Line where
  text : String
  created : Bool
deriving DecidableEq, Repr

/-- An opened file as `game_load_spaces` reads it: the passes of its loop until `fgets`
returns `NULL`, and what `ferror` reports afterwards. -/
structure File where
  lines : List Line
  error : Bool
deriving DecidableEq, Repr

/-- The body of the loop of `game_load_spaces` up to the call of `game_add_space`: the space
handed to `game_add_space`; `some none` when the line does not begin with "#s:" or
`space_create` returns `NULL` (nothing is added), and `none` when the line has fewer than
seven fields, so that `strtok` returns `NULL` and `atol` or `strcpy` is called on it (undefined
in C), or a number is no `long`. -/
def read_space (l : Line) : Option (Option Space) :=
  if l.text.data.take 3 ≠ ['#', 's', ':'] then some none
  else
    match strtok_tokens '|' (l.text.data.drop 3) [] with
    | t1 :: t2 :: t3 :: t4 :: t5 :: t6 :: t7 :: _ =>
      match atol t1, atol t3, atol t4, atol t5, atol t6, atol t7 with
      | some id, some north, some east, some south, some west, some illuminated =>
        match space_create l.created id with
        | none => some none
        | some space =>
          let s1 := (space_set_name (some space) (String.mk t2)).2
          let s2 := (space_set_north s1 north).2
          let s3 := (space_set_east s2 east).2
          let s4 := (space_set_south s3 south).2
          let s5 := (space_set_west s4 west).2
          some (space_set_illuminated s5 (BOOL_of_long illuminated)).2
      | _, _, _, _, _, _ => none
    | _ => none

/-- One pass of the loop of `game_load_spaces`: the game afterwards (the status of
`game_add_space` is not looked at); `none` when the pass is undefined. -/
def load_line (MAX_SPACES : Nat) (g : Game) (l : Line) : Option Game :=
  match read_space l with
  | none => none
  | some none => some g
  | some (some space) => some (game_add_space MAX_SPACES g (some space)).2

/-- The loop `while (fgets(line, WORD_SIZE, file))` of `game_load_spaces`. -/
def load_loop (MAX_SPACES : Nat) : Game → List Line → Option Game
  | g, [] => some g
  | g, l :: ls =>
    match load_line MAX_SPACES g l with
    | none => none
    | some g1 => load_loop MAX_SPACES g1 ls

/-- Embedding of `game_load_spaces`: `filename` is `none` for a `NULL` name, `file` is what
`fopen(filename, "r")` returns, `none` for `NULL`. The result is `none` when a pass of the loop
is undefined. -/
def game_load_spaces (MAX_SPACES : Nat) (g : Game) (filename : Option String)
    (file : Option File) : Option (STATUS × Game) :=
  match filename with
  | none => some (STATUS.ERROR, g)
  | some _ =>
    match file with
    | none => some (STATUS.ERROR, g)
    | some f =>
      match load_loop MAX_SPACES g f.lines with
      | none => none
      | some g1 => some (if f.error then STATUS.ERROR else STATUS.OK, g1)

/-- Embedding of `game_create_from_file`; the arguments `filename` and `file` are those of
`game_load_spaces`. -/
def game_create_from_file (MAX_SPACES : Nat) (g : Game) (filename : Option String)
    (file : Option File) : Option (STATUS × Game) :=
  let c := game_create MAX_SPACES g
  if c.1 = STATUS.ERROR then some (STATUS.ERROR, c.2)
  else
    match game_load_spaces MAX_SPACES c.2 filename file with
    | none => none
    | some l =>
      if l.1 = STATUS.ERROR then some (STATUS.ERROR, l.2)
      else
        let g1 := (game_set_player_location l.2 (game_get_space_id_at MAX_SPACES l.2 0)).2
        let g2 := (game_set_object_location g1 (game_get_space_id_at MAX_SPACES g1 0)).2
        some (STATUS.OK, g2)

end Examen

/-! ## Notions used to state the properties -/

/-- The linear scan to the first match, in the words of the spec: the index, counted from
`i`, of the first entry that satisfies `p` among the slots before the first `NULL`. -/
def first_match {α : Type} (p : α → Bool) : List (Option α) → Nat → Option Nat
  | [], _ => none
  | none :: _, _ => none
  | some a :: rest, i => if p a then some i else first_match p rest (i + 1)

/-- A registry is left-packed: its first `MAX` slots are non-empty up to some index `k` and
empty from `k` on. -/
def left_packed {α : Type} (MAX : Nat) (xs : List (Option α)) : Prop :=
  ∃ k, k ≤ MAX ∧ (∀ i, i < k → slot xs i ≠ none) ∧ (∀ i, k ≤ i → i < MAX → slot xs i = none)

/-- The lookup result `r` is, in the words of the spec, the first match of a registry of
`MAX` slots: the entry with the smallest index that satisfies `p`, and `NULL` when no entry of
the registry satisfies `p`. -/
def returns_first_match {α : Type} (MAX : Nat) (xs : List (Option α)) (p : α → Prop)
    (r : Option α) : Prop :=
  (∀ a, r = some a ↔
    ∃ k, k < MAX ∧ slot xs k = some a ∧ p a ∧ ∀ j, j < k → ∀ b, slot xs j = some b → ¬ p b) ∧
  (r = none ↔ ∀ k, k < MAX → ∀ b, slot xs k = some b → ¬ p b)

/-- The registered entries of a registry: the slots before the first `NULL`. -/
def registered {α : Type} : List (Option α) → List α
  | [] => []
  | none :: _ => []
  | some a :: rest => a :: registered rest

namespace Entrega2

/-- The registered spaces of a game: those `game_get_space` scans. -/
def registered_spaces (MAX_SPACES : Nat) (g : Game) : List Space :=
  registered (g.spaces.take MAX_SPACES)

/-- The registered objects of a game: those `game_get_object` scans. -/
def registered_objects (MAX_OBJECTS : Nat) (g : Game) : List Object :=
  registered (g.objects.take MAX_OBJECTS)

/-- The id of the first space, among the slots before the first `NULL`, in whose object set the
inner loop of `game_get_object_location` finds the id; `NO_ID` when there is none. -/
def first_location (MAX_ID : Nat) (id : Id) : List (Option Space) → Id
  | [] => NO_ID
  | none :: _ => NO_ID
  | some s :: rest =>
    if scan_objects id (s.objects.take MAX_ID) then s.id else first_location MAX_ID id rest

/-- How many times an id occurs in the object sets of a list of spaces. -/
def occurrences (id : Id) : List Space → Nat
  | [] => 0
  | s :: rest => s.objects.count id + occurrences id rest

/-- How many times an id occurs in the object sets of the registered spaces. An object set is a
list here, so "member of exactly one space's object set" is "occurs exactly once". -/
def object_occurrences (MAX_SPACES : Nat) (g : Game) (id : Id) : Nat :=
  occurrences id (registered_spaces MAX_SPACES g)

/-- The object sets of the registered spaces are sets of the data model: at most `MAX_ID`
members, none of them the sentinel (which marks the end of a set for
`game_get_object_location`). -/
def object_sets_bounded (MAX_SPACES MAX_ID : Nat) (g : Game) : Prop :=
  ∀ s ∈ registered_spaces MAX_SPACES g, NO_ID ∉ s.objects ∧ s.objects.length ≤ MAX_ID

instance (MAX_SPACES MAX_ID : Nat) (g : Game) :
    Decidable (object_sets_bounded MAX_SPACES MAX_ID g) := by
  unfold object_sets_bounded; infer_instance

/-- The predicate of the data model on where objects are: every registered object either
occurs exactly once in the object sets of the registered spaces and is not the object carried
by the player, or is carried by the player and occurs in no object set. -/
def object_invariant (MAX_SPACES MAX_OBJECTS : Nat) (g : Game) : Prop :=
  ∀ ob ∈ registered_objects MAX_OBJECTS g,
    (player_get_object g.player = ob.id ∧ object_occurrences MAX_SPACES g ob.id = 0) ∨
    (player_get_object g.player ≠ ob.id ∧ object_occurrences MAX_SPACES g ob.id = 1)

instance (MAX_SPACES MAX_OBJECTS : Nat) (g : Game) :
    Decidable (object_invariant MAX_SPACES MAX_OBJECTS g) := by
  unfold object_invariant; infer_instance

/-- No two registered spaces share an id, and none has the sentinel as id. -/
def space_ids_distinct (MAX_SPACES : Nat) (g : Game) : Prop :=
  ((registered_spaces MAX_SPACES g).map (fun s => s.id)).Nodup ∧
    NO_ID ∉ (registered_spaces MAX_SPACES g).map (fun s => s.id)

instance (MAX_SPACES : Nat) (g : Game) : Decidable (space_ids_distinct MAX_SPACES g) := by
  unfold space_ids_distinct; infer_instance

/-- No registered object has the sentinel as id. -/
def object_ids_set (MAX_OBJECTS : Nat) (g : Game) : Prop :=
  ∀ ob ∈ registered_objects MAX_OBJECTS g, ob.id ≠ NO_ID

instance (MAX_OBJECTS : Nat) (g : Game) : Decidable (object_ids_set MAX_OBJECTS g) := by
  unfold object_ids_set; infer_instance

/-- Between game `g` and game `r` no slot of a registry was filled or emptied and no stored
entry was removed or moved: the object registry is the same, the empty space slots are the
same, and a slot that held a space holds that space (possibly with another object set). -/
def slots_frame (g r : Game) : Prop :=
  r.objects = g.objects ∧ (∀ i, slot r.spaces i = none ↔ slot g.spaces i = none) ∧
    ∀ i s, slot g.spaces i = some s →
      ∃ t, slot r.spaces i = some t ∧ t = { s with objects := t.objects }

/-- The calls on a game after `game_create`: adding a space, registering an object, setting
the player, and running a command through `game_update`. -/
inductive Call where
  | add_space (space : Option Space)
  | set_object (object : Option Object)
  | set_player (player : Option Player)
  | update (cmd : T_Command) (inp : Input)

/-- The game after one call; `none` when `game_update` is given a command value outside the
callback table. -/
def run_call (MAX_SPACES MAX_OBJECTS MAX_ID : Nat) (g : Game) : Call → Option Game
  | Call.add_space space => some (game_add_space MAX_SPACES g space).2
  | Call.set_object object => some (game_set_object MAX_OBJECTS g object).2
  | Call.set_player player => some (game_set_player g player).2
  | Call.update cmd inp =>
    match game_update MAX_SPACES MAX_OBJECTS MAX_ID g cmd inp with
    | none => none
    | some r => some r.2

/-- The game after a sequence of calls. -/
def run_calls (MAX_SPACES MAX_OBJECTS MAX_ID : Nat) : Game → List Call → Option Game
  | g, [] => some g
  | g, c :: cs =>
    match run_call MAX_SPACES MAX_OBJECTS MAX_ID g c with
    | none => none
    | some r => run_calls MAX_SPACES MAX_OBJECTS MAX_ID r cs

/-- No stored entry was removed or moved between game `g` and game `r`: every slot that held a
space holds that space (its id, name and links; its object set may have changed), and every
slot that held an object holds that object. -/
def entries_kept (g r : Game) : Prop :=
  (∀ i s, slot g.spaces i = some s →
    ∃ t, slot r.spaces i = some t ∧ t = { s with objects := t.objects }) ∧
  (∀ i o, slot g.objects i = some o → slot r.objects i = some o)

end Entrega2

namespace Examen

/-- What a look at a space describes, in the words of the spec: the name of the space when it
is illuminated, the fixed text when it is not, and nothing when there is no such space. -/
def look_text (sp : Option Space) : String :=
  match sp with
  | none => ""
  | some s => if s.illuminated = BOOL.TRUE then s.name else "Space is not illuminated"

/-- The spaces a file defines, in the order of its lines: those the passes of the loop of
`game_load_spaces` hand to `game_add_space`; `none` when a pass is undefined. -/
def defined_spaces : List Line → Option (List Space)
  | [] => some []
  | l :: ls =>
    match read_space l, defined_spaces ls with
    | some (some s), some rest => some (s :: rest)
    | some none, some rest => some rest
    | _, _ => none

end Examen

/-! ## Example games -/

/-- A game of Entrega 2 with two spaces, 1 south of which lies 2, the player in space 1. -/
def movementGame : Entrega2.Game :=
  { player := some { id := 1, name := "p", location := 1, object := NO_ID },
    objects := [none],
    spaces := [some { id := 1, name := "A", north := NO_ID, east := NO_ID, south := 2,
                      west := NO_ID, objects := [] },
               some { id := 2, name := "B", north := 1, east := NO_ID, south := NO_ID,
                      west := NO_ID, objects := [] },
               none],
    die := none, last_cmd := NO_CMD, status := STATUS.ERROR }

/-- A game of Examen with two spaces, 1 south of which lies 2, the player in space 1. -/
def movementExam : Examen.Game :=
  { spaces := [some { id := 1, name := "A", north := NO_ID, east := NO_ID, south := 2,
                      west := NO_ID, illuminated := BOOL.TRUE },
               some { id := 2, name := "B", north := 1, east := NO_ID, south := NO_ID,
                      west := NO_ID, illuminated := BOOL.FALSE },
               none],
    player_location := 1, object_location := 1, last_cmd := NO_CMD, description := "" }

/-- A game of Entrega 2 whose player, in space 1, carries object 7; object 8, named "key", lies
in space 1. -/
def carryingGame : Entrega2.Game :=
  { player := some { id := 1, name := "p", location := 1, object := 7 },
    objects := [some { id := 7, name := "lamp" }, some { id := 8, name := "key" }, none],
    spaces := [some { id := 1, name := "A", north := NO_ID, east := NO_ID, south := 2,
                      west := NO_ID, objects := [8] },
               some { id := 2, name := "B", north := 1, east := NO_ID, south := NO_ID,
                      west := NO_ID, objects := [] },
               none],
    die := none, last_cmd := NO_CMD, status := STATUS.OK }

/-- A game of Entrega 2 whose player, in space 2, carries nothing; object 8, named "key", lies
in space 1 and object 7, named "lamp", in space 2. -/
def emptyHandedGame : Entrega2.Game :=
  { player := some { id := 1, name := "p", location := 2, object := NO_ID },
    objects := [some { id := 7, name := "lamp" }, some { id := 8, name := "key" }, none],
    spaces := [some { id := 1, name := "A", north := NO_ID, east := NO_ID, south := 2,
                      west := NO_ID, objects := [8] },
               some { id := 2, name := "B", north := 1, east := NO_ID, south := NO_ID,
                      west := NO_ID, objects := [7] },
               none],
    die := none, last_cmd := NO_CMD, status := STATUS.OK }

/-- A game of Entrega 2 in which the id 8 lies in the object sets of both spaces (two objects
were registered with the same id); the player, in space 1, carries nothing. -/
def twiceLaidGame : Entrega2.Game :=
  { player := some { id := 1, name := "p", location := 1, object := NO_ID },
    objects := [some { id := 8, name := "key" }, some { id := 8, name := "coin" }, none],
    spaces := [some { id := 1, name := "A", north := NO_ID, east := NO_ID, south := 2,
                      west := NO_ID, objects := [8] },
               some { id := 2, name := "B", north := 1, east := NO_ID, south := NO_ID,
                      west := NO_ID, objects := [8] },
               none],
    die := none, last_cmd := NO_CMD, status := STATUS.OK }

/-- A game of Entrega 2 in which two registered spaces share the id 1: the first has an empty
object set, the second holds object 8, the "key"; the player, in space 1, carries nothing. -/
def shadowedGame : Entrega2.Game :=
  { player := some { id := 1, name := "p", location := 1, object := NO_ID },
    objects := [some { id := 8, name := "key" }, none],
    spaces := [some { id := 1, name := "A", north := NO_ID, east := NO_ID, south := NO_ID,
                      west := NO_ID, objects := [] },
               some { id := 1, name := "B", north := NO_ID, east := NO_ID, south := NO_ID,
                      west := NO_ID, objects := [8] },
               none],
    die := none, last_cmd := NO_CMD, status := STATUS.OK }

/-- A game of Examen with the two spaces of `movementExam` whose player has no location. -/
def unlocatedExam : Examen.Game :=
  { movementExam with player_location := NO_ID }

/-- A game of Entrega 2 whose player, without a location and carrying nothing, exists beside
the registered object 8, the "key", which lies in no space. -/
def unlocatedGame : Entrega2.Game :=
  { player := some { id := 1, name := "p", location := NO_ID, object := NO_ID },
    objects := [some { id := 8, name := "key" }, none],
    spaces := [some { id := 1, name := "A", north := NO_ID, east := NO_ID, south := NO_ID,
                      west := NO_ID, objects := [] },
               none],
    die := none, last_cmd := NO_CMD, status := STATUS.OK }

/-- A game of Entrega 2 with empty registries. -/
def freshGame : Entrega2.Game :=
  { player := none, objects := [none, none, none], spaces := [none, none, none],
    die := some { id := 0, min := 1, max := 6, last_roll := -1 },
    last_cmd := NO_CMD, status := STATUS.OK }

/-- A game of Examen with an empty registry. -/
def freshExam : Examen.Game :=
  { spaces := [none, none, none], player_location := NO_ID, object_location := NO_ID,
    last_cmd := NO_CMD, description := "" }

/-- Calls that stock the fresh game: a space, an object, a player, and an absent space. -/
def stockingCalls : List Entrega2.Call :=
  [Entrega2.Call.add_space (some { id := 1, name := "A", north := NO_ID, east := NO_ID,
                                   south := 2, west := NO_ID, objects := [8] }),
   Entrega2.Call.set_object (some { id := 8, name := "key" }),
   Entrega2.Call.set_player (some { id := 1, name := "p", location := 1, object := NO_ID }),
   Entrega2.Call.add_space none]

/-- The fresh game after `stockingCalls`, with registries of two slots. -/
def stockedGame : Entrega2.Game :=
  { player := some { id := 1, name := "p", location := 1, object := NO_ID },
    objects := [some { id := 8, name := "key" }, none, none],
    spaces := [some { id := 1, name := "A", north := NO_ID, east := NO_ID, south := 2,
                      west := NO_ID, objects := [8] },
               none, none],
    die := some { id := 0, min := 1, max := 6, last_roll := -1 },
    last_cmd := NO_CMD, status := STATUS.OK }

/-- Calls that play the stocked game: a second space, a third one that finds the registry
full, then the commands take "key", next and drop. -/
def playingCalls : List Entrega2.Call :=
  [Entrega2.Call.add_space (some { id := 2, name := "B", north := 1, east := NO_ID,
                                   south := NO_ID, west := NO_ID, objects := [] }),
   Entrega2.Call.add_space (some { id := 3, name := "C", north := NO_ID, east := NO_ID,
                                   south := NO_ID, west := NO_ID, objects := [] }),
   Entrega2.Call.update Entrega2.TAKE { token := "key", rnd := 0 },
   Entrega2.Call.update Entrega2.NEXT { token := "", rnd := 0 },
   Entrega2.Call.update Entrega2.DROP { token := "", rnd := 0 }]

/-- The stocked game after `playingCalls`: the key was carried from space 1 to space 2. -/
def playedGame : Entrega2.Game :=
  { player := some { id := 1, name := "p", location := 2, object := NO_ID },
    objects := [some { id := 8, name := "key" }, none, none],
    spaces := [some { id := 1, name := "A", north := NO_ID, east := NO_ID, south := 2,
                      west := NO_ID, objects := [] },
               some { id := 2, name := "B", north := 1, east := NO_ID, south := NO_ID,
                      west := NO_ID, objects := [8] },
               none],
    die := some { id := 0, min := 1, max := 6, last_roll := -1 },
    last_cmd := Entrega2.DROP, status := STATUS.OK }

/-- A world file of three lines: a comment, then the definitions of the spaces A (id 1, south
of which lies 2, illuminated) and B (id 2, not illuminated). -/
def worldFile : Examen.File :=
  { lines := [{ text := "# two spaces\n", created := true },
              { text := "#s:1|A|-1|-1|2|-1|1\n", created := true },
              { text := "#s:2|B|1|-1|-1|-1|0\n", created := true }],
    error := false }

/-- A world file that defines no space. -/
def emptyWorldFile : Examen.File :=
  { lines := [{ text := "# no space\n", created := true }], error := false }

/-- The game `game_create_from_file` makes of `worldFile` in registries of four slots. -/
def loadedExam : Examen.Game :=
  { spaces := [some { id := 1, name := "A", north := NO_ID, east := NO_ID, south := 2,
                      west := NO_ID, illuminated := BOOL.TRUE },
               some { id := 2, name := "B", north := 1, east := NO_ID, south := NO_ID,
                      west := NO_ID, illuminated := BOOL.FALSE },
               none, none],
    player_location := 1, object_location := 1, last_cmd := NO_CMD, description := "" }

/-- A game of Examen whose ids lie beyond the range of `int`: the space "Far" (id 4294967297,
that is 2^32 + 1, illuminated), south of which lies "Beyond" (id 4294967298, illuminated); the
player stands in "Far". -/
def farExam : Examen.Game :=
  { spaces := [some { id := 4294967297, name := "Far", north := NO_ID, east := NO_ID,
                      south := 4294967298, west := NO_ID, illuminated := BOOL.TRUE },
               some { id := 4294967298, name := "Beyond", north := 4294967297, east := NO_ID,
                      south := NO_ID, west := NO_ID, illuminated := BOOL.TRUE },
               none],
    player_location := 4294967297, object_location := 4294967297, last_cmd := NO_CMD,
    description := "" }

/-- The two-space game `movementExam` with the player at 4294967297, an id no registered space
has. -/
def strayExam : Examen.Game :=
  { movementExam with player_location := 4294967297 }

/-! ## Lemmas on the registry scans -/

theorem slot_cons_succ {α : Type} (x : Option α) (xs : List (Option α)) (i : Nat) :
    slot (x :: xs) (i + 1) = slot xs i := by
  simp [slot]

/-! ## Movement -/

namespace Entrega2

/-- The scan finds, counted from the start index, a slot holding a space with the id. -/
theorem find_space_spec (id : Id) (l : List (Option Space)) (i k : Nat)
    (h : find_space id l i = some k) :
    i ≤ k ∧ ∃ s, l[k - i]? = some (some s) ∧ s.id = id := by
  induction l generalizing i with
  | nil => simp [find_space] at h
  | cons x rest ih =>
    cases x with
    | none => simp [find_space] at h
    | some s =>
      by_cases hs : id = s.id
      · simp [find_space, space_get_id, hs] at h
        subst h
        exact ⟨le_refl _, s, by simp, hs.symm⟩
      · simp [find_space, space_get_id, hs] at h
        obtain ⟨hle, t, ht, hid⟩ := ih (i + 1) h
        refine ⟨by omega, t, ?_, hid⟩
        have : k - i = (k - (i + 1)) + 1 := by omega
        rw [this]
        simpa using ht

/-- The movement loop run on the slots that `find_space` scans: when the scan finds a space,
the loop acts on that space. -/
theorem move_loop_found (link : Option Space → Id) (g : Game) (id : Id)
    (l : List (Option Space)) (i k : Nat) (s : Space)
    (h : find_space id l i = some k) (hs : l[k - i]? = some (some s)) :
    move_loop link g id l =
      { (if link (some s) ≠ NO_ID then
          { g with player := (player_set_location g.player (link (some s))).2 } else g)
        with status := STATUS.OK } := by
  induction l generalizing i with
  | nil => simp [find_space] at h
  | cons x rest ih =>
    cases x with
    | none => simp [find_space] at h
    | some t =>
      by_cases ht : id = t.id
      · simp [find_space, space_get_id, ht] at h
        subst h
        simp at hs
        subst hs
        simp [move_loop, space_get_id, ht]
      · have ht2 : ¬ t.id = id := fun e => ht e.symm
        simp [find_space, space_get_id, ht] at h
        have hle := (find_space_spec id rest (i + 1) k h).1
        have e : k - i = (k - (i + 1)) + 1 := by omega
        rw [e] at hs
        simp at hs
        simp only [move_loop, space_get_id, ht2, if_false]
        exact ih (i + 1) h hs

/-- The pointer `game_get_space` returns points to a space with the id asked for, found by the
scan of the first `MAX_SPACES` slots. -/
theorem game_get_space_some (MAX_SPACES : Nat) (g : Game) (id : Id) (s : Space)
    (h : game_get_space MAX_SPACES g id = some s) :
    id ≠ NO_ID ∧ s.id = id ∧ ∃ k, find_space id (g.spaces.take MAX_SPACES) 0 = some k ∧
      (g.spaces.take MAX_SPACES)[k]? = some (some s) ∧ g.spaces[k]? = some (some s) := by
  unfold game_get_space game_get_space_index at h
  by_cases hid : id = NO_ID
  · simp [hid] at h
  · simp only [hid, if_false] at h
    cases hf : find_space id (g.spaces.take MAX_SPACES) 0 with
    | none => simp [hf] at h
    | some k =>
      simp only [hf] at h
      obtain ⟨_, t, ht, htid⟩ := find_space_spec id _ 0 k hf
      simp only [Nat.sub_zero] at ht
      have hk : g.spaces[k]? = some (some t) := by
        rw [List.getElem?_take] at ht
        split at ht
        · exact ht
        · simp at ht
      have : t = s := by simpa [slot, hk] using h
      subst this
      exact ⟨hid, htid, k, rfl, ht, hk⟩

/-- Where the player stands after the movement loop, when the player's location is the id of a
registered space `s`: the link of `s`, or the old location when the link is `NO_ID`. -/
theorem move_loop_location (MAX_SPACES : Nat) (link : Option Space → Id) (g : Game) (s : Space)
    (h : game_get_space MAX_SPACES g (player_get_location g.player) = some s) :
    player_get_location
        (move_loop link g (player_get_location g.player) (g.spaces.take MAX_SPACES)).player =
      if link (some s) = NO_ID then player_get_location g.player else link (some s) := by
  obtain ⟨hid, _, k, hf, ht, _⟩ := game_get_space_some MAX_SPACES g _ s h
  rw [move_loop_found link g _ _ 0 k s hf (by simpa using ht)]
  by_cases hl : link (some s) = NO_ID
  · simp [hl]
  · cases hp : g.player with
    | none => simp [hp, player_get_location] at hid
    | some p => simp [hl, player_set_location, player_get_location]

end Entrega2

namespace Examen

/-- The scan finds, counted from the start index, a slot holding a space with the id. -/
theorem exam_find_space_spec (id : Id) (l : List (Option Space)) (i k : Nat)
    (h : find_space id l i = some k) :
    i ≤ k ∧ ∃ s, l[k - i]? = some (some s) ∧ s.id = id := by
  induction l generalizing i with
  | nil => simp [find_space] at h
  | cons x rest ih =>
    cases x with
    | none => simp [find_space] at h
    | some s =>
      by_cases hs : id = s.id
      · simp [find_space, space_get_id, hs] at h
        subst h
        exact ⟨le_refl _, s, by simp, hs.symm⟩
      · simp [find_space, space_get_id, hs] at h
        obtain ⟨hle, t, ht, hid⟩ := ih (i + 1) h
        refine ⟨by omega, t, ?_, hid⟩
        have : k - i = (k - (i + 1)) + 1 := by omega
        rw [this]
        simpa using ht

/-- The movement loop run on the slots that `find_space` scans: when the scan finds a space,
the loop acts on that space. -/
theorem exam_move_loop_found (link : Option Space → Id) (g : Game) (id : Id)
    (l : List (Option Space)) (i k : Nat) (s : Space)
    (h : find_space id l i = some k) (hs : l[k - i]? = some (some s)) :
    move_loop link g id l =
      if link (some s) ≠ NO_ID then (game_set_player_location g (link (some s))).2 else g := by
  induction l generalizing i with
  | nil => simp [find_space] at h
  | cons x rest ih =>
    cases x with
    | none => simp [find_space] at h
    | some t =>
      by_cases ht : id = t.id
      · simp [find_space, space_get_id, ht] at h
        subst h
        simp at hs
        subst hs
        simp [move_loop, space_get_id, ht]
      · have ht2 : ¬ t.id = id := fun e => ht e.symm
        simp [find_space, space_get_id, ht] at h
        have hle := (exam_find_space_spec id rest (i + 1) k h).1
        have e : k - i = (k - (i + 1)) + 1 := by omega
        rw [e] at hs
        simp at hs
        simp only [move_loop, space_get_id, ht2, if_false]
        exact ih (i + 1) h hs

/-- The pointer `game_get_space` returns points to a space with the id asked for, found by the
scan of the first `MAX_SPACES` slots. -/
theorem exam_game_get_space_some (MAX_SPACES : Nat) (g : Game) (id : Id) (s : Space)
    (h : game_get_space MAX_SPACES g id = some s) :
    id ≠ NO_ID ∧ s.id = id ∧ ∃ k, find_space id (g.spaces.take MAX_SPACES) 0 = some k ∧
      (g.spaces.take MAX_SPACES)[k]? = some (some s) ∧ g.spaces[k]? = some (some s) := by
  unfold game_get_space game_get_space_index at h
  by_cases hid : id = NO_ID
  · simp [hid] at h
  · simp only [hid, if_false] at h
    cases hf : find_space id (g.spaces.take MAX_SPACES) 0 with
    | none => simp [hf] at h
    | some k =>
      simp only [hf] at h
      obtain ⟨_, t, ht, htid⟩ := exam_find_space_spec id _ 0 k hf
      simp only [Nat.sub_zero] at ht
      have hk : g.spaces[k]? = some (some t) := by
        rw [List.getElem?_take] at ht
        split at ht
        · exact ht
        · simp at ht
      have : t = s := by simpa [slot, hk] using h
      subst this
      exact ⟨hid, htid, k, rfl, ht, hk⟩

/-- Where the player stands after the movement loop, when the player's location is the id of a
registered space `s`: the link of `s`, or the old location when the link is `NO_ID`. -/
theorem exam_move_loop_location (MAX_SPACES : Nat) (link : Option Space → Id) (g : Game) (s : Space)
    (h : game_get_space MAX_SPACES g g.player_location = some s) :
    (move_loop link g g.player_location (g.spaces.take MAX_SPACES)).player_location =
      if link (some s) = NO_ID then g.player_location else link (some s) := by
  obtain ⟨hid, _, k, hf, ht, _⟩ := exam_game_get_space_some MAX_SPACES g _ s h
  rw [exam_move_loop_found link g _ _ 0 k s hf (by simpa using ht)]
  by_cases hl : link (some s) = NO_ID
  · simp [hl]
  · simp [hl, game_set_player_location]

end Examen

/-- C1. In Entrega 2 each of the four movement handlers, run in a game whose player stands in
a registered space `s`, leaves the player where it was when the link of `s` in the handler's
direction is `NO_ID`, and otherwise moves the player to exactly that link; the same holds for
`game_callback_next` and `game_callback_back` of Examen on `player_location`. -/
theorem movement_location (MAX_SPACES : Nat) (g : Entrega2.Game) (s : Entrega2.Space)
    (e : Examen.Game) (t : Examen.Space)
    (hg : Entrega2.game_get_space MAX_SPACES g (Entrega2.player_get_location g.player) = some s)
    (he : Examen.game_get_space MAX_SPACES e (Examen.game_get_player_location e) = some t) :
    (Entrega2.player_get_location (Entrega2.game_callback_next MAX_SPACES g).player =
        if s.south = NO_ID then Entrega2.player_get_location g.player else s.south) ∧
    (Entrega2.player_get_location (Entrega2.game_callback_back MAX_SPACES g).player =
        if s.north = NO_ID then Entrega2.player_get_location g.player else s.north) ∧
    (Entrega2.player_get_location (Entrega2.game_callback_left MAX_SPACES g).player =
        if s.west = NO_ID then Entrega2.player_get_location g.player else s.west) ∧
    (Entrega2.player_get_location (Entrega2.game_callback_right MAX_SPACES g).player =
        if s.east = NO_ID then Entrega2.player_get_location g.player else s.east) ∧
    (Examen.game_get_player_location (Examen.game_callback_next MAX_SPACES e) =
        if t.south = NO_ID then Examen.game_get_player_location e else t.south) ∧
    (Examen.game_get_player_location (Examen.game_callback_back MAX_SPACES e) =
        if t.north = NO_ID then Examen.game_get_player_location e else t.north) := by
  have hid := (Entrega2.game_get_space_some MAX_SPACES g _ s hg).1
  have hid2 : ¬ NO_ID = Entrega2.player_get_location g.player := fun h => hid h.symm
  have hie := (Examen.exam_game_get_space_some MAX_SPACES e _ t he).1
  have hie2 : ¬ NO_ID = Examen.game_get_player_location e := fun h => hie h.symm
  refine ⟨?_, ?_, ?_, ?_, ?_, ?_⟩
  · unfold Entrega2.game_callback_next
    simp only [hg, Entrega2.space_get_south]
    by_cases hl : s.south = NO_ID
    · simp [hl]
    · simp only [hl, hid, if_false]
      simpa [Entrega2.space_get_south, hl] using
        Entrega2.move_loop_location MAX_SPACES Entrega2.space_get_south g s hg
  · unfold Entrega2.game_callback_back
    simp only [hg, Entrega2.space_get_north]
    by_cases hl : s.north = NO_ID
    · simp [hl]
    · simp only [hl, hid2, if_false]
      simpa [Entrega2.space_get_north, hl] using
        Entrega2.move_loop_location MAX_SPACES Entrega2.space_get_north g s hg
  · unfold Entrega2.game_callback_left
    simp only [hid2, if_false]
    simpa [Entrega2.space_get_west] using
      Entrega2.move_loop_location MAX_SPACES Entrega2.space_get_west g s hg
  · unfold Entrega2.game_callback_right
    simp only [hid2, if_false]
    simpa [Entrega2.space_get_east] using
      Entrega2.move_loop_location MAX_SPACES Entrega2.space_get_east g s hg
  · unfold Examen.game_callback_next
    simp only [hie, if_false]
    simpa [Examen.space_get_south, Examen.game_get_player_location] using
      Examen.exam_move_loop_location MAX_SPACES Examen.space_get_south e t he
  · unfold Examen.game_callback_back
    simp only [hie2, if_false]
    simpa [Examen.space_get_north, Examen.game_get_player_location] using
      Examen.exam_move_loop_location MAX_SPACES Examen.space_get_north e t he

/-- Witness of C1: the two-space games with the player in space 1, whose south link is 2 and
whose other links are `NO_ID`. -/
theorem movement_location_witness :
    (Entrega2.player_get_location (Entrega2.game_callback_next 4 movementGame).player = 2 ∧
     Entrega2.player_get_location (Entrega2.game_callback_back 4 movementGame).player = 1 ∧
     Entrega2.player_get_location (Entrega2.game_callback_left 4 movementGame).player = 1 ∧
     Entrega2.player_get_location (Entrega2.game_callback_right 4 movementGame).player = 1 ∧
     Examen.game_get_player_location (Examen.game_callback_next 4 movementExam) = 2 ∧
     Examen.game_get_player_location (Examen.game_callback_back 4 movementExam) = 1) :=
  movement_location 4 movementGame
    { id := 1, name := "A", north := NO_ID, east := NO_ID, south := 2, west := NO_ID,
      objects := [] }
    movementExam
    { id := 1, name := "A", north := NO_ID, east := NO_ID, south := 2, west := NO_ID,
      illuminated := BOOL.TRUE }
    (by decide) (by decide)

/-- C2 (evaluation at the failing input). In the two-space game the player stands in space 1,
whose north, west and east links are `NO_ID`, and the last status is `ERROR`: `game_update`
with `BACK` ends with status `ERROR`, but with `LEFT` and with `RIGHT` it ends with status
`OK`, the player still in space 1. -/
theorem left_right_sentinel_status :
    (Entrega2.game_update 4 4 4 movementGame Entrega2.BACK ⟨"", 0⟩).map
        (fun r => (r.2.status, Entrega2.player_get_location r.2.player)) =
      some (STATUS.ERROR, 1) ∧
    (Entrega2.game_update 4 4 4 movementGame Entrega2.LEFT ⟨"", 0⟩).map
        (fun r => (r.2.status, Entrega2.player_get_location r.2.player)) =
      some (STATUS.OK, 1) ∧
    (Entrega2.game_update 4 4 4 movementGame Entrega2.RIGHT ⟨"", 0⟩).map
        (fun r => (r.2.status, Entrega2.player_get_location r.2.player)) =
      some (STATUS.OK, 1) := by
  decide

/-! ## Take and drop: the failing paths -/

namespace Entrega2

/-- Writing back the value a slot already holds leaves the registry as it was. -/
theorem set_slot_self {α : Type} (l : List (Option α)) (i : Nat) : l.set i (slot l i) = l := by
  induction l generalizing i with
  | nil => simp
  | cons x xs ih =>
    cases i with
    | zero => simp [slot]
    | succ n => simp [slot_cons_succ, ih]

/-- Storing through the pointer of `game_get_space` the space it points to changes nothing. -/
theorem store_space_self (MAX_SPACES : Nat) (g : Game) (id : Id) :
    store_space g (game_get_space_index MAX_SPACES g id) (game_get_space MAX_SPACES g id) = g := by
  unfold store_space game_get_space
  cases game_get_space_index MAX_SPACES g id with
  | none => rfl
  | some i => simp [set_slot_self]

/-- Modelled `space_set_object` refuses `NO_ID` and leaves the space as it was. -/
theorem space_set_object_NO_ID (MAX_ID : Nat) (sp : Option Space) :
    space_set_object MAX_ID sp NO_ID = (STATUS.ERROR, sp) := by
  cases sp <;> simp [space_set_object]

end Entrega2

/-- C3. In Entrega 2, when the player already carries an object, `game_callback_take` sets the
status to `ERROR` whatever the input name, and leaves the player (carried object and location)
and every space (so every object set) as they were. -/
theorem take_while_carrying (MAX_SPACES MAX_OBJECTS MAX_ID : Nat) (g : Entrega2.Game)
    (input : String) (h : Entrega2.player_get_object g.player ≠ NO_ID) :
    (Entrega2.game_callback_take MAX_SPACES MAX_OBJECTS MAX_ID g input).status = STATUS.ERROR ∧
    (Entrega2.game_callback_take MAX_SPACES MAX_OBJECTS MAX_ID g input).player = g.player ∧
    (Entrega2.game_callback_take MAX_SPACES MAX_OBJECTS MAX_ID g input).spaces = g.spaces := by
  unfold Entrega2.game_callback_take
  simp [Entrega2.game_get_player, h]

/-- Witness of C3: the player carries object 7 and asks for the "key" lying in its own space. -/
theorem take_while_carrying_witness :
    Entrega2.player_get_object carryingGame.player ≠ NO_ID ∧
    (Entrega2.game_callback_take 4 4 4 carryingGame "key").status = STATUS.ERROR ∧
    (Entrega2.game_callback_take 4 4 4 carryingGame "key").player = carryingGame.player ∧
    (Entrega2.game_callback_take 4 4 4 carryingGame "key").spaces = carryingGame.spaces :=
  ⟨by decide, take_while_carrying 4 4 4 carryingGame "key" (by decide)⟩

/-- C5. In Entrega 2, when the player carries nothing and the input name matches no registered
object, or the location of the object it resolves to differs from the player's location,
`game_callback_take` sets the status to `ERROR` and leaves the player (still carrying `NO_ID`)
and every space's object set as they were. -/
theorem take_unresolved_or_elsewhere (MAX_SPACES MAX_OBJECTS MAX_ID : Nat) (g : Entrega2.Game)
    (input : String) (h0 : Entrega2.player_get_object g.player = NO_ID)
    (h : Entrega2.game_get_object_by_name MAX_OBJECTS g input = none ∨
      Entrega2.game_get_object_location MAX_SPACES MAX_ID g
          (Entrega2.object_get_id (Entrega2.game_get_object_by_name MAX_OBJECTS g input)) ≠
        Entrega2.player_get_location g.player) :
    (Entrega2.game_callback_take MAX_SPACES MAX_OBJECTS MAX_ID g input).status = STATUS.ERROR ∧
    (Entrega2.game_callback_take MAX_SPACES MAX_OBJECTS MAX_ID g input).player = g.player ∧
    Entrega2.player_get_object
      (Entrega2.game_callback_take MAX_SPACES MAX_OBJECTS MAX_ID g input).player = NO_ID ∧
    (Entrega2.game_callback_take MAX_SPACES MAX_OBJECTS MAX_ID g input).spaces = g.spaces := by
  have key : Entrega2.game_callback_take MAX_SPACES MAX_OBJECTS MAX_ID g input =
      { g with status := STATUS.ERROR } := by
    unfold Entrega2.game_callback_take
    rcases h with h | h
    · simp [h, Entrega2.object_get_id]
    · have h2 : Entrega2.player_get_location g.player ≠
          Entrega2.game_get_object_location MAX_SPACES MAX_ID g
            (Entrega2.object_get_id (Entrega2.game_get_object_by_name MAX_OBJECTS g input)) :=
        fun e => h e.symm
      simp only [h2, ne_eq, not_false_eq_true, if_true]
      split <;> rfl
  rw [key]
  exact ⟨rfl, rfl, h0, rfl⟩

/-- Witness of C5: the player, in space 2 and carrying nothing, asks for the "key", which lies
in space 1. -/
theorem take_unresolved_or_elsewhere_witness :
    Entrega2.player_get_object emptyHandedGame.player = NO_ID ∧
    Entrega2.game_get_object_location 4 4 emptyHandedGame
        (Entrega2.object_get_id (Entrega2.game_get_object_by_name 4 emptyHandedGame "key")) ≠
      Entrega2.player_get_location emptyHandedGame.player ∧
    (Entrega2.game_callback_take 4 4 4 emptyHandedGame "key").status = STATUS.ERROR ∧
    (Entrega2.game_callback_take 4 4 4 emptyHandedGame "key").player = emptyHandedGame.player ∧
    Entrega2.player_get_object (Entrega2.game_callback_take 4 4 4 emptyHandedGame "key").player =
      NO_ID ∧
    (Entrega2.game_callback_take 4 4 4 emptyHandedGame "key").spaces = emptyHandedGame.spaces :=
  ⟨by decide, by decide,
    take_unresolved_or_elsewhere 4 4 4 emptyHandedGame "key" (by decide) (Or.inr (by decide))⟩

/-- C7. In Entrega 2, when the player carries nothing, `game_callback_drop` sets the status to
`ERROR` and leaves the player's carried slot and every space's object set as they were: `NO_ID`
is not inserted into the current space's object set. -/
theorem drop_nothing_carried (MAX_SPACES MAX_ID : Nat) (g : Entrega2.Game)
    (h : Entrega2.player_get_object g.player = NO_ID) :
    (Entrega2.game_callback_drop MAX_SPACES MAX_ID g).status = STATUS.ERROR ∧
    (Entrega2.game_callback_drop MAX_SPACES MAX_ID g).player = g.player ∧
    (Entrega2.game_callback_drop MAX_SPACES MAX_ID g).spaces = g.spaces := by
  unfold Entrega2.game_callback_drop
  by_cases hp : g.player = none
  · simp [hp]
  · simp [hp, h, Entrega2.space_set_object_NO_ID, Entrega2.store_space_self]

/-- Witness of C7: the player stands in space 2, a registered space, carrying nothing. -/
theorem drop_nothing_carried_witness :
    Entrega2.player_get_object emptyHandedGame.player = NO_ID ∧
    (Entrega2.game_callback_drop 4 4 emptyHandedGame).status = STATUS.ERROR ∧
    (Entrega2.game_callback_drop 4 4 emptyHandedGame).player = emptyHandedGame.player ∧
    (Entrega2.game_callback_drop 4 4 emptyHandedGame).spaces = emptyHandedGame.spaces :=
  ⟨by decide, drop_nothing_carried 4 4 emptyHandedGame (by decide)⟩

/-! ## Where an object is -/

namespace Entrega2

/-- The outer loop of `game_get_object_location` never ends before its start index. -/
theorem scan_spaces_index_ge (MAX_ID : Nat) (id : Id) (l : List (Option Space)) (i : Nat) :
    i ≤ (scan_spaces MAX_ID id l i).2 := by
  induction l generalizing i with
  | nil => simp [scan_spaces]
  | cons x rest ih =>
    cases x with
    | none => simp [scan_spaces]
    | some s =>
      simp only [scan_spaces]
      split
      · exact le_refl _
      · exact le_trans (Nat.le_succ i) (ih (i + 1))

/-- What `game_get_object_location` computes from the result of its outer loop, started at
index `i` on the slots `sp` of which `m + 1` are visited: the id of the first space among the
first `m` slots in which the id is found. -/
theorem scan_spaces_char (MAX_ID : Nat) (id : Id) (sp : List (Option Space)) (m i : Nat) :
    (if (scan_spaces MAX_ID id (sp.take (m + 1)) i).1 then
        (if m + i ≤ (scan_spaces MAX_ID id (sp.take (m + 1)) i).2 then NO_ID
          else space_get_id (slot sp ((scan_spaces MAX_ID id (sp.take (m + 1)) i).2 - i)))
      else if slot sp ((scan_spaces MAX_ID id (sp.take (m + 1)) i).2 - i) = none then NO_ID
      else (if m + i ≤ (scan_spaces MAX_ID id (sp.take (m + 1)) i).2 then NO_ID
          else space_get_id (slot sp ((scan_spaces MAX_ID id (sp.take (m + 1)) i).2 - i)))) =
      first_location MAX_ID id (sp.take m) := by
  induction sp generalizing m i with
  | nil => simp [scan_spaces, first_location, slot]
  | cons x rest ih =>
    cases x with
    | none => cases m <;> simp [scan_spaces, first_location, slot]
    | some s =>
      by_cases hscan : scan_objects id (s.objects.take MAX_ID) = true
      · cases m with
        | zero => simp [scan_spaces, first_location, hscan]
        | succ m' => simp [scan_spaces, first_location, hscan, slot, space_get_id]
      · cases m with
        | zero => simp [scan_spaces, first_location, hscan]
        | succ m' =>
          have hge := scan_spaces_index_ge MAX_ID id (rest.take (m' + 1)) (i + 1)
          have := ih m' (i + 1)
          simp only [List.take_succ_cons, scan_spaces, hscan, first_location]
          generalize scan_spaces MAX_ID id (rest.take (m' + 1)) (i + 1) = r at hge this ⊢
          obtain ⟨b, k⟩ := r
          simp only [Bool.false_eq_true, if_false] at hge this ⊢
          have e : k - i = (k - (i + 1)) + 1 := by omega
          have e2 : (m' + 1 + i ≤ k) ↔ (m' + (i + 1) ≤ k) := by omega
          rw [e]
          simp only [slot_cons_succ, e2]
          simpa using this

/-- The function `game_get_object_location` gives the id of the first registered space in whose
object set the id is found, and `NO_ID` when there is none. -/
theorem game_get_object_location_eq (MAX_SPACES MAX_ID : Nat) (g : Game) (id : Id) :
    game_get_object_location MAX_SPACES MAX_ID g id =
      first_location MAX_ID id (g.spaces.take MAX_SPACES) := by
  have h := scan_spaces_char MAX_ID id g.spaces MAX_SPACES 0
  simp only [Nat.add_zero, Nat.sub_zero] at h
  rw [← h]
  have hn : ∀ k : Nat, ¬ ((k : Int) < 0) := fun k => by omega
  unfold game_get_object_location game_get_space_id_at
  simp [hn]

/-- Replacing a registered space by one with the same id does not change what the scan of
`game_get_space` finds. -/
theorem find_space_set (id : Id) (l : List (Option Space)) (k i : Nat) (s t : Space)
    (hk : l[k]? = some (some s)) (hid : t.id = s.id) :
    find_space id (l.set k (some t)) i = find_space id l i := by
  induction l generalizing k i with
  | nil => simp at hk
  | cons x rest ih =>
    cases k with
    | zero =>
      simp at hk
      subst hk
      simp [find_space, space_get_id, hid]
    | succ n =>
      simp at hk
      cases x with
      | none => simp [find_space]
      | some u => simp [find_space, ih n (i + 1) hk]

/-- Replacing a registered space by one with the same id, in whose object set the inner loop of
`game_get_object_location` finds the id exactly when it did before, does not change the first
location of the id. -/
theorem first_location_set (MAX_ID : Nat) (id : Id) (l : List (Option Space)) (k : Nat)
    (s t : Space) (hk : l[k]? = some (some s)) (hid : t.id = s.id)
    (hscan : scan_objects id (t.objects.take MAX_ID) = scan_objects id (s.objects.take MAX_ID)) :
    first_location MAX_ID id (l.set k (some t)) = first_location MAX_ID id l := by
  induction l generalizing k with
  | nil => simp at hk
  | cons x rest ih =>
    cases k with
    | zero =>
      simp at hk
      subst hk
      simp [first_location, hid, hscan]
    | succ n =>
      simp at hk
      cases x with
      | none => simp [first_location]
      | some u => simp [first_location, ih n hk]

/-- On a list without the sentinel, the inner loop of `game_get_object_location` finds an id
exactly when it is a member. -/
theorem scan_objects_eq_mem (id : Id) (l : List Id) (h : NO_ID ∉ l) :
    scan_objects id l = decide (id ∈ l) := by
  induction l with
  | nil => simp [scan_objects]
  | cons x rest ih =>
    have hx : ¬ x = NO_ID := fun e => h (by simp [e])
    have hr : NO_ID ∉ rest := fun e => h (by simp [e])
    by_cases hxi : x = id
    · subst hxi
      simp [scan_objects, hx]
    · have hxi2 : ¬ id = x := fun e => hxi e.symm
      simp [scan_objects, hx, hxi, hxi2, ih hr]

/-- The inner loop of `game_get_object_location` only finds members of the set. -/
theorem scan_objects_mem (id : Id) (l : List Id) (h : scan_objects id l = true) : id ∈ l := by
  induction l with
  | nil => simp [scan_objects] at h
  | cons x rest ih =>
    by_cases hx : x = NO_ID
    · simp [scan_objects, hx] at h
    · by_cases hxi : x = id
      · simp [hxi]
      · simp [scan_objects, hx, hxi] at h
        simp [ih h]

/-- The pointer of `game_get_space` after a registered space was replaced by one with the same
id. -/
theorem game_get_space_index_set (MAX_SPACES : Nat) (g : Game) (id : Id) (k : Nat) (s t : Space)
    (p : Option Player) (st : STATUS)
    (hk : (g.spaces.take MAX_SPACES)[k]? = some (some s)) (hid : t.id = s.id) :
    game_get_space_index MAX_SPACES
        { g with player := p, spaces := g.spaces.set k (some t), status := st } id =
      game_get_space_index MAX_SPACES g id := by
  unfold game_get_space_index
  simp only [List.set_take]
  rw [find_space_set id _ k 0 s t hk hid]

/-- The location of an object after a registered space was replaced by one with the same id
in which the object is found exactly when it was before. -/
theorem game_get_object_location_set (MAX_SPACES MAX_ID : Nat) (g : Game) (id : Id) (k : Nat)
    (s t : Space) (p : Option Player) (st : STATUS)
    (hk : (g.spaces.take MAX_SPACES)[k]? = some (some s)) (hid : t.id = s.id)
    (hscan : scan_objects id (t.objects.take MAX_ID) = scan_objects id (s.objects.take MAX_ID)) :
    game_get_object_location MAX_SPACES MAX_ID
        { g with player := p, spaces := g.spaces.set k (some t), status := st } id =
      game_get_object_location MAX_SPACES MAX_ID g id := by
  rw [game_get_object_location_eq, game_get_object_location_eq]
  simp only [List.set_take]
  exact first_location_set MAX_ID id _ k s t hk hid hscan

/-- What a successful `game_callback_take` did: the player, who carried nothing, stands in the
space where the named object lies, now carries it, and it was erased from the object set of
the first registered space with the player's location as id. -/
theorem take_ok (MAX_SPACES MAX_OBJECTS MAX_ID : Nat) (g : Game) (input : String)
    (h : (game_callback_take MAX_SPACES MAX_OBJECTS MAX_ID g input).status = STATUS.OK) :
    ∃ p k s, g.player = some p ∧ p.object = NO_ID ∧
      object_get_id (game_get_object_by_name MAX_OBJECTS g input) ≠ NO_ID ∧
      p.location = game_get_object_location MAX_SPACES MAX_ID g
        (object_get_id (game_get_object_by_name MAX_OBJECTS g input)) ∧
      game_get_space_index MAX_SPACES g p.location = some k ∧
      (g.spaces.take MAX_SPACES)[k]? = some (some s) ∧ g.spaces[k]? = some (some s) ∧
      s.id = p.location ∧
      object_get_id (game_get_object_by_name MAX_OBJECTS g input) ∈ s.objects ∧
      game_callback_take MAX_SPACES MAX_OBJECTS MAX_ID g input =
        { g with
          player := some { p with
            object := object_get_id (game_get_object_by_name MAX_OBJECTS g input) },
          spaces := g.spaces.set k (some { s with
            objects := s.objects.erase
              (object_get_id (game_get_object_by_name MAX_OBJECTS g input)) }),
          status := STATUS.OK } := by
  generalize ho : object_get_id (game_get_object_by_name MAX_OBJECTS g input) = o at h ⊢
  unfold game_callback_take at h ⊢
  simp only [ho] at h ⊢
  cases hp : g.player with
  | none => simp [hp] at h
  | some p =>
    by_cases hone : o = NO_ID
    · simp [hp, hone] at h
    by_cases hcar : p.object = NO_ID
    swap
    · simp [hp, hone, hcar, game_get_player, player_get_object] at h
    by_cases hloc : p.location = game_get_object_location MAX_SPACES MAX_ID g o
    swap
    · simp [hp, hone, hcar, game_get_player, player_get_object, player_get_location, hloc] at h
    have hl2 : game_get_object_location MAX_SPACES MAX_ID
        { g with player := some { p with object := o } } o =
        game_get_object_location MAX_SPACES MAX_ID g o := by
      simp [game_get_object_location_eq]
    have hi2 : ∀ id, game_get_space_index MAX_SPACES
        { g with player := some { p with object := o } } id =
        game_get_space_index MAX_SPACES g id := fun id => rfl
    have hs2 : ∀ id, game_get_space MAX_SPACES
        { g with player := some { p with object := o } } id =
        game_get_space MAX_SPACES g id := fun id => rfl
    simp only [hp, hone, hcar, game_get_player, player_get_object, player_get_location,
      player_set_object, hl2, hi2, hs2, ← hloc] at h ⊢
    cases hsp : game_get_space MAX_SPACES g p.location with
    | none => simp [hsp, space_del_object] at h
    | some s =>
      obtain ⟨_, hsid, k, hf, htk, hk⟩ := game_get_space_some MAX_SPACES g _ s hsp
      have hidx : game_get_space_index MAX_SPACES g p.location = some k := by
        unfold game_get_space_index
        simp [hf]
        intro e
        simp [game_get_space, game_get_space_index, e] at hsp
      by_cases hmem : o ∈ s.objects
      · refine ⟨p, k, s, rfl, hcar, hone, rfl, hidx, htk, hk, hsid, hmem, ?_⟩
        simp [hsp, hidx, space_del_object, hmem, store_space]
      · simp [hsp, space_del_object, hmem] at h

/-- What `game_callback_drop` does when the player carries an object and stands in a
registered space with room: the object is appended to the object set of the first registered
space with the player's location as id, and the carried slot is cleared. -/
theorem drop_some (MAX_SPACES MAX_ID : Nat) (g : Game) (p : Player) (k : Nat) (s : Space)
    (hp : g.player = some p) (ho : p.object ≠ NO_ID)
    (hidx : game_get_space_index MAX_SPACES g p.location = some k)
    (hk : g.spaces[k]? = some (some s)) (hroom : s.objects.length < MAX_ID) :
    game_callback_drop MAX_SPACES MAX_ID g =
      { g with
        player := some { p with object := NO_ID },
        spaces := g.spaces.set k (some { s with objects := s.objects ++ [p.object] }),
        status := STATUS.OK } := by
  have hsp : game_get_space MAX_SPACES g p.location = some s := by
    simp [game_get_space, hidx, slot, hk]
  have hroom2 : ¬ MAX_ID ≤ s.objects.length := Nat.not_le.mpr hroom
  unfold game_callback_drop
  simp [hp, player_get_object, player_get_location, hsp, hidx, space_set_object, ho, hroom2,
    store_space, player_set_object]

/-- A slot the scan of `game_get_space` reaches lies among the registered entries. -/
theorem find_space_registered (id : Id) (l : List (Option Space)) (i k : Nat)
    (h : find_space id l i = some k) : k - i < (registered l).length := by
  induction l generalizing i with
  | nil => simp [find_space] at h
  | cons x rest ih =>
    cases x with
    | none => simp [find_space] at h
    | some s =>
      by_cases hs : id = s.id
      · simp [find_space, space_get_id, hs] at h
        subst h
        simp [registered]
      · simp [find_space, space_get_id, hs] at h
        have := ih (i + 1) h
        have hle := (find_space_spec id rest (i + 1) k h).1
        simp only [registered, List.length_cons]
        omega

end Entrega2

/-- A registered entry read from its slot. -/
theorem registered_getElem {α : Type} (l : List (Option α)) (k : Nat) (a : α)
    (hk : l[k]? = some (some a)) (hlt : k < (registered l).length) :
    (registered l)[k]? = some a := by
  induction l generalizing k with
  | nil => simp at hk
  | cons x rest ih =>
    cases x with
    | none => simp [registered] at hlt
    | some b =>
      cases k with
      | zero =>
        simp at hk
        simp [registered, hk]
      | succ n =>
        simp at hk
        simp only [registered, List.length_cons, Nat.add_lt_add_iff_right] at hlt
        simpa [registered] using ih n hk hlt

/-- Overwriting a registered slot with a non-`NULL` entry overwrites the registered entry. -/
theorem registered_set {α : Type} (l : List (Option α)) (k : Nat) (a : α)
    (hlt : k < (registered l).length) :
    registered (l.set k (some a)) = (registered l).set k a := by
  induction l generalizing k with
  | nil => simp [registered]
  | cons x rest ih =>
    cases x with
    | none => simp [registered] at hlt
    | some b =>
      cases k with
      | zero => simp [registered]
      | succ n =>
        simp only [registered, List.length_cons, Nat.add_lt_add_iff_right] at hlt
        simp [registered, ih n hlt]

namespace Entrega2

/-- Occurrences of an id after one space of the list was replaced. -/
theorem occurrences_set (id : Id) (l : List Space) (k : Nat) (s t : Space)
    (hk : l[k]? = some s) :
    occurrences id (l.set k t) + s.objects.count id = occurrences id l + t.objects.count id := by
  induction l generalizing k with
  | nil => simp at hk
  | cons x rest ih =>
    cases k with
    | zero =>
      simp at hk
      subst hk
      simp [occurrences]
      omega
    | succ n =>
      simp at hk
      have := ih n hk
      simp [occurrences]
      omega

/-- An id that occurs in no registered object set has no location. -/
theorem first_location_of_occurrences_zero (MAX_ID : Nat) (id : Id) (l : List (Option Space))
    (h : occurrences id (registered l) = 0) : first_location MAX_ID id l = NO_ID := by
  induction l with
  | nil => simp [first_location]
  | cons x rest ih =>
    cases x with
    | none => simp [first_location]
    | some s =>
      simp only [registered, occurrences, Nat.add_eq_zero] at h
      have hn : ¬ scan_objects id (s.objects.take MAX_ID) = true := by
        intro hs
        have hm := List.mem_of_mem_take (scan_objects_mem id _ hs)
        exact (List.count_eq_zero.mp h.1) hm
      simp [first_location, hn, ih h.2]

end Entrega2

namespace Entrega2

/-- The space `game_get_space` points to is one of the registered spaces. -/
theorem game_get_space_index_registered (MAX_SPACES : Nat) (g : Game) (id : Id) (k : Nat)
    (s : Space) (hidx : game_get_space_index MAX_SPACES g id = some k)
    (hk : (g.spaces.take MAX_SPACES)[k]? = some (some s)) :
    k < (registered_spaces MAX_SPACES g).length ∧ (registered_spaces MAX_SPACES g)[k]? = some s ∧
      s ∈ registered_spaces MAX_SPACES g := by
  unfold game_get_space_index at hidx
  by_cases hid : id = NO_ID
  · simp [hid] at hidx
  · simp only [hid, if_false] at hidx
    have hlt := find_space_registered id _ 0 k hidx
    simp only [Nat.sub_zero] at hlt
    have hget := registered_getElem _ k s hk hlt
    exact ⟨hlt, hget, List.getElem?_mem hget⟩

/-- What `game_callback_drop` does right after a successful `game_callback_take`, in a game
whose object sets are bounded: the object is put back at the end of the set it was erased
from. -/
theorem take_drop_eq (MAX_SPACES MAX_OBJECTS MAX_ID : Nat) (g : Game) (input : String)
    (hwf : object_sets_bounded MAX_SPACES MAX_ID g)
    (h : (game_callback_take MAX_SPACES MAX_OBJECTS MAX_ID g input).status = STATUS.OK) :
    ∃ p k s, g.player = some p ∧ (g.spaces.take MAX_SPACES)[k]? = some (some s) ∧
      s ∈ registered_spaces MAX_SPACES g ∧
      object_get_id (game_get_object_by_name MAX_OBJECTS g input) ∈ s.objects ∧
      object_get_id (game_get_object_by_name MAX_OBJECTS g input) ≠ NO_ID ∧
      game_callback_drop MAX_SPACES MAX_ID
          (game_callback_take MAX_SPACES MAX_OBJECTS MAX_ID g input) =
        { g with
          player := some { p with object := NO_ID },
          spaces := g.spaces.set k (some { s with
            objects := s.objects.erase
                (object_get_id (game_get_object_by_name MAX_OBJECTS g input)) ++
              [object_get_id (game_get_object_by_name MAX_OBJECTS g input)] }),
          status := STATUS.OK } := by
  obtain ⟨p, k, s, hp, hcar, hone, hloc, hidx, htk, hk, hsid, hmem, heq⟩ :=
    take_ok MAX_SPACES MAX_OBJECTS MAX_ID g input h
  generalize object_get_id (game_get_object_by_name MAX_OBJECTS g input) = o at *
  have hreg := (game_get_space_index_registered MAX_SPACES g _ k s hidx htk).2.2
  obtain ⟨hno, hlen⟩ := hwf s hreg
  refine ⟨p, k, s, hp, htk, hreg, hmem, hone, ?_⟩
  have hlt : k < g.spaces.length := (List.getElem?_eq_some.mp hk).1
  have hpos : 0 < s.objects.length := List.length_pos_of_mem hmem
  have hd := drop_some MAX_SPACES MAX_ID
    { g with
      player := some { p with object := o },
      spaces := g.spaces.set k (some { s with objects := s.objects.erase o }),
      status := STATUS.OK }
    { p with object := o } k { s with objects := s.objects.erase o } rfl hone
    ((game_get_space_index_set MAX_SPACES g _ k s { s with objects := s.objects.erase o } _ _
      htk rfl).trans hidx)
    (by simp [List.getElem?_set_self hlt])
    (by simp only [List.length_erase_of_mem hmem]; omega)
  rw [heq, hd]
  simp [List.set_set]

end Entrega2

/-- C4. In Entrega 2, in a game whose object sets are bounded, when `game_callback_take` ends
with status `OK` for the named object, `game_callback_drop` run right after it ends with status
`OK`, the player carries nothing, `game_get_object_location` of the object is the space id it
had before the take, and the location of every other object is what it was. -/
theorem take_then_drop (MAX_SPACES MAX_OBJECTS MAX_ID : Nat) (g : Entrega2.Game)
    (input : String) (hwf : Entrega2.object_sets_bounded MAX_SPACES MAX_ID g)
    (h : (Entrega2.game_callback_take MAX_SPACES MAX_OBJECTS MAX_ID g input).status =
      STATUS.OK) :
    (Entrega2.game_callback_drop MAX_SPACES MAX_ID
      (Entrega2.game_callback_take MAX_SPACES MAX_OBJECTS MAX_ID g input)).status = STATUS.OK ∧
    Entrega2.player_get_object (Entrega2.game_callback_drop MAX_SPACES MAX_ID
      (Entrega2.game_callback_take MAX_SPACES MAX_OBJECTS MAX_ID g input)).player = NO_ID ∧
    Entrega2.game_get_object_location MAX_SPACES MAX_ID
        (Entrega2.game_callback_drop MAX_SPACES MAX_ID
          (Entrega2.game_callback_take MAX_SPACES MAX_OBJECTS MAX_ID g input))
        (Entrega2.object_get_id (Entrega2.game_get_object_by_name MAX_OBJECTS g input)) =
      Entrega2.game_get_object_location MAX_SPACES MAX_ID g
        (Entrega2.object_get_id (Entrega2.game_get_object_by_name MAX_OBJECTS g input)) ∧
    ∀ other : Id,
      other ≠ Entrega2.object_get_id (Entrega2.game_get_object_by_name MAX_OBJECTS g input) →
      Entrega2.game_get_object_location MAX_SPACES MAX_ID
          (Entrega2.game_callback_drop MAX_SPACES MAX_ID
            (Entrega2.game_callback_take MAX_SPACES MAX_OBJECTS MAX_ID g input)) other =
        Entrega2.game_get_object_location MAX_SPACES MAX_ID g other := by
  obtain ⟨p, k, s, hp, htk, hreg, hmem, hone, heq⟩ :=
    Entrega2.take_drop_eq MAX_SPACES MAX_OBJECTS MAX_ID g input hwf h
  generalize Entrega2.object_get_id (Entrega2.game_get_object_by_name MAX_OBJECTS g input) = o
    at *
  obtain ⟨hno, hlen⟩ := hwf s hreg
  have hlen2 : (s.objects.erase o ++ [o]).length ≤ MAX_ID := by
    have hpos : 0 < s.objects.length := List.length_pos_of_mem hmem
    simp only [List.length_append, List.length_erase_of_mem hmem, List.length_singleton]
    omega
  have hno2 : NO_ID ∉ s.objects.erase o ++ [o] := by
    intro hm
    rcases List.mem_append.mp hm with hm | hm
    · exact hno (List.mem_of_mem_erase hm)
    · exact hone (List.mem_singleton.mp hm).symm
  have hloc : ∀ x : Id, Entrega2.game_get_object_location MAX_SPACES MAX_ID
      (Entrega2.game_callback_drop MAX_SPACES MAX_ID
        (Entrega2.game_callback_take MAX_SPACES MAX_OBJECTS MAX_ID g input)) x =
      Entrega2.game_get_object_location MAX_SPACES MAX_ID g x := by
    intro x
    rw [heq]
    apply Entrega2.game_get_object_location_set MAX_SPACES MAX_ID g x k s
      { s with objects := s.objects.erase o ++ [o] } _ _ htk rfl
    simp only [List.take_of_length_le hlen, List.take_of_length_le hlen2]
    rw [Entrega2.scan_objects_eq_mem x _ hno, Entrega2.scan_objects_eq_mem x _ hno2]
    by_cases hx : x = o
    · subst hx
      simp [hmem]
    · simp [List.mem_erase_of_ne hx, hx]
  refine ⟨?_, ?_, hloc o, fun other _ => hloc other⟩
  · rw [heq]
  · rw [heq]
    rfl

/-- Witness of C4: the player, in space 2 and carrying nothing, takes the "lamp" lying there and
drops it again. -/
theorem take_then_drop_witness :
    (Entrega2.game_callback_drop 4 4 (Entrega2.game_callback_take 4 4 4 emptyHandedGame "lamp")).status
      = STATUS.OK ∧
    Entrega2.player_get_object
      (Entrega2.game_callback_drop 4 4
        (Entrega2.game_callback_take 4 4 4 emptyHandedGame "lamp")).player = NO_ID ∧
    Entrega2.game_get_object_location 4 4
        (Entrega2.game_callback_drop 4 4 (Entrega2.game_callback_take 4 4 4 emptyHandedGame "lamp"))
        (Entrega2.object_get_id (Entrega2.game_get_object_by_name 4 emptyHandedGame "lamp")) =
      Entrega2.game_get_object_location 4 4 emptyHandedGame
        (Entrega2.object_get_id (Entrega2.game_get_object_by_name 4 emptyHandedGame "lamp")) ∧
    ∀ other : Id,
      other ≠ Entrega2.object_get_id (Entrega2.game_get_object_by_name 4 emptyHandedGame "lamp") →
      Entrega2.game_get_object_location 4 4
          (Entrega2.game_callback_drop 4 4
            (Entrega2.game_callback_take 4 4 4 emptyHandedGame "lamp")) other =
        Entrega2.game_get_object_location 4 4 emptyHandedGame other :=
  take_then_drop 4 4 4 emptyHandedGame "lamp" (by decide) (by decide)

/-- Reading the slot that was just written. -/
theorem slot_set_self {α : Type} (l : List (Option α)) (k : Nat) (x : Option α)
    (h : k < l.length) : slot (l.set k x) k = x := by
  simp [slot, List.getElem?_set_self h]

/-- Reading another slot than the one written. -/
theorem slot_set_ne {α : Type} (l : List (Option α)) (k j : Nat) (x : Option α) (h : j ≠ k) :
    slot (l.set k x) j = slot l j := by
  simp [slot, List.getElem?_set_ne (Ne.symm h)]

/-- C8. In Entrega 2, when the player carries an object and stands in a registered space
(slot `k` of the registry) whose object set has room, `game_callback_drop` sets the status to
`OK`, appends the object to that space's object set after the existing members, clears the
player's carried slot, leaves the player where it is and leaves every other slot of the
registry as it was. -/
theorem drop_appends (MAX_SPACES MAX_ID : Nat) (g : Entrega2.Game) (p : Entrega2.Player)
    (k : Nat) (s : Entrega2.Space) (hp : g.player = some p) (ho : p.object ≠ NO_ID)
    (hidx : Entrega2.game_get_space_index MAX_SPACES g p.location = some k)
    (hk : g.spaces[k]? = some (some s)) (hroom : s.objects.length < MAX_ID) :
    (Entrega2.game_callback_drop MAX_SPACES MAX_ID g).status = STATUS.OK ∧
    slot (Entrega2.game_callback_drop MAX_SPACES MAX_ID g).spaces k =
      some { s with objects := s.objects ++ [p.object] } ∧
    Entrega2.player_get_object (Entrega2.game_callback_drop MAX_SPACES MAX_ID g).player = NO_ID ∧
    Entrega2.player_get_location (Entrega2.game_callback_drop MAX_SPACES MAX_ID g).player =
      p.location ∧
    ∀ j : Nat, j ≠ k →
      slot (Entrega2.game_callback_drop MAX_SPACES MAX_ID g).spaces j = slot g.spaces j := by
  have hlt : k < g.spaces.length := (List.getElem?_eq_some.mp hk).1
  rw [Entrega2.drop_some MAX_SPACES MAX_ID g p k s hp ho hidx hk hroom]
  exact ⟨rfl, slot_set_self _ _ _ hlt, rfl, rfl, fun j hj => slot_set_ne _ _ _ _ hj⟩

/-- Witness of C8: the player, in space 1 whose object set is [8], drops object 7. -/
theorem drop_appends_witness :
    (Entrega2.game_callback_drop 4 4 carryingGame).status = STATUS.OK ∧
    slot (Entrega2.game_callback_drop 4 4 carryingGame).spaces 0 =
      some { id := 1, name := "A", north := NO_ID, east := NO_ID, south := 2, west := NO_ID,
             objects := [8] ++ [7] } ∧
    Entrega2.player_get_object (Entrega2.game_callback_drop 4 4 carryingGame).player = NO_ID ∧
    Entrega2.player_get_location (Entrega2.game_callback_drop 4 4 carryingGame).player = 1 ∧
    ∀ j : Nat, j ≠ 0 →
      slot (Entrega2.game_callback_drop 4 4 carryingGame).spaces j = slot carryingGame.spaces j :=
  drop_appends 4 4 carryingGame { id := 1, name := "p", location := 1, object := 7 } 0
    { id := 1, name := "A", north := NO_ID, east := NO_ID, south := 2, west := NO_ID,
      objects := [8] }
    rfl (by decide) (by decide) (by decide) (by decide)

namespace Entrega2

/-- The occurrences in one registered space are among the occurrences in all of them. -/
theorem count_le_occurrences (id : Id) (l : List Space) (k : Nat) (s : Space)
    (hk : l[k]? = some s) : s.objects.count id ≤ occurrences id l := by
  have := occurrences_set id l k s { s with objects := [] } hk
  simp only [List.count_nil] at this
  omega

/-- The registered spaces after a registered slot was overwritten. -/
theorem registered_spaces_set (MAX_SPACES : Nat) (g : Game) (k : Nat) (t : Space)
    (p : Option Player) (st : STATUS) (hlt : k < (registered_spaces MAX_SPACES g).length) :
    registered_spaces MAX_SPACES
        { g with player := p, spaces := g.spaces.set k (some t), status := st } =
      (registered_spaces MAX_SPACES g).set k t := by
  unfold registered_spaces at hlt ⊢
  simp only [List.set_take]
  exact registered_set _ k t hlt

end Entrega2

/-- C6 (as stated, at a concrete input). In the game where the id 8 lies in the object sets of
spaces 1 and 2, the player in space 1 takes the "key" (id 8) with status `OK`, and afterwards
`game_get_object_location` of 8 is 2, not `NO_ID`. -/
theorem take_leaves_other_copy :
    (Entrega2.game_callback_take 4 4 4 twiceLaidGame "key").status = STATUS.OK ∧
    Entrega2.player_get_object (Entrega2.game_callback_take 4 4 4 twiceLaidGame "key").player = 8 ∧
    Entrega2.game_get_object_location 4 4
      (Entrega2.game_callback_take 4 4 4 twiceLaidGame "key") 8 = 2 ∧
    Entrega2.game_get_object_location 4 4
      (Entrega2.game_callback_take 4 4 4 twiceLaidGame "key") 8 ≠ NO_ID := by
  decide

/-- C6 (amended). In Entrega 2, when `game_callback_take` ends with status `OK` for an object
id that occurs exactly once in the object sets of the registered spaces: afterwards the player
carries that id, the player's location is unchanged, the id is erased from the object set of
the space it was in (slot `k`, the player's space) and is no longer a member of it,
`game_get_object_location` of the id is `NO_ID`, and every other slot of the registry is as it
was. -/
theorem take_moves_object (MAX_SPACES MAX_OBJECTS MAX_ID : Nat) (g : Entrega2.Game)
    (input : String)
    (h : (Entrega2.game_callback_take MAX_SPACES MAX_OBJECTS MAX_ID g input).status =
      STATUS.OK)
    (hocc : Entrega2.object_occurrences MAX_SPACES g
      (Entrega2.object_get_id (Entrega2.game_get_object_by_name MAX_OBJECTS g input)) = 1) :
    ∃ k s, Entrega2.game_get_space_index MAX_SPACES g (Entrega2.player_get_location g.player) =
        some k ∧
      slot g.spaces k = some s ∧
      Entrega2.object_get_id (Entrega2.game_get_object_by_name MAX_OBJECTS g input) ∈ s.objects ∧
      Entrega2.player_get_object
          (Entrega2.game_callback_take MAX_SPACES MAX_OBJECTS MAX_ID g input).player =
        Entrega2.object_get_id (Entrega2.game_get_object_by_name MAX_OBJECTS g input) ∧
      Entrega2.player_get_location
          (Entrega2.game_callback_take MAX_SPACES MAX_OBJECTS MAX_ID g input).player =
        Entrega2.player_get_location g.player ∧
      slot (Entrega2.game_callback_take MAX_SPACES MAX_OBJECTS MAX_ID g input).spaces k =
        some { s with objects := (s.objects.erase
          (Entrega2.object_get_id (Entrega2.game_get_object_by_name MAX_OBJECTS g input))) } ∧
      Entrega2.object_get_id (Entrega2.game_get_object_by_name MAX_OBJECTS g input) ∉
        s.objects.erase
          (Entrega2.object_get_id (Entrega2.game_get_object_by_name MAX_OBJECTS g input)) ∧
      Entrega2.game_get_object_location MAX_SPACES MAX_ID
          (Entrega2.game_callback_take MAX_SPACES MAX_OBJECTS MAX_ID g input)
          (Entrega2.object_get_id (Entrega2.game_get_object_by_name MAX_OBJECTS g input)) =
        NO_ID ∧
      ∀ j : Nat, j ≠ k →
        slot (Entrega2.game_callback_take MAX_SPACES MAX_OBJECTS MAX_ID g input).spaces j =
          slot g.spaces j := by
  obtain ⟨p, k, s, hp, hcar, hone, hloc, hidx, htk, hk, hsid, hmem, heq⟩ :=
    Entrega2.take_ok MAX_SPACES MAX_OBJECTS MAX_ID g input h
  generalize Entrega2.object_get_id (Entrega2.game_get_object_by_name MAX_OBJECTS g input) = o
    at *
  obtain ⟨hlt, hget, _⟩ := Entrega2.game_get_space_index_registered MAX_SPACES g _ k s hidx htk
  have hltk : k < g.spaces.length := (List.getElem?_eq_some.mp hk).1
  have hc1 : 0 < s.objects.count o := List.count_pos_iff.mpr hmem
  have hc2 := Entrega2.count_le_occurrences o _ k s hget
  have hset := Entrega2.occurrences_set o _ k s { s with objects := s.objects.erase o } hget
  unfold Entrega2.object_occurrences at hocc
  simp only [List.count_erase_self] at hset
  have hzero : Entrega2.occurrences o ((Entrega2.registered_spaces MAX_SPACES g).set k
      { s with objects := s.objects.erase o }) = 0 := by omega
  have hnot : o ∉ s.objects.erase o := by
    apply List.count_eq_zero.mp
    rw [List.count_erase_self]
    omega
  refine ⟨k, s, by simpa [hp, Entrega2.player_get_location] using hidx, by simp [slot, hk], hmem,
    ?_, ?_, ?_, hnot, ?_, ?_⟩
  · rw [heq]; rfl
  · rw [heq, hp]; rfl
  · rw [heq]; exact slot_set_self _ _ _ hltk
  · rw [heq, Entrega2.game_get_object_location_eq]
    apply Entrega2.first_location_of_occurrences_zero
    have := Entrega2.registered_spaces_set MAX_SPACES g k { s with objects := s.objects.erase o }
      (some { p with object := o }) STATUS.OK hlt
    unfold Entrega2.registered_spaces at this
    rw [this]
    exact hzero
  · intro j hj
    rw [heq]
    exact slot_set_ne _ _ _ _ hj

/-- Witness of C6 (amended): the player, in space 2 and carrying nothing, takes the "lamp"
(id 7), which lies in space 2 only. -/
theorem take_moves_object_witness :
    ∃ k s, Entrega2.game_get_space_index 4 emptyHandedGame
        (Entrega2.player_get_location emptyHandedGame.player) = some k ∧
      slot emptyHandedGame.spaces k = some s ∧
      Entrega2.object_get_id (Entrega2.game_get_object_by_name 4 emptyHandedGame "lamp") ∈
        s.objects ∧
      Entrega2.player_get_object (Entrega2.game_callback_take 4 4 4 emptyHandedGame "lamp").player =
        Entrega2.object_get_id (Entrega2.game_get_object_by_name 4 emptyHandedGame "lamp") ∧
      Entrega2.player_get_location
          (Entrega2.game_callback_take 4 4 4 emptyHandedGame "lamp").player =
        Entrega2.player_get_location emptyHandedGame.player ∧
      slot (Entrega2.game_callback_take 4 4 4 emptyHandedGame "lamp").spaces k =
        some { s with objects := (s.objects.erase
          (Entrega2.object_get_id (Entrega2.game_get_object_by_name 4 emptyHandedGame "lamp"))) } ∧
      Entrega2.object_get_id (Entrega2.game_get_object_by_name 4 emptyHandedGame "lamp") ∉
        s.objects.erase
          (Entrega2.object_get_id (Entrega2.game_get_object_by_name 4 emptyHandedGame "lamp")) ∧
      Entrega2.game_get_object_location 4 4
          (Entrega2.game_callback_take 4 4 4 emptyHandedGame "lamp")
          (Entrega2.object_get_id (Entrega2.game_get_object_by_name 4 emptyHandedGame "lamp")) =
        NO_ID ∧
      ∀ j : Nat, j ≠ k →
        slot (Entrega2.game_callback_take 4 4 4 emptyHandedGame "lamp").spaces j =
          slot emptyHandedGame.spaces j :=
  take_moves_object 4 4 4 emptyHandedGame "lamp" (by decide) (by decide)

/-! ## Look -/

namespace Examen

/-- A text that fits is copied whole by `strncpy`. -/
theorem strncpy_of_length_le (src : String) (n : Nat) (h : src.length ≤ n) :
    strncpy src n = src := by
  unfold strncpy
  have : src.data.length ≤ n := h
  rw [List.take_of_length_le this]

/-- A value within the range of `int` is kept when it is stored in an `int`. -/
theorem int_of_long_of_range (x : Int) (h1 : -2147483648 ≤ x) (h2 : x ≤ 2147483647) :
    int_of_long x = x := by
  unfold int_of_long
  omega

/-- What `game_callback_look` leaves as description for the token "here" or "h", as a function
of the space `act` it looks up: the first registered space whose id is the player location
narrowed to `int`. -/
theorem game_callback_look_here (MAX_SPACES WORD_SIZE : Nat) (g : Game) (input : String)
    (hin : input = "here" ∨ input = "h") :
    (game_callback_look MAX_SPACES WORD_SIZE g input).description =
      match game_get_space MAX_SPACES g (int_of_long (game_get_player_location g)) with
      | none => g.description
      | some s =>
        if s.illuminated = BOOL.TRUE then strncpy s.name WORD_SIZE
        else strncpy "Space is not illuminated" WORD_SIZE := by
  have hnone : int_of_long (game_get_player_location g) = NO_ID →
      game_get_space MAX_SPACES g (int_of_long (game_get_player_location g)) = none := by
    intro e
    simp [game_get_space, game_get_space_index, e]
  unfold game_callback_look
  by_cases hloc : int_of_long (game_get_player_location g) = NO_ID
  · have h0 := hnone hloc
    simp only [hloc, if_true] at h0 ⊢
    rw [h0]
  · simp only [hloc, if_false]
    cases hsp : game_get_space MAX_SPACES g (int_of_long (game_get_player_location g)) with
    | none => rcases hin with hin | hin <;> subst hin <;> simp [look_block]
    | some s =>
      cases hil : s.illuminated <;> rcases hin with hin | hin <;> subst hin <;>
        simp [look_block, space_get_illuminated, space_get_name, game_set_description, hil]

end Examen

/-- Look at the current space when the location fits an `int`: in Examen, for a player
location within the range of `int` (one that the `int` variable of `game_callback_look` holds unchanged), after
`game_update` with the look command and the token "here" (or "h"), whatever the description
was before: `game_get_description` is the name of the player's current space when that space
is registered and illuminated, the text "Space is not illuminated" when it is registered and
not illuminated, and the empty string when no registered space has the player's location as
id, which is the case when the location is `NO_ID`. Names are bounded text: the name and the
fixed text (24 characters) are shorter than `WORD_SIZE`, so that `strncpy` copies them
whole. -/
theorem look_here (MAX_SPACES WORD_SIZE : Nat) (g : Examen.Game) (input : String)
    (hin : input = "here" ∨ input = "h") (hW : 24 < WORD_SIZE)
    (hint : Examen.int_of_long (Examen.game_get_player_location g) =
      Examen.game_get_player_location g)
    (hname : ∀ s,
      Examen.game_get_space MAX_SPACES g (Examen.game_get_player_location g) = some s →
      s.name.length < WORD_SIZE) :
    (Examen.game_get_player_location g = NO_ID →
      Examen.game_get_space MAX_SPACES g (Examen.game_get_player_location g) = none) ∧
    ∃ r, Examen.game_update MAX_SPACES WORD_SIZE g Examen.LOOK input = some (STATUS.OK, r) ∧
      Examen.game_get_description r =
        match Examen.game_get_space MAX_SPACES g (Examen.game_get_player_location g) with
        | none => ""
        | some s => if s.illuminated = BOOL.TRUE then s.name else "Space is not illuminated" := by
  refine ⟨?_, ?_⟩
  · intro e
    simp [Examen.game_get_space, Examen.game_get_space_index, e]
  · refine ⟨Examen.game_callback_look MAX_SPACES WORD_SIZE
      { g with description := "", last_cmd := Examen.LOOK } input, ?_, ?_⟩
    · simp [Examen.game_update, Examen.LOOK, Examen.game_callback_fn_list]
    · unfold Examen.game_get_description
      rw [Examen.game_callback_look_here MAX_SPACES WORD_SIZE _ input hin]
      have hs : Examen.game_get_space MAX_SPACES
          { g with description := "", last_cmd := Examen.LOOK }
          (Examen.int_of_long (Examen.game_get_player_location
            { g with description := "", last_cmd := Examen.LOOK })) =
          Examen.game_get_space MAX_SPACES g (Examen.game_get_player_location g) := by
        have e : Examen.game_get_player_location
            { g with description := "", last_cmd := Examen.LOOK } =
            Examen.game_get_player_location g := rfl
        rw [e, hint]
        rfl
      rw [hs]
      cases hsp : Examen.game_get_space MAX_SPACES g (Examen.game_get_player_location g) with
      | none => rfl
      | some s =>
        have h1 := Examen.strncpy_of_length_le s.name WORD_SIZE (Nat.le_of_lt (hname s hsp))
        have h2 := Examen.strncpy_of_length_le "Space is not illuminated" WORD_SIZE
          (le_trans (by decide) (Nat.le_of_lt hW))
        simp only [h1, h2]

/-- Witness of `look_here`: in the two-space game of Examen the player stands in the
illuminated space "A", and the description before the command is "old". -/
theorem look_here_witness :
    (Examen.game_get_player_location { movementExam with description := "old" } = NO_ID →
      Examen.game_get_space 4 { movementExam with description := "old" }
        (Examen.game_get_player_location { movementExam with description := "old" }) = none) ∧
    ∃ r, Examen.game_update 4 30 { movementExam with description := "old" } Examen.LOOK "here" =
        some (STATUS.OK, r) ∧
      Examen.game_get_description r =
        match Examen.game_get_space 4 { movementExam with description := "old" }
          (Examen.game_get_player_location { movementExam with description := "old" }) with
        | none => ""
        | some s => if s.illuminated = BOOL.TRUE then s.name else "Space is not illuminated" :=
  look_here 4 30 { movementExam with description := "old" } "here" (Or.inl rfl) (by decide)
    (by decide) (by decide)

/-! ## The invariant on where objects are -/

/-- C9 (evaluation at the failing input). In the game where two registered spaces share the id
1 and the "key" (id 8) lies in the second, the predicate holds; `game_update` with the take
command and the name "key" ends with status `ERROR`, the player carrying 8 while 8 is still
found in a space, so the predicate no longer holds: `game_callback_take` gave the object to
the player before the deletion from the space failed. -/
theorem take_breaks_invariant_on_shared_id :
    Entrega2.object_invariant 4 4 shadowedGame ∧
    ∃ r, Entrega2.game_update 4 4 4 shadowedGame Entrega2.TAKE ⟨"key", 0⟩ = some (STATUS.OK, r) ∧
      r.status = STATUS.ERROR ∧ Entrega2.player_get_object r.player = 8 ∧
      Entrega2.game_get_object_location 4 4 r 8 = 1 ∧
      ¬ Entrega2.object_invariant 4 4 r :=
  ⟨by decide, _, rfl, by decide, by decide, by decide, by decide⟩

namespace Entrega2

/-- Starting the scan of `game_get_space` one index later shifts the index it finds. -/
theorem find_space_shift (id : Id) (l : List (Option Space)) (i : Nat) :
    find_space id l (i + 1) = (find_space id l i).map (fun k => k + 1) := by
  induction l generalizing i with
  | nil => simp [find_space]
  | cons x rest ih =>
    cases x with
    | none => simp [find_space]
    | some s =>
      by_cases hs : id = s.id
      · simp [find_space, space_get_id, hs]
      · simp [find_space, space_get_id, hs, ih (i + 1)]

/-- The object `game_get_object_by_name` returns is a registered object. -/
theorem find_object_by_name_mem (name : String) (l : List (Option Object)) (ob : Object)
    (h : find_object_by_name name l = some ob) : ob ∈ registered l := by
  induction l with
  | nil => simp [find_object_by_name] at h
  | cons x rest ih =>
    cases x with
    | none => simp [find_object_by_name] at h
    | some o =>
      by_cases ho : o.name = name
      · simp [find_object_by_name, ho] at h
        simp [registered, h]
      · simp [find_object_by_name, ho] at h
        simp [registered, ih h]

/-- In a registry whose object sets are bounded and whose space ids are distinct, an id that
occurs in some registered object set has a location, and `game_get_space` of that location
finds a space holding the id. -/
theorem first_location_found (MAX_ID : Nat) (id : Id) (l : List (Option Space))
    (hwf : ∀ s ∈ registered l, NO_ID ∉ s.objects ∧ s.objects.length ≤ MAX_ID)
    (hd : ((registered l).map (fun s => s.id)).Nodup)
    (hn : NO_ID ∉ (registered l).map (fun s => s.id))
    (hocc : 0 < occurrences id (registered l)) :
    first_location MAX_ID id l ≠ NO_ID ∧
      ∃ k s, find_space (first_location MAX_ID id l) l 0 = some k ∧
        l[k]? = some (some s) ∧ id ∈ s.objects := by
  induction l with
  | nil => simp [registered, occurrences] at hocc
  | cons x rest ih =>
    cases x with
    | none => simp [registered, occurrences] at hocc
    | some s =>
      obtain ⟨hno, hlen⟩ := hwf s (by simp [registered])
      have hwf' : ∀ t ∈ registered rest, NO_ID ∉ t.objects ∧ t.objects.length ≤ MAX_ID :=
        fun t ht => hwf t (by simp [registered, ht])
      simp only [registered, List.map_cons, List.nodup_cons, List.mem_cons, not_or] at hd hn
      have hscan : scan_objects id (s.objects.take MAX_ID) = decide (id ∈ s.objects) := by
        rw [List.take_of_length_le hlen, scan_objects_eq_mem id _ hno]
      by_cases hmem : id ∈ s.objects
      · have hfl : first_location MAX_ID id (some s :: rest) = s.id := by
          simp [first_location, hscan, hmem]
        rw [hfl]
        exact ⟨fun e => hn.1 e.symm, 0, s, by simp [find_space, space_get_id], by simp, hmem⟩
      · have hfl : first_location MAX_ID id (some s :: rest) = first_location MAX_ID id rest := by
          simp [first_location, hscan, hmem]
        have hocc' : 0 < occurrences id (registered rest) := by
          simp only [registered, occurrences, List.count_eq_zero.mpr hmem, Nat.zero_add] at hocc
          exact hocc
        obtain ⟨hne, k, t, hf, hk, ht⟩ := ih hwf' hd.2 hn.2 hocc'
        rw [hfl]
        refine ⟨hne, k + 1, t, ?_, by simpa using hk, ht⟩
        have htid := (find_space_spec _ rest 0 k hf)
        obtain ⟨_, u, hu, huid⟩ := htid
        simp only [Nat.sub_zero] at hu
        have hut : u = t := by
          rw [hk] at hu
          simpa using hu.symm
        subst hut
        have hlt := find_space_registered _ rest 0 k hf
        simp only [Nat.sub_zero] at hlt
        have hreg : u ∈ registered rest := List.getElem?_mem (registered_getElem rest k u hk hlt)
        have hne2 : ¬ first_location MAX_ID id rest = s.id := by
          intro e
          apply hd.1
          rw [← e, ← huid]
          exact List.mem_map_of_mem _ hreg
        simp [find_space, space_get_id, hne2, find_space_shift, hf]

/-- The object-location predicate only reads the object registry, the space registry and the
carried object. -/
theorem object_invariant_congr (MAX_SPACES MAX_OBJECTS : Nat) (g r : Game)
    (ho : r.objects = g.objects) (hs : r.spaces = g.spaces)
    (hc : player_get_object r.player = player_get_object g.player)
    (h : object_invariant MAX_SPACES MAX_OBJECTS g) : object_invariant MAX_SPACES MAX_OBJECTS r := by
  unfold object_invariant registered_objects object_occurrences registered_spaces at *
  rw [ho, hs, hc]
  exact h

/-- Modelled `player_set_location` leaves the carried object as it was. -/
theorem player_set_location_object (p : Option Player) (id : Id) :
    player_get_object (player_set_location p id).2 = player_get_object p := by
  cases p with
  | none => rfl
  | some q =>
    by_cases h : id = NO_ID <;> simp [player_set_location, player_get_object, h]

/-- The movement loop writes nothing but the player's location and the status. -/
theorem move_loop_frame (link : Option Space → Id) (g : Game) (id : Id)
    (l : List (Option Space)) :
    (move_loop link g id l).objects = g.objects ∧ (move_loop link g id l).spaces = g.spaces ∧
      player_get_object (move_loop link g id l).player = player_get_object g.player := by
  induction l with
  | nil => simp [move_loop]
  | cons x rest ih =>
    cases x with
    | none => simp [move_loop]
    | some s =>
      simp only [move_loop]
      split
      · split
        · exact ⟨rfl, rfl, player_set_location_object _ _⟩
        · exact ⟨rfl, rfl, rfl⟩
      · exact ih

/-- The three ways `game_callback_take` ends: nothing written but the status `ERROR`; status
`OK`; or the object was given to the player and `space_del_object` then failed, the space
`game_get_space` found for the player's location not holding the object. -/
theorem take_cases (MAX_SPACES MAX_OBJECTS MAX_ID : Nat) (g : Game) (input : String) :
    game_callback_take MAX_SPACES MAX_OBJECTS MAX_ID g input = { g with status := STATUS.ERROR } ∨
    (game_callback_take MAX_SPACES MAX_OBJECTS MAX_ID g input).status = STATUS.OK ∨
    ∃ p, g.player = some p ∧ p.object = NO_ID ∧
      object_get_id (game_get_object_by_name MAX_OBJECTS g input) ≠ NO_ID ∧
      p.location = game_get_object_location MAX_SPACES MAX_ID g
        (object_get_id (game_get_object_by_name MAX_OBJECTS g input)) ∧
      ∀ s, game_get_space MAX_SPACES g p.location = some s →
        object_get_id (game_get_object_by_name MAX_OBJECTS g input) ∉ s.objects := by
  generalize ho : object_get_id (game_get_object_by_name MAX_OBJECTS g input) = o
  unfold game_callback_take
  simp only [ho]
  cases hp : g.player with
  | none => simp
  | some p =>
    by_cases hone : o = NO_ID
    · simp [hone]
    by_cases hcar : p.object = NO_ID
    swap
    · simp [hone, hcar, game_get_player, player_get_object, hp]
    by_cases hloc : p.location = game_get_object_location MAX_SPACES MAX_ID g o
    swap
    · simp [hone, hcar, game_get_player, player_get_object, player_get_location, hloc, hp]
    have hl2 : game_get_object_location MAX_SPACES MAX_ID
        { g with player := some { p with object := o } } o =
        game_get_object_location MAX_SPACES MAX_ID g o := by
      simp [game_get_object_location_eq]
    have hs2 : ∀ id, game_get_space MAX_SPACES
        { g with player := some { p with object := o } } id =
        game_get_space MAX_SPACES g id := fun id => rfl
    cases hsp : game_get_space MAX_SPACES g p.location with
    | none =>
      right; right
      exact ⟨p, rfl, hcar, hone, hloc, fun s hs => by rw [hsp] at hs; simp at hs⟩
    | some s =>
      by_cases hmem : o ∈ s.objects
      · right; left
        simp [hone, hcar, game_get_player, player_get_object, player_get_location,
          player_set_object, hl2, hs2, ← hloc, hsp, space_del_object, hmem, hp]
      · right; right
        refine ⟨p, rfl, hcar, hone, hloc, fun t ht => ?_⟩
        rw [hsp] at ht
        have : s = t := by simpa using ht
        subst this
        exact hmem

/-- The two ways `game_callback_drop` ends: nothing written but the status `ERROR`, or the
player carried an object and stood in a registered space with room. -/
theorem drop_cases (MAX_SPACES MAX_ID : Nat) (g : Game) :
    game_callback_drop MAX_SPACES MAX_ID g = { g with status := STATUS.ERROR } ∨
    ∃ p k s, g.player = some p ∧ p.object ≠ NO_ID ∧
      game_get_space_index MAX_SPACES g p.location = some k ∧
      (g.spaces.take MAX_SPACES)[k]? = some (some s) ∧ g.spaces[k]? = some (some s) ∧
      s.objects.length < MAX_ID := by
  cases hp : g.player with
  | none =>
    left
    simp [game_callback_drop, hp]
  | some p =>
    by_cases hcar : p.object = NO_ID
    · left
      simp [game_callback_drop, hp, player_get_object, hcar, space_set_object_NO_ID,
        store_space_self]
    · cases hsp : game_get_space MAX_SPACES g p.location with
      | none =>
        left
        have := store_space_self MAX_SPACES g p.location
        rw [hsp] at this
        simp [game_callback_drop, hp, player_get_object, player_get_location, hsp,
          space_set_object, this]
      | some s =>
        by_cases hroom : s.objects.length < MAX_ID
        · right
          obtain ⟨hid, _, k, hf, htk, hk⟩ := game_get_space_some MAX_SPACES g _ s hsp
          refine ⟨p, k, s, rfl, hcar, ?_, htk, hk, hroom⟩
          simp [game_get_space_index, hid, hf]
        · left
          have := store_space_self MAX_SPACES g p.location
          rw [hsp] at this
          have hfull : MAX_ID ≤ s.objects.length := Nat.le_of_not_lt hroom
          simp [game_callback_drop, hp, player_get_object, player_get_location, hsp,
            space_set_object, hcar, hfull, this]

/-- In a game that satisfies the object-location predicate, with bounded object sets and
distinct space ids, `game_callback_take` either writes nothing but the status `ERROR` or ends
with status `OK`: `space_del_object` cannot fail after the object was given to the player. -/
theorem take_result (MAX_SPACES MAX_OBJECTS MAX_ID : Nat) (g : Game) (input : String)
    (hwf : object_sets_bounded MAX_SPACES MAX_ID g)
    (hsp : space_ids_distinct MAX_SPACES g) (hinv : object_invariant MAX_SPACES MAX_OBJECTS g) :
    game_callback_take MAX_SPACES MAX_OBJECTS MAX_ID g input = { g with status := STATUS.ERROR } ∨
    (game_callback_take MAX_SPACES MAX_OBJECTS MAX_ID g input).status = STATUS.OK := by
  rcases take_cases MAX_SPACES MAX_OBJECTS MAX_ID g input with h | h | ⟨p, hp, hcar, hone, hloc, hnot⟩
  · exact Or.inl h
  · exact Or.inr h
  · exfalso
    generalize hob : game_get_object_by_name MAX_OBJECTS g input = obo at *
    cases obo with
    | none => simp [object_get_id] at hone
    | some ob =>
      simp only [object_get_id] at hone hloc hnot
      have hreg : ob ∈ registered_objects MAX_OBJECTS g :=
        find_object_by_name_mem input _ ob hob
      have hocc : object_occurrences MAX_SPACES g ob.id = 1 := by
        rcases hinv ob hreg with hi | hi
        · exact absurd (by simpa [hp, player_get_object, hcar] using hi.1.symm) hone
        · exact hi.2
      obtain ⟨hne, k, s, hf, hk, hmem⟩ := first_location_found MAX_ID ob.id
        (g.spaces.take MAX_SPACES) hwf hsp.1 hsp.2
        (by unfold object_occurrences registered_spaces at hocc; omega)
      rw [game_get_object_location_eq] at hloc
      rw [← hloc] at hne hf
      have hk2 : g.spaces[k]? = some (some s) := by
        rw [List.getElem?_take] at hk
        split at hk
        · exact hk
        · simp at hk
      refine hnot s ?_ hmem
      simp [game_get_space, game_get_space_index, hne, hf, slot, hk2]

/-- In a game with bounded object sets, set object ids and distinct space ids,
`game_callback_take` preserves the object-location predicate. -/
theorem take_keeps_invariant (MAX_SPACES MAX_OBJECTS MAX_ID : Nat) (g : Game) (input : String)
    (hwf : object_sets_bounded MAX_SPACES MAX_ID g) (hobj : object_ids_set MAX_OBJECTS g)
    (hsp : space_ids_distinct MAX_SPACES g) (hinv : object_invariant MAX_SPACES MAX_OBJECTS g) :
    object_invariant MAX_SPACES MAX_OBJECTS
      (game_callback_take MAX_SPACES MAX_OBJECTS MAX_ID g input) := by
  rcases take_result MAX_SPACES MAX_OBJECTS MAX_ID g input hwf hsp hinv with h | h
  · rw [h]
    exact object_invariant_congr _ _ g _ rfl rfl rfl hinv
  · obtain ⟨p, k, s, hp, hcar, hone, hloc, hidx, htk, hk, hsid, hmem, heq⟩ :=
      take_ok MAX_SPACES MAX_OBJECTS MAX_ID g input h
    generalize object_get_id (game_get_object_by_name MAX_OBJECTS g input) = o at *
    obtain ⟨hlt, hget, _⟩ := game_get_space_index_registered MAX_SPACES g _ k s hidx htk
    rw [heq]
    intro ob hob
    have hob' : ob ∈ registered_objects MAX_OBJECTS g := hob
    have hid := hobj ob hob'
    have hocc : object_occurrences MAX_SPACES g ob.id = 1 := by
      rcases hinv ob hob' with hi | hi
      · exact absurd (by simpa [hp, player_get_object, hcar] using hi.1.symm) hid
      · exact hi.2
    have hset := occurrences_set ob.id _ k s { s with objects := s.objects.erase o } hget
    unfold object_occurrences at hocc ⊢
    rw [registered_spaces_set MAX_SPACES g k _ _ _ hlt]
    by_cases hx : ob.id = o
    · left
      refine ⟨by simp [player_get_object, hx], ?_⟩
      have hc1 : 0 < s.objects.count o := List.count_pos_iff.mpr hmem
      rw [hx] at hset hocc ⊢
      simp only [List.count_erase_self] at hset
      omega
    · right
      refine ⟨by simpa [player_get_object] using fun e : o = ob.id => hx e.symm, ?_⟩
      simp only [List.count_erase_of_ne hx] at hset
      omega

/-- The handler `game_callback_drop` preserves the object-location predicate when no registered
object has the sentinel as id. -/
theorem drop_keeps_invariant (MAX_SPACES MAX_OBJECTS MAX_ID : Nat) (g : Game)
    (hobj : object_ids_set MAX_OBJECTS g) (hinv : object_invariant MAX_SPACES MAX_OBJECTS g) :
    object_invariant MAX_SPACES MAX_OBJECTS (game_callback_drop MAX_SPACES MAX_ID g) := by
  rcases drop_cases MAX_SPACES MAX_ID g with h | ⟨p, k, s, hp, hcar, hidx, htk, hk, hroom⟩
  · rw [h]
    exact object_invariant_congr _ _ g _ rfl rfl rfl hinv
  · obtain ⟨hlt, hget, _⟩ := game_get_space_index_registered MAX_SPACES g _ k s hidx htk
    rw [drop_some MAX_SPACES MAX_ID g p k s hp hcar hidx hk hroom]
    intro ob hob
    have hob' : ob ∈ registered_objects MAX_OBJECTS g := hob
    have hid := hobj ob hob'
    have hset := occurrences_set ob.id _ k s { s with objects := s.objects ++ [p.object] } hget
    have hi := hinv ob hob'
    simp only [hp, player_get_object] at hi
    unfold object_occurrences at hi ⊢
    rw [registered_spaces_set MAX_SPACES g k _ _ _ hlt]
    right
    refine ⟨by simpa [player_get_object] using fun e : NO_ID = ob.id => hid e.symm, ?_⟩
    simp only [List.count_append, List.count_singleton] at hset
    by_cases hx : p.object = ob.id
    · rcases hi with hi | hi
      · have h0 := hi.2
        simp only [hx, beq_self_eq_true, if_true] at hset ⊢
        omega
      · exact absurd hx hi.1
    · rcases hi with hi | hi
      · exact absurd hi.1 hx
      · have hb : (p.object == ob.id) = false := by simpa using hx
        simp only [hb] at hset
        simp at hset
        rw [hset]
        exact hi.2

/-- The conditions on the registries only read the object registry and the space registry. -/
theorem registries_congr (MAX_SPACES MAX_OBJECTS MAX_ID : Nat) (g r : Game)
    (ho : r.objects = g.objects) (hs : r.spaces = g.spaces)
    (h : object_sets_bounded MAX_SPACES MAX_ID g ∧ object_ids_set MAX_OBJECTS g ∧
      space_ids_distinct MAX_SPACES g) :
    object_sets_bounded MAX_SPACES MAX_ID r ∧ object_ids_set MAX_OBJECTS r ∧
      space_ids_distinct MAX_SPACES r := by
  unfold object_sets_bounded object_ids_set space_ids_distinct registered_objects
    registered_spaces at *
  rw [ho, hs]
  exact h

/-- Replacing a space by one with the same id leaves the list of ids as it was. -/
theorem map_id_set (l : List Space) (k : Nat) (s t : Space) (hk : l[k]? = some s)
    (hid : t.id = s.id) : (l.set k t).map (fun x => x.id) = l.map (fun x => x.id) := by
  induction l generalizing k with
  | nil => simp
  | cons x rest ih =>
    cases k with
    | zero =>
      simp at hk
      subst hk
      simp [hid]
    | succ n =>
      simp at hk
      simp [ih n hk]

/-- The conditions on the registries after a registered space was replaced by one with the
same id whose object set is bounded. -/
theorem registries_set (MAX_SPACES MAX_OBJECTS MAX_ID : Nat) (g : Game) (k : Nat) (s t : Space)
    (p : Option Player) (st : STATUS) (hlt : k < (registered_spaces MAX_SPACES g).length)
    (hget : (registered_spaces MAX_SPACES g)[k]? = some s) (hid : t.id = s.id)
    (hno : NO_ID ∉ t.objects) (hlen : t.objects.length ≤ MAX_ID)
    (h : object_sets_bounded MAX_SPACES MAX_ID g ∧ object_ids_set MAX_OBJECTS g ∧
      space_ids_distinct MAX_SPACES g) :
    object_sets_bounded MAX_SPACES MAX_ID
        { g with player := p, spaces := g.spaces.set k (some t), status := st } ∧
      object_ids_set MAX_OBJECTS
        { g with player := p, spaces := g.spaces.set k (some t), status := st } ∧
      space_ids_distinct MAX_SPACES
        { g with player := p, spaces := g.spaces.set k (some t), status := st } := by
  obtain ⟨hb, ho, hd⟩ := h
  refine ⟨?_, ho, ?_⟩
  · unfold object_sets_bounded
    rw [registered_spaces_set MAX_SPACES g k t p st hlt]
    intro x hx
    rcases List.mem_or_eq_of_mem_set hx with hx | hx
    · exact hb x hx
    · subst hx
      exact ⟨hno, hlen⟩
  · unfold space_ids_distinct
    rw [registered_spaces_set MAX_SPACES g k t p st hlt, map_id_set _ k s t hget hid]
    exact hd

/-- The conditions on the registries are preserved by `game_callback_take` in a game that
satisfies the object-location predicate. -/
theorem take_keeps_registries (MAX_SPACES MAX_OBJECTS MAX_ID : Nat) (g : Game) (input : String)
    (hwf : object_sets_bounded MAX_SPACES MAX_ID g) (hobj : object_ids_set MAX_OBJECTS g)
    (hsp : space_ids_distinct MAX_SPACES g) (hinv : object_invariant MAX_SPACES MAX_OBJECTS g) :
    object_sets_bounded MAX_SPACES MAX_ID
        (game_callback_take MAX_SPACES MAX_OBJECTS MAX_ID g input) ∧
      object_ids_set MAX_OBJECTS (game_callback_take MAX_SPACES MAX_OBJECTS MAX_ID g input) ∧
      space_ids_distinct MAX_SPACES
        (game_callback_take MAX_SPACES MAX_OBJECTS MAX_ID g input) := by
  rcases take_result MAX_SPACES MAX_OBJECTS MAX_ID g input hwf hsp hinv with h | h
  · rw [h]
    exact registries_congr _ _ _ g _ rfl rfl ⟨hwf, hobj, hsp⟩
  · obtain ⟨p, k, s, hp, hcar, hone, hloc, hidx, htk, hk, hsid, hmem, heq⟩ :=
      take_ok MAX_SPACES MAX_OBJECTS MAX_ID g input h
    generalize object_get_id (game_get_object_by_name MAX_OBJECTS g input) = o at *
    obtain ⟨hlt, hget, hreg⟩ := game_get_space_index_registered MAX_SPACES g _ k s hidx htk
    obtain ⟨hno, hlen⟩ := hwf s hreg
    rw [heq]
    exact registries_set _ _ _ g k s _ _ _ hlt hget rfl
      (fun hm => hno (List.mem_of_mem_erase hm))
      (le_trans (List.length_erase_le o s.objects) hlen) ⟨hwf, hobj, hsp⟩

/-- The conditions on the registries are preserved by `game_callback_drop`. -/
theorem drop_keeps_registries (MAX_SPACES MAX_OBJECTS MAX_ID : Nat) (g : Game)
    (hwf : object_sets_bounded MAX_SPACES MAX_ID g) (hobj : object_ids_set MAX_OBJECTS g)
    (hsp : space_ids_distinct MAX_SPACES g) :
    object_sets_bounded MAX_SPACES MAX_ID (game_callback_drop MAX_SPACES MAX_ID g) ∧
      object_ids_set MAX_OBJECTS (game_callback_drop MAX_SPACES MAX_ID g) ∧
      space_ids_distinct MAX_SPACES (game_callback_drop MAX_SPACES MAX_ID g) := by
  rcases drop_cases MAX_SPACES MAX_ID g with h | ⟨p, k, s, hp, hcar, hidx, htk, hk, hroom⟩
  · rw [h]
    exact registries_congr _ _ _ g _ rfl rfl ⟨hwf, hobj, hsp⟩
  · obtain ⟨hlt, hget, hreg⟩ := game_get_space_index_registered MAX_SPACES g _ k s hidx htk
    obtain ⟨hno, hlen⟩ := hwf s hreg
    rw [drop_some MAX_SPACES MAX_ID g p k s hp hcar hidx hk hroom]
    refine registries_set _ _ _ g k s _ _ _ hlt hget rfl ?_ ?_ ⟨hwf, hobj, hsp⟩
    · intro hm
      rcases List.mem_append.mp hm with hm | hm
      · exact hno hm
      · exact hcar (List.mem_singleton.mp hm).symm
    · simp only [List.length_append, List.length_singleton]
      omega

/-- The four movement handlers write nothing but the player's location and the status. -/
theorem movement_frame (MAX_SPACES : Nat) (g : Game) :
    ((game_callback_next MAX_SPACES g).objects = g.objects ∧
      (game_callback_next MAX_SPACES g).spaces = g.spaces ∧
      player_get_object (game_callback_next MAX_SPACES g).player = player_get_object g.player) ∧
    ((game_callback_back MAX_SPACES g).objects = g.objects ∧
      (game_callback_back MAX_SPACES g).spaces = g.spaces ∧
      player_get_object (game_callback_back MAX_SPACES g).player = player_get_object g.player) ∧
    ((game_callback_left MAX_SPACES g).objects = g.objects ∧
      (game_callback_left MAX_SPACES g).spaces = g.spaces ∧
      player_get_object (game_callback_left MAX_SPACES g).player = player_get_object g.player) ∧
    ((game_callback_right MAX_SPACES g).objects = g.objects ∧
      (game_callback_right MAX_SPACES g).spaces = g.spaces ∧
      player_get_object (game_callback_right MAX_SPACES g).player =
        player_get_object g.player) := by
  refine ⟨?_, ?_, ?_, ?_⟩
  · unfold game_callback_next
    dsimp only
    split_ifs
    · exact ⟨rfl, rfl, rfl⟩
    · exact ⟨rfl, rfl, rfl⟩
    · exact move_loop_frame _ _ _ _
  · unfold game_callback_back
    dsimp only
    split_ifs
    · exact ⟨rfl, rfl, rfl⟩
    · exact ⟨rfl, rfl, rfl⟩
    · exact move_loop_frame _ _ _ _
  · unfold game_callback_left
    dsimp only
    split_ifs
    · exact ⟨rfl, rfl, rfl⟩
    · exact move_loop_frame _ _ _ _
  · unfold game_callback_right
    dsimp only
    split_ifs
    · exact ⟨rfl, rfl, rfl⟩
    · exact move_loop_frame _ _ _ _

/-- The handler `game_callback_roll` writes nothing but the die and the status. -/
theorem roll_frame (g : Game) (rnd : Nat) :
    (game_callback_roll g rnd).objects = g.objects ∧
      (game_callback_roll g rnd).spaces = g.spaces ∧
      (game_callback_roll g rnd).player = g.player := by
  unfold game_callback_roll
  dsimp only
  split_ifs <;> exact ⟨rfl, rfl, rfl⟩

end Entrega2

/-- Where space ids are distinct the object-location predicate is kept: in Entrega 2, in a
game whose registered spaces have pairwise distinct ids, none the sentinel, whose object sets are bounded and whose registered objects have set ids,
the object-location predicate (every registered object occurs exactly once in the object sets
and is not carried, or is carried and occurs in none) is preserved by every command of the
table dispatched through `game_update`, for every input; the conditions on the registries
hold afterwards too, so the predicate is kept along any sequence of commands. -/
theorem invariant_preserved (MAX_SPACES MAX_OBJECTS MAX_ID : Nat) (g : Entrega2.Game)
    (cmd : T_Command) (inp : Entrega2.Input) (hcmd : 0 ≤ cmd ∧ cmd < Entrega2.N_CALLBACK)
    (hwf : Entrega2.object_sets_bounded MAX_SPACES MAX_ID g)
    (hobj : Entrega2.object_ids_set MAX_OBJECTS g)
    (hsp : Entrega2.space_ids_distinct MAX_SPACES g)
    (hinv : Entrega2.object_invariant MAX_SPACES MAX_OBJECTS g) :
    ∃ r, Entrega2.game_update MAX_SPACES MAX_OBJECTS MAX_ID g cmd inp = some (STATUS.OK, r) ∧
      Entrega2.object_invariant MAX_SPACES MAX_OBJECTS r ∧
      Entrega2.object_sets_bounded MAX_SPACES MAX_ID r ∧
      Entrega2.object_ids_set MAX_OBJECTS r ∧ Entrega2.space_ids_distinct MAX_SPACES r := by
  obtain ⟨h0, h9⟩ := hcmd
  simp only [Entrega2.N_CALLBACK, Nat.cast_ofNat] at h9
  have hwf1 : Entrega2.object_sets_bounded MAX_SPACES MAX_ID { g with last_cmd := cmd } := hwf
  have hobj1 : Entrega2.object_ids_set MAX_OBJECTS { g with last_cmd := cmd } := hobj
  have hsp1 : Entrega2.space_ids_distinct MAX_SPACES { g with last_cmd := cmd } := hsp
  have hinv1 : Entrega2.object_invariant MAX_SPACES MAX_OBJECTS { g with last_cmd := cmd } :=
    hinv
  have hmove := Entrega2.movement_frame MAX_SPACES { g with last_cmd := cmd }
  have hframe : ∀ r : Entrega2.Game, r.objects = g.objects → r.spaces = g.spaces →
      Entrega2.player_get_object r.player = Entrega2.player_get_object g.player →
      Entrega2.object_invariant MAX_SPACES MAX_OBJECTS r ∧
      Entrega2.object_sets_bounded MAX_SPACES MAX_ID r ∧
      Entrega2.object_ids_set MAX_OBJECTS r ∧ Entrega2.space_ids_distinct MAX_SPACES r :=
    fun r ho hs hc => ⟨Entrega2.object_invariant_congr _ _ g r ho hs hc hinv,
      Entrega2.registries_congr _ _ _ g r ho hs ⟨hwf, hobj, hsp⟩⟩
  interval_cases cmd
  · exact ⟨_, rfl, hframe _ rfl rfl rfl⟩
  · exact ⟨_, rfl, hframe _ rfl rfl rfl⟩
  · exact ⟨_, rfl, hframe _ hmove.1.1 hmove.1.2.1 hmove.1.2.2⟩
  · exact ⟨_, rfl, hframe _ hmove.2.1.1 hmove.2.1.2.1 hmove.2.1.2.2⟩
  · exact ⟨_, rfl, Entrega2.take_keeps_invariant _ _ _ _ _ hwf1 hobj1 hsp1 hinv1,
      Entrega2.take_keeps_registries _ _ _ _ _ hwf1 hobj1 hsp1 hinv1⟩
  · exact ⟨_, rfl, Entrega2.drop_keeps_invariant _ _ _ _ hobj1 hinv1,
      Entrega2.drop_keeps_registries _ _ _ _ hwf1 hobj1 hsp1⟩
  · have hr := Entrega2.roll_frame { g with last_cmd := 6 } inp.rnd
    exact ⟨_, rfl, hframe _ hr.1 hr.2.1 (congrArg Entrega2.player_get_object hr.2.2)⟩
  · exact ⟨_, rfl, hframe _ hmove.2.2.1.1 hmove.2.2.1.2.1 hmove.2.2.1.2.2⟩
  · exact ⟨_, rfl, hframe _ hmove.2.2.2.1 hmove.2.2.2.2.1 hmove.2.2.2.2.2⟩

/-- Witness of `invariant_preserved`: the player, in space 2 and carrying nothing, takes the
"lamp". -/
theorem invariant_preserved_witness :
    ∃ r, Entrega2.game_update 4 4 4 emptyHandedGame Entrega2.TAKE ⟨"lamp", 0⟩ =
        some (STATUS.OK, r) ∧
      Entrega2.object_invariant 4 4 r ∧ Entrega2.object_sets_bounded 4 4 r ∧
      Entrega2.object_ids_set 4 r ∧ Entrega2.space_ids_distinct 4 r :=
  invariant_preserved 4 4 4 emptyHandedGame Entrega2.TAKE ⟨"lamp", 0⟩ (by decide) (by decide)
    (by decide) (by decide) (by decide)

/-! ## Look at the neighbours -/

namespace Examen

/-- What one block of `game_callback_look` leaves of the game for the space `sp`, whether it
returns or falls through. -/
theorem look_block_game (WORD_SIZE : Nat) (g : Game) (input long short : String)
    (sp : Option Space) (h : input = long ∨ input = short) :
    (look_block WORD_SIZE g input long short sp).1 =
      match sp with
      | none => g
      | some s =>
        { g with description :=
            if s.illuminated = BOOL.TRUE then strncpy s.name WORD_SIZE
            else strncpy "Space is not illuminated" WORD_SIZE } := by
  unfold look_block
  cases sp with
  | none => simp [h]
  | some s =>
    cases hil : s.illuminated <;>
      simp [h, space_get_illuminated, space_get_name, game_set_description, hil]

/-- A block of `game_callback_look` whose tokens do not match does nothing. -/
theorem look_block_skip (WORD_SIZE : Nat) (g : Game) (input long short : String)
    (sp : Option Space) (h : ¬ (input = long ∨ input = short)) :
    look_block WORD_SIZE g input long short sp = (g, false) := by
  unfold look_block
  simp only [h, if_false]

/-- The handler `game_callback_look`, when the player location narrowed to `int` is not `NO_ID`,
by the token read: the block of the token describes its space, looked up from the narrowed
location; any other token leaves the game as it is. -/
theorem game_callback_look_eq (MAX_SPACES WORD_SIZE : Nat) (g : Game) (input : String)
    (hloc : int_of_long (game_get_player_location g) ≠ NO_ID) :
    game_callback_look MAX_SPACES WORD_SIZE g input =
      if input = "back" ∨ input = "b" then
        (look_block WORD_SIZE g input "back" "b" (game_get_space MAX_SPACES g
          (space_get_north (game_get_space MAX_SPACES g (int_of_long (game_get_player_location g)))))).1
      else if input = "here" ∨ input = "h" then
        (look_block WORD_SIZE g input "here" "h"
          (game_get_space MAX_SPACES g (int_of_long (game_get_player_location g)))).1
      else if input = "next" ∨ input = "n" then
        (look_block WORD_SIZE g input "next" "n" (game_get_space MAX_SPACES g
          (space_get_south (game_get_space MAX_SPACES g (int_of_long (game_get_player_location g)))))).1
      else g := by
  unfold game_callback_look
  simp only [hloc, if_false]
  by_cases hb : input = "back" ∨ input = "b"
  · have hh : ¬ (input = "here" ∨ input = "h") := by
      rcases hb with hb | hb <;> subst hb <;> decide
    have hn : ¬ (input = "next" ∨ input = "n") := by
      rcases hb with hb | hb <;> subst hb <;> decide
    simp only [hb, if_true]
    split
    · rfl
    · simp only [look_block_skip _ _ _ _ _ _ hh, look_block_skip _ _ _ _ _ _ hn,
        Bool.false_eq_true, if_false]
  · simp only [hb, if_false, look_block_skip _ _ _ _ _ _ hb, Bool.false_eq_true]
    by_cases hh : input = "here" ∨ input = "h"
    · have hn : ¬ (input = "next" ∨ input = "n") := by
        rcases hh with hh | hh <;> subst hh <;> decide
      simp only [hh, if_true]
      split
      · rfl
      · simp only [look_block_skip _ _ _ _ _ _ hn]
    · simp only [hh, if_false, look_block_skip _ _ _ _ _ _ hh, Bool.false_eq_true]
      by_cases hn : input = "next" ∨ input = "n"
      · simp only [hn, if_true]
      · simp only [hn, if_false, look_block_skip _ _ _ _ _ _ hn]

/-- The handler `game_callback_look` reads the two tokens of a block alike. -/
theorem game_callback_look_alias (MAX_SPACES WORD_SIZE : Nat) (g : Game) :
    game_callback_look MAX_SPACES WORD_SIZE g "n" =
      game_callback_look MAX_SPACES WORD_SIZE g "next" ∧
    game_callback_look MAX_SPACES WORD_SIZE g "b" =
      game_callback_look MAX_SPACES WORD_SIZE g "back" ∧
    game_callback_look MAX_SPACES WORD_SIZE g "h" =
      game_callback_look MAX_SPACES WORD_SIZE g "here" := by
  by_cases hloc : int_of_long (game_get_player_location g) = NO_ID
  · simp [game_callback_look, hloc]
  · simp only [game_callback_look_eq _ _ _ _ hloc]
    refine ⟨?_, ?_, ?_⟩ <;> simp [look_block]

/-- The description a matching block of `game_callback_look` leaves, when it was empty before
and the texts are shorter than `WORD_SIZE`. -/
theorem look_block_text (WORD_SIZE : Nat) (g : Game) (input long short : String)
    (sp : Option Space) (h : input = long ∨ input = short) (hd : g.description = "")
    (hW : 24 < WORD_SIZE) (hname : ∀ s, sp = some s → s.name.length < WORD_SIZE) :
    (look_block WORD_SIZE g input long short sp).1.description = look_text sp := by
  rw [look_block_game WORD_SIZE g input long short sp h]
  cases sp with
  | none => simpa [look_text] using hd
  | some s =>
    have h1 := strncpy_of_length_le s.name WORD_SIZE (Nat.le_of_lt (hname s rfl))
    have h2 := strncpy_of_length_le "Space is not illuminated" WORD_SIZE
      (le_trans (by decide) (Nat.le_of_lt hW))
    simp only [h1, h2, look_text]

end Examen

/-- Look at the neighbours when the location fits an `int`: in Examen, for a located player
whose location is within the range of `int`, `game_update` with the look command describes, for the token "next", the space whose id is the south link of the current space and, for the token
"back", the space whose id is its north link: the name when that space is illuminated, the
text "Space is not illuminated" when it is not, the empty description when there is no such
space. The tokens "n", "b", "h" give the same result as "next", "back", "here", and any other
token leaves the description empty. Names are bounded text, shorter than `WORD_SIZE`, as is the
fixed text. -/
theorem look_neighbours (MAX_SPACES WORD_SIZE : Nat) (g : Examen.Game)
    (hloc : Examen.game_get_player_location g ≠ NO_ID) (hW : 24 < WORD_SIZE)
    (hint : Examen.int_of_long (Examen.game_get_player_location g) =
      Examen.game_get_player_location g)
    (hname : ∀ s, some s ∈ g.spaces → s.name.length < WORD_SIZE) :
    (∃ r, Examen.game_update MAX_SPACES WORD_SIZE g Examen.LOOK "next" = some (STATUS.OK, r) ∧
      Examen.game_get_description r = Examen.look_text (Examen.game_get_space MAX_SPACES g
        (Examen.space_get_south
          (Examen.game_get_space MAX_SPACES g (Examen.game_get_player_location g))))) ∧
    (∃ r, Examen.game_update MAX_SPACES WORD_SIZE g Examen.LOOK "back" = some (STATUS.OK, r) ∧
      Examen.game_get_description r = Examen.look_text (Examen.game_get_space MAX_SPACES g
        (Examen.space_get_north
          (Examen.game_get_space MAX_SPACES g (Examen.game_get_player_location g))))) ∧
    Examen.game_update MAX_SPACES WORD_SIZE g Examen.LOOK "n" =
      Examen.game_update MAX_SPACES WORD_SIZE g Examen.LOOK "next" ∧
    Examen.game_update MAX_SPACES WORD_SIZE g Examen.LOOK "b" =
      Examen.game_update MAX_SPACES WORD_SIZE g Examen.LOOK "back" ∧
    Examen.game_update MAX_SPACES WORD_SIZE g Examen.LOOK "h" =
      Examen.game_update MAX_SPACES WORD_SIZE g Examen.LOOK "here" ∧
    ∀ input : String, input ∉ ["next", "n", "back", "b", "here", "h"] →
      ∃ r, Examen.game_update MAX_SPACES WORD_SIZE g Examen.LOOK input = some (STATUS.OK, r) ∧
        Examen.game_get_description r = "" := by
  have hupd : ∀ input, Examen.game_update MAX_SPACES WORD_SIZE g Examen.LOOK input =
      some (STATUS.OK, Examen.game_callback_look MAX_SPACES WORD_SIZE
        { g with description := "", last_cmd := Examen.LOOK } input) := by
    intro input
    simp [Examen.game_update, Examen.LOOK, Examen.game_callback_fn_list]
  have hint1 : Examen.int_of_long (Examen.game_get_player_location
      { g with description := "", last_cmd := Examen.LOOK }) =
      Examen.game_get_player_location g := hint
  have hloc1 : Examen.int_of_long (Examen.game_get_player_location
      { g with description := "", last_cmd := Examen.LOOK }) ≠ NO_ID := by
    rw [hint1]
    exact hloc
  have hbound : ∀ id s, Examen.game_get_space MAX_SPACES g id = some s →
      s.name.length < WORD_SIZE := by
    intro id s hs
    obtain ⟨_, _, k, _, _, hk⟩ := Examen.exam_game_get_space_some MAX_SPACES g id s hs
    exact hname s (List.getElem?_mem hk)
  have halias := Examen.game_callback_look_alias MAX_SPACES WORD_SIZE
    { g with description := "", last_cmd := Examen.LOOK }
  refine ⟨⟨_, hupd _, ?_⟩, ⟨_, hupd _, ?_⟩, ?_, ?_, ?_, ?_⟩
  · rw [Examen.game_callback_look_eq _ _ _ _ hloc1, hint1]
    simp only [String.reduceEq, or_self, if_false, true_or, if_true, Examen.game_get_description]
    exact Examen.look_block_text WORD_SIZE _ "next" "next" "n" _ (Or.inl rfl) rfl hW
      (fun s hs => hbound _ s hs)
  · rw [Examen.game_callback_look_eq _ _ _ _ hloc1, hint1]
    simp only [String.reduceEq, or_self, if_false, true_or, if_true, Examen.game_get_description]
    exact Examen.look_block_text WORD_SIZE _ "back" "back" "b" _ (Or.inl rfl) rfl hW
      (fun s hs => hbound _ s hs)
  · rw [hupd, hupd, halias.1]
  · rw [hupd, hupd, halias.2.1]
  · rw [hupd, hupd, halias.2.2]
  · intro input hin
    simp only [List.mem_cons, List.mem_singleton, List.not_mem_nil, or_false, not_or] at hin
    obtain ⟨h1, h2, h3, h4, h5, h6⟩ := hin
    refine ⟨_, hupd input, ?_⟩
    rw [Examen.game_callback_look_eq _ _ _ _ hloc1]
    simp [h1, h2, h3, h4, h5, h6, Examen.game_get_description]

/-- Witness of `look_neighbours`: in the two-space game of Examen the player stands in space
"A", south of which lies "B". -/
theorem look_neighbours_witness :
    (∃ r, Examen.game_update 4 30 movementExam Examen.LOOK "next" = some (STATUS.OK, r) ∧
      Examen.game_get_description r = Examen.look_text (Examen.game_get_space 4 movementExam
        (Examen.space_get_south
          (Examen.game_get_space 4 movementExam
            (Examen.game_get_player_location movementExam))))) ∧
    (∃ r, Examen.game_update 4 30 movementExam Examen.LOOK "back" = some (STATUS.OK, r) ∧
      Examen.game_get_description r = Examen.look_text (Examen.game_get_space 4 movementExam
        (Examen.space_get_north
          (Examen.game_get_space 4 movementExam
            (Examen.game_get_player_location movementExam))))) ∧
    Examen.game_update 4 30 movementExam Examen.LOOK "n" =
      Examen.game_update 4 30 movementExam Examen.LOOK "next" ∧
    Examen.game_update 4 30 movementExam Examen.LOOK "b" =
      Examen.game_update 4 30 movementExam Examen.LOOK "back" ∧
    Examen.game_update 4 30 movementExam Examen.LOOK "h" =
      Examen.game_update 4 30 movementExam Examen.LOOK "here" ∧
    ∀ input : String, input ∉ ["next", "n", "back", "b", "here", "h"] →
      ∃ r, Examen.game_update 4 30 movementExam Examen.LOOK input = some (STATUS.OK, r) ∧
        Examen.game_get_description r = "" :=
  look_neighbours 4 30 movementExam (by decide) (by decide) (by decide)
    (fun s hs => by
      simp only [movementExam, List.mem_cons, Option.some.injEq, List.mem_singleton,
        List.not_mem_nil, or_false] at hs
      rcases hs with rfl | rfl | hs
      · decide
      · decide
      · cases hs)

/-! ## The scan to the first match -/

/-- Starting the scan one index later shifts the index it finds. -/
theorem first_match_shift {α : Type} (p : α → Bool) (l : List (Option α)) (i : Nat) :
    first_match p l (i + 1) = (first_match p l i).map (fun k => k + 1) := by
  induction l generalizing i with
  | nil => simp [first_match]
  | cons x rest ih =>
    cases x with
    | none => simp [first_match]
    | some a =>
      by_cases ha : p a = true
      · simp [first_match, ha]
      · simp [first_match, ha, ih (i + 1)]

/-- The scan finds index `k` exactly when slot `k` holds a match and every earlier slot holds
an entry that does not match. -/
theorem first_match_some_iff {α : Type} (p : α → Bool) (l : List (Option α)) (k : Nat) :
    first_match p l 0 = some k ↔
      (∃ a, l[k]? = some (some a) ∧ p a = true) ∧
        ∀ j, j < k → ∃ b, l[j]? = some (some b) ∧ p b = false := by
  induction l generalizing k with
  | nil => simp [first_match]
  | cons x rest ih =>
    cases x with
    | none =>
      simp only [first_match]
      constructor
      · intro h
        cases h
      · intro ⟨⟨a, ha, _⟩, hall⟩
        cases k with
        | zero => simp at ha
        | succ n =>
          obtain ⟨b, hb, _⟩ := hall 0 (Nat.succ_pos n)
          simp at hb
    | some a =>
      by_cases ha : p a = true
      · simp only [first_match, ha, if_true, Option.some.injEq]
        constructor
        · intro h
          subst h
          exact ⟨⟨a, by simp, ha⟩, fun j hj => absurd hj (Nat.not_lt_zero j)⟩
        · intro ⟨_, hall⟩
          cases k with
          | zero => rfl
          | succ n =>
            obtain ⟨b, hb, hpb⟩ := hall 0 (Nat.succ_pos n)
            simp only [List.getElem?_cons_zero, Option.some.injEq] at hb
            subst hb
            rw [ha] at hpb
            cases hpb
      · have ha' : p a = false := by simpa using ha
        simp only [first_match, ha', Bool.false_eq_true, if_false, first_match_shift,
          Option.map_eq_some']
        constructor
        · intro ⟨n, hn, hk⟩
          subst hk
          obtain ⟨⟨c, hc, hpc⟩, hall⟩ := (ih n).mp hn
          refine ⟨⟨c, by simpa using hc, hpc⟩, fun j hj => ?_⟩
          cases j with
          | zero => exact ⟨a, by simp, ha'⟩
          | succ m =>
            obtain ⟨b, hb, hpb⟩ := hall m (by omega)
            exact ⟨b, by simpa using hb, hpb⟩
        · intro ⟨⟨c, hc, hpc⟩, hall⟩
          cases k with
          | zero =>
            simp only [List.getElem?_cons_zero, Option.some.injEq] at hc
            subst hc
            rw [ha'] at hpc
            cases hpc
          | succ n =>
            refine ⟨n, (ih n).mpr ⟨⟨c, by simpa using hc, hpc⟩, fun j hj => ?_⟩, rfl⟩
            obtain ⟨b, hb, hpb⟩ := hall (j + 1) (by omega)
            exact ⟨b, by simpa using hb, hpb⟩

/-- The scan of `game_get_space` in Entrega 2 is the scan to the first space with the id. -/
theorem find_space_eq_first_match (id : Id) (l : List (Option Entrega2.Space)) (i : Nat) :
    Entrega2.find_space id l i = first_match (fun s => decide (id = s.id)) l i := by
  induction l generalizing i with
  | nil => rfl
  | cons x rest ih =>
    cases x with
    | none => rfl
    | some s =>
      by_cases hs : id = s.id
      · simp [Entrega2.find_space, first_match, Entrega2.space_get_id, hs]
      · simp [Entrega2.find_space, first_match, Entrega2.space_get_id, hs, ih (i + 1)]

/-- The scan of `game_get_space` in Examen is the scan to the first space with the id. -/
theorem exam_find_space_eq_first_match (id : Id) (l : List (Option Examen.Space)) (i : Nat) :
    Examen.find_space id l i = first_match (fun s => decide (id = s.id)) l i := by
  induction l generalizing i with
  | nil => rfl
  | cons x rest ih =>
    cases x with
    | none => rfl
    | some s =>
      by_cases hs : id = s.id
      · simp [Examen.find_space, first_match, Examen.space_get_id, hs]
      · simp [Examen.find_space, first_match, Examen.space_get_id, hs, ih (i + 1)]

/-- A slot of the first `MAX` read from the slots a scan visits. -/
theorem slot_take {α : Type} (xs : List (Option α)) (MAX k : Nat) (a : α) :
    (xs.take MAX)[k]? = some (some a) ↔ k < MAX ∧ slot xs k = some a := by
  rw [List.getElem?_take]
  by_cases hk : k < MAX
  · simp only [hk, if_true, true_and, slot]
    cases xs[k]? with
    | none => simp
    | some x => simp
  · simp [hk]

/-! ## Illumination -/

namespace Examen

/-- The slot `game_get_space` points to holds the first registered space with the id. -/
theorem exam_index_first (MAX_SPACES : Nat) (g : Game) (id : Id) (k : Nat)
    (h : game_get_space_index MAX_SPACES g id = some k) :
    id ≠ NO_ID ∧ k < MAX_SPACES ∧ (∃ s, slot g.spaces k = some s ∧ s.id = id) ∧
      ∀ j, j < k → ∀ t, slot g.spaces j = some t → t.id ≠ id := by
  unfold game_get_space_index at h
  by_cases hid : id = NO_ID
  · simp [hid] at h
  · simp only [hid, if_false, exam_find_space_eq_first_match] at h
    obtain ⟨⟨a, ha, hpa⟩, hall⟩ := (first_match_some_iff _ _ k).mp h
    obtain ⟨hk, hsl⟩ := (slot_take g.spaces MAX_SPACES k a).mp ha
    refine ⟨hid, hk, ⟨a, hsl, (of_decide_eq_true hpa).symm⟩, fun j hj t ht => ?_⟩
    obtain ⟨b, hb, hpb⟩ := hall j hj
    have hb2 := ((slot_take g.spaces MAX_SPACES j b).mp hb).2
    rw [hb2] at ht
    have : b = t := by simpa using ht
    subst this
    intro e
    simp [e] at hpb

/-- Replacing a registered space by one with the same id does not change what the scan of
`game_get_space` finds. -/
theorem exam_find_space_set (id : Id) (l : List (Option Space)) (k i : Nat) (s t : Space)
    (hk : l[k]? = some (some s)) (hid : t.id = s.id) :
    find_space id (l.set k (some t)) i = find_space id l i := by
  induction l generalizing k i with
  | nil => simp at hk
  | cons x rest ih =>
    cases k with
    | zero =>
      simp at hk
      subst hk
      simp [find_space, space_get_id, hid]
    | succ n =>
      simp at hk
      cases x with
      | none => simp [find_space]
      | some u => simp [find_space, ih n (i + 1) hk]

/-- What `game_callback_turnon` and `game_callback_turnoff` write: the flag of the space
`game_get_space` points to. -/
theorem turn_eq (MAX_SPACES : Nat) (g : Game) (k : Nat) (s : Space)
    (hk : game_get_space_index MAX_SPACES g (game_get_player_location g) = some k)
    (hs : slot g.spaces k = some s) :
    game_callback_turnon MAX_SPACES g =
      { g with spaces := g.spaces.set k (some { s with illuminated := BOOL.TRUE }) } ∧
    game_callback_turnoff MAX_SPACES g =
      { g with spaces := g.spaces.set k (some { s with illuminated := BOOL.FALSE }) } := by
  have hid := (exam_index_first MAX_SPACES g _ k hk).1
  unfold game_callback_turnon game_callback_turnoff
  simp [hid, game_get_space, hk, hs, space_set_illuminated, store_space]

/-- Without a registered space for the player's location, `game_callback_turnon` and
`game_callback_turnoff` write nothing. -/
theorem turn_none (MAX_SPACES : Nat) (g : Game)
    (hk : game_get_space_index MAX_SPACES g (game_get_player_location g) = none) :
    game_callback_turnon MAX_SPACES g = g ∧ game_callback_turnoff MAX_SPACES g = g := by
  unfold game_callback_turnon game_callback_turnoff
  by_cases hid : game_get_player_location g = NO_ID
  · simp [hid]
  · simp [hid, hk, store_space]

/-- The pointer and the space `game_get_space` returns for the player's location after the
flag of that space was written. -/
theorem game_get_space_after_turn (MAX_SPACES : Nat) (g : Game) (k : Nat) (s : Space) (b : BOOL)
    (hk : game_get_space_index MAX_SPACES g (game_get_player_location g) = some k)
    (hs : slot g.spaces k = some s) :
    game_get_space_index MAX_SPACES
        { g with spaces := g.spaces.set k (some { s with illuminated := b }) }
        (game_get_player_location g) = some k ∧
      slot (g.spaces.set k (some { s with illuminated := b })) k =
        some { s with illuminated := b } := by
  obtain ⟨hid, hkM, _, _⟩ := exam_index_first MAX_SPACES g _ k hk
  have hk2 : g.spaces[k]? = some (some s) := by
    unfold slot at hs
    cases hx : g.spaces[k]? with
    | none => simp [hx] at hs
    | some x => simp [hx] at hs; rw [hs]
  have hlt : k < g.spaces.length := (List.getElem?_eq_some.mp hk2).1
  have htk : (g.spaces.take MAX_SPACES)[k]? = some (some s) :=
    (slot_take g.spaces MAX_SPACES k s).mpr ⟨hkM, hs⟩
  refine ⟨?_, slot_set_self _ _ _ hlt⟩
  unfold game_get_space_index at hk ⊢
  simp only [hid, if_false, List.set_take] at hk ⊢
  rw [exam_find_space_set _ _ k 0 s { s with illuminated := b } htk rfl]
  exact hk

end Examen

namespace Examen

/-- The description `game_update` leaves for the look command with token "here" right after
the flag of the player's space was set to `b`, for a player location within the range of
`int`. -/
theorem look_after_turn (MAX_SPACES WORD_SIZE : Nat) (g : Game) (k : Nat) (s : Space)
    (b : BOOL)
    (hk : game_get_space_index MAX_SPACES g (game_get_player_location g) = some k)
    (hs : slot g.spaces k = some s) (hW : 24 < WORD_SIZE) (hname : s.name.length < WORD_SIZE)
    (hint : int_of_long (game_get_player_location g) = game_get_player_location g) :
    ∃ r, game_update MAX_SPACES WORD_SIZE
        { g with spaces := g.spaces.set k (some { s with illuminated := b }) } LOOK "here" =
          some (STATUS.OK, r) ∧
      game_get_description r =
        if b = BOOL.TRUE then s.name else "Space is not illuminated" := by
  obtain ⟨hk2, hs2⟩ := game_get_space_after_turn MAX_SPACES g k s b hk hs
  refine ⟨game_callback_look MAX_SPACES WORD_SIZE
    { g with spaces := g.spaces.set k (some { s with illuminated := b }),
             description := "", last_cmd := LOOK } "here", ?_, ?_⟩
  · simp [game_update, LOOK, game_callback_fn_list]
  · unfold game_get_description
    rw [game_callback_look_here MAX_SPACES WORD_SIZE _ "here" (Or.inl rfl)]
    have hsp : game_get_space MAX_SPACES
        { g with spaces := g.spaces.set k (some { s with illuminated := b }),
                 description := "", last_cmd := LOOK }
        (int_of_long (game_get_player_location
          { g with spaces := g.spaces.set k (some { s with illuminated := b }),
                   description := "", last_cmd := LOOK })) =
        some { s with illuminated := b } := by
      have hint1 : int_of_long (game_get_player_location
          { g with spaces := g.spaces.set k (some { s with illuminated := b }),
                   description := "", last_cmd := LOOK }) = game_get_player_location g := hint
      rw [hint1]
      have : game_get_space_index MAX_SPACES
          { g with spaces := g.spaces.set k (some { s with illuminated := b }),
                   description := "", last_cmd := LOOK }
          (game_get_player_location g) = some k := hk2
      unfold game_get_space
      simp only [game_get_player_location] at this ⊢
      rw [this]
      exact hs2
    rw [hsp]
    have h1 := strncpy_of_length_le s.name WORD_SIZE (Nat.le_of_lt hname)
    have h2 := strncpy_of_length_le "Space is not illuminated" WORD_SIZE
      (le_trans (by decide) (Nat.le_of_lt hW))
    simp only [h1, h2]

end Examen

/-- The illumination switch: in Examen, `game_callback_turnon` (resp.
`game_callback_turnoff`) sets to `TRUE` (resp. `FALSE`) the illumination flag of the first
registered space whose id is the player's location (slot `k`) and writes nothing else: the
other slots, the name and the links of that space, the player and object locations are as they
were. A game `e` in which no registered space has the player's location, which is the case
when the location is `NO_ID`, is left unchanged. Turning on (or off) twice is turning on (or
off) once. For a player location within the range of `int`, the look command with token
"here" right after gives the name of the space after turn-on and "Space is not illuminated"
after turn-off. -/
theorem illumination_switch (MAX_SPACES WORD_SIZE : Nat) (g e : Examen.Game) (k : Nat)
    (s : Examen.Space)
    (hk : Examen.game_get_space_index MAX_SPACES g (Examen.game_get_player_location g) = some k)
    (hs : slot g.spaces k = some s)
    (he : Examen.game_get_space_index MAX_SPACES e (Examen.game_get_player_location e) = none)
    (hW : 24 < WORD_SIZE) (hname : s.name.length < WORD_SIZE) :
    (s.id = Examen.game_get_player_location g ∧
      ∀ j, j < k → ∀ t, slot g.spaces j = some t → t.id ≠ Examen.game_get_player_location g) ∧
    Examen.game_callback_turnon MAX_SPACES g =
      { g with spaces := g.spaces.set k (some { s with illuminated := BOOL.TRUE }) } ∧
    Examen.game_callback_turnoff MAX_SPACES g =
      { g with spaces := g.spaces.set k (some { s with illuminated := BOOL.FALSE }) } ∧
    (Examen.game_callback_turnon MAX_SPACES e = e ∧
      Examen.game_callback_turnoff MAX_SPACES e = e) ∧
    (∀ x : Examen.Game, Examen.game_get_player_location x = NO_ID →
      Examen.game_callback_turnon MAX_SPACES x = x ∧
        Examen.game_callback_turnoff MAX_SPACES x = x) ∧
    Examen.game_callback_turnon MAX_SPACES (Examen.game_callback_turnon MAX_SPACES g) =
      Examen.game_callback_turnon MAX_SPACES g ∧
    Examen.game_callback_turnoff MAX_SPACES (Examen.game_callback_turnoff MAX_SPACES g) =
      Examen.game_callback_turnoff MAX_SPACES g ∧
    (Examen.int_of_long (Examen.game_get_player_location g) =
        Examen.game_get_player_location g →
      (∃ r, Examen.game_update MAX_SPACES WORD_SIZE (Examen.game_callback_turnon MAX_SPACES g)
          Examen.LOOK "here" = some (STATUS.OK, r) ∧
        Examen.game_get_description r = s.name) ∧
      (∃ r, Examen.game_update MAX_SPACES WORD_SIZE (Examen.game_callback_turnoff MAX_SPACES g)
          Examen.LOOK "here" = some (STATUS.OK, r) ∧
        Examen.game_get_description r = "Space is not illuminated")) := by
  obtain ⟨_, _, ⟨s', hs', hsid⟩, hfirst⟩ := Examen.exam_index_first MAX_SPACES g _ k hk
  have hss : s' = s := by
    rw [hs] at hs'
    simpa using hs'.symm
  subst hss
  obtain ⟨hon, hoff⟩ := Examen.turn_eq MAX_SPACES g k s' hk hs
  refine ⟨⟨hsid, hfirst⟩, hon, hoff, Examen.turn_none MAX_SPACES e he, ?_, ?_, ?_,
    fun hint => ⟨?_, ?_⟩⟩
  · intro x hx
    apply Examen.turn_none
    simp [Examen.game_get_space_index, hx]
  · obtain ⟨hk2, hs2⟩ := Examen.game_get_space_after_turn MAX_SPACES g k s' BOOL.TRUE hk hs
    rw [hon, (Examen.turn_eq MAX_SPACES _ k _ hk2 hs2).1]
    simp [List.set_set]
  · obtain ⟨hk2, hs2⟩ := Examen.game_get_space_after_turn MAX_SPACES g k s' BOOL.FALSE hk hs
    rw [hoff, (Examen.turn_eq MAX_SPACES _ k _ hk2 hs2).2]
    simp [List.set_set]
  · rw [hon]
    simpa using
      Examen.look_after_turn MAX_SPACES WORD_SIZE g k s' BOOL.TRUE hk hs hW hname hint
  · rw [hoff]
    simpa using
      Examen.look_after_turn MAX_SPACES WORD_SIZE g k s' BOOL.FALSE hk hs hW hname hint

/-- Witness of `illumination_switch`: the two-space game of Examen with the player in space
"A" (slot 0), and the same game with an unlocated player. -/
theorem illumination_switch_witness :
    Examen.game_callback_turnoff 4 movementExam =
      { movementExam with spaces := (movementExam.spaces.set 0
          (some { id := 1, name := "A", north := NO_ID, east := NO_ID, south := 2,
                  west := NO_ID, illuminated := BOOL.FALSE })) } ∧
    Examen.game_callback_turnon 4 unlocatedExam = unlocatedExam ∧
    (∃ r, Examen.game_update 4 30 (Examen.game_callback_turnoff 4 movementExam)
        Examen.LOOK "here" = some (STATUS.OK, r) ∧
      Examen.game_get_description r = "Space is not illuminated") :=
  have h := illumination_switch 4 30 movementExam unlocatedExam 0
    { id := 1, name := "A", north := NO_ID, east := NO_ID, south := 2, west := NO_ID,
      illuminated := BOOL.TRUE }
    (by decide) (by decide) (by decide) (by decide) (by decide)
  ⟨h.2.2.1, h.2.2.2.1.1, (h.2.2.2.2.2.2.2 (by decide)).2⟩

/-! ## Dispatch -/

namespace Examen

/-- The movement loop of Examen writes nothing but the player's location, and never writes
`NO_ID` there. -/
theorem exam_move_loop_frame (link : Option Space → Id) (g : Game) (id : Id)
    (l : List (Option Space)) :
    (move_loop link g id l).spaces = g.spaces ∧
      (move_loop link g id l).object_location = g.object_location ∧
      (move_loop link g id l).last_cmd = g.last_cmd ∧
      (move_loop link g id l).description = g.description ∧
      (g.player_location ≠ NO_ID → (move_loop link g id l).player_location ≠ NO_ID) := by
  induction l with
  | nil => simp [move_loop]
  | cons x rest ih =>
    cases x with
    | none => simp [move_loop]
    | some s =>
      simp only [move_loop]
      split
      · split
        · rename_i hne
          simp [game_set_player_location, hne]
        · simp
      · exact ih

/-- What the handlers of Examen other than look leave untouched: the last command and the
description; none of them writes `NO_ID` as the player's location. -/
theorem exam_handlers_frame (MAX_SPACES : Nat) (g : Game) :
    ((game_callback_next MAX_SPACES g).last_cmd = g.last_cmd ∧
      (game_callback_next MAX_SPACES g).description = g.description ∧
      (g.player_location ≠ NO_ID → (game_callback_next MAX_SPACES g).player_location ≠ NO_ID)) ∧
    ((game_callback_back MAX_SPACES g).last_cmd = g.last_cmd ∧
      (game_callback_back MAX_SPACES g).description = g.description ∧
      (g.player_location ≠ NO_ID → (game_callback_back MAX_SPACES g).player_location ≠ NO_ID)) ∧
    ((game_callback_turnon MAX_SPACES g).last_cmd = g.last_cmd ∧
      (game_callback_turnon MAX_SPACES g).description = g.description ∧
      (game_callback_turnon MAX_SPACES g).player_location = g.player_location) ∧
    ((game_callback_turnoff MAX_SPACES g).last_cmd = g.last_cmd ∧
      (game_callback_turnoff MAX_SPACES g).description = g.description ∧
      (game_callback_turnoff MAX_SPACES g).player_location = g.player_location) := by
  refine ⟨?_, ?_, ?_, ?_⟩
  · unfold game_callback_next
    dsimp only
    split_ifs
    · exact ⟨rfl, rfl, fun h => h⟩
    · have h := exam_move_loop_frame space_get_south g (game_get_player_location g)
        (g.spaces.take MAX_SPACES)
      exact ⟨h.2.2.1, h.2.2.2.1, h.2.2.2.2⟩
  · unfold game_callback_back
    dsimp only
    split_ifs
    · exact ⟨rfl, rfl, fun h => h⟩
    · have h := exam_move_loop_frame space_get_north g (game_get_player_location g)
        (g.spaces.take MAX_SPACES)
      exact ⟨h.2.2.1, h.2.2.2.1, h.2.2.2.2⟩
  · unfold game_callback_turnon store_space
    dsimp only
    split_ifs
    · exact ⟨rfl, rfl, rfl⟩
    · split <;> exact ⟨rfl, rfl, rfl⟩
  · unfold game_callback_turnoff store_space
    dsimp only
    split_ifs
    · exact ⟨rfl, rfl, rfl⟩
    · split <;> exact ⟨rfl, rfl, rfl⟩

/-- A block of `game_callback_look` writes nothing but the description. -/
theorem look_block_frame (WORD_SIZE : Nat) (g : Game) (input long short : String)
    (sp : Option Space) :
    (look_block WORD_SIZE g input long short sp).1.last_cmd = g.last_cmd ∧
      (look_block WORD_SIZE g input long short sp).1.player_location = g.player_location ∧
      (look_block WORD_SIZE g input long short sp).1.spaces = g.spaces := by
  unfold look_block
  split_ifs <;> first
    | exact ⟨rfl, rfl, rfl⟩
    | (cases sp <;> simp [game_set_description, space_get_name])

/-- The handler `game_callback_look` writes nothing but the description. -/
theorem look_frame (MAX_SPACES WORD_SIZE : Nat) (g : Game) (input : String) :
    (game_callback_look MAX_SPACES WORD_SIZE g input).last_cmd = g.last_cmd ∧
      (game_callback_look MAX_SPACES WORD_SIZE g input).player_location = g.player_location ∧
      (game_callback_look MAX_SPACES WORD_SIZE g input).spaces = g.spaces := by
  unfold game_callback_look
  dsimp only
  split_ifs
  · exact ⟨rfl, rfl, rfl⟩
  · exact look_block_frame _ _ _ _ _ _
  · have h1 := look_block_frame WORD_SIZE g input "back" "b" (game_get_space MAX_SPACES g
      (space_get_north (game_get_space MAX_SPACES g (int_of_long (game_get_player_location g)))))
    have h2 := look_block_frame WORD_SIZE
      (look_block WORD_SIZE g input "back" "b" (game_get_space MAX_SPACES g
        (space_get_north (game_get_space MAX_SPACES g (int_of_long (game_get_player_location g)))))).1
      input "here" "h" (game_get_space MAX_SPACES g (int_of_long (game_get_player_location g)))
    exact ⟨h2.1.trans h1.1, h2.2.1.trans h1.2.1, h2.2.2.trans h1.2.2⟩
  · have h1 := look_block_frame WORD_SIZE g input "back" "b" (game_get_space MAX_SPACES g
      (space_get_north (game_get_space MAX_SPACES g (int_of_long (game_get_player_location g)))))
    have h2 := look_block_frame WORD_SIZE
      (look_block WORD_SIZE g input "back" "b" (game_get_space MAX_SPACES g
        (space_get_north (game_get_space MAX_SPACES g (int_of_long (game_get_player_location g)))))).1
      input "here" "h" (game_get_space MAX_SPACES g (int_of_long (game_get_player_location g)))
    have h3 := look_block_frame WORD_SIZE
      (look_block WORD_SIZE
        (look_block WORD_SIZE g input "back" "b" (game_get_space MAX_SPACES g
          (space_get_north (game_get_space MAX_SPACES g (int_of_long (game_get_player_location g)))))).1
        input "here" "h" (game_get_space MAX_SPACES g (int_of_long (game_get_player_location g)))).1
      input "next" "n" (game_get_space MAX_SPACES g
        (space_get_south (game_get_space MAX_SPACES g (int_of_long (game_get_player_location g)))))
    exact ⟨h3.1.trans (h2.1.trans h1.1), h3.2.1.trans (h2.2.1.trans h1.2.1),
      h3.2.2.trans (h2.2.2.trans h1.2.2)⟩

end Examen

namespace Entrega2

/-- Writing through a space pointer leaves the last command as it was. -/
theorem store_space_last_cmd (g : Game) (ptr : Option Nat) (sp : Option Space) :
    (store_space g ptr sp).last_cmd = g.last_cmd := by
  cases ptr <;> rfl

/-- The movement loop of Entrega 2 leaves the last command as it was. -/
theorem move_loop_last_cmd (link : Option Space → Id) (g : Game) (id : Id)
    (l : List (Option Space)) : (move_loop link g id l).last_cmd = g.last_cmd := by
  induction l with
  | nil => rfl
  | cons x rest ih =>
    cases x with
    | none => rfl
    | some s =>
      simp only [move_loop]
      split
      · split <;> rfl
      · exact ih

/-- No handler of Entrega 2 writes the last command. -/
theorem handlers_last_cmd (MAX_SPACES MAX_OBJECTS MAX_ID : Nat) (g : Game) (inp : Input) :
    (game_callback_next MAX_SPACES g).last_cmd = g.last_cmd ∧
    (game_callback_back MAX_SPACES g).last_cmd = g.last_cmd ∧
    (game_callback_take MAX_SPACES MAX_OBJECTS MAX_ID g inp.token).last_cmd = g.last_cmd ∧
    (game_callback_drop MAX_SPACES MAX_ID g).last_cmd = g.last_cmd ∧
    (game_callback_roll g inp.rnd).last_cmd = g.last_cmd ∧
    (game_callback_left MAX_SPACES g).last_cmd = g.last_cmd ∧
    (game_callback_right MAX_SPACES g).last_cmd = g.last_cmd := by
  refine ⟨?_, ?_, ?_, ?_, ?_, ?_, ?_⟩
  · unfold game_callback_next
    dsimp only
    split_ifs <;> first | rfl | exact move_loop_last_cmd _ _ _ _
  · unfold game_callback_back
    dsimp only
    split_ifs <;> first | rfl | exact move_loop_last_cmd _ _ _ _
  · unfold game_callback_take
    dsimp only
    split_ifs <;> first | rfl | exact store_space_last_cmd _ _ _
  · unfold game_callback_drop
    dsimp only
    split_ifs <;> first | rfl | exact store_space_last_cmd _ _ _
  · unfold game_callback_roll
    dsimp only
    split_ifs <;> rfl
  · unfold game_callback_left
    dsimp only
    split_ifs <;> first | rfl | exact move_loop_last_cmd _ _ _ _
  · unfold game_callback_right
    dsimp only
    split_ifs <;> first | rfl | exact move_loop_last_cmd _ _ _ _

end Entrega2

/-- C13. In Examen, for every game and every command value within the callback table,
`game_update` returns `OK`, the handler run is the table entry of the command (on the game with
the description cleared and the command recorded), `game_get_last_command` afterwards returns
the command, and for every command other than look the description afterwards is empty
whatever it was. In Entrega 2 `game_update` likewise returns `OK` and records the command. -/
theorem update_dispatch (MAX_SPACES WORD_SIZE MAX_OBJECTS MAX_ID : Nat) (g : Examen.Game)
    (input : String) (cmd : T_Command) (h : Entrega2.Game) (inp : Entrega2.Input)
    (ecmd : T_Command) (hcmd : 0 ≤ cmd ∧ cmd < Examen.N_CALLBACK)
    (hecmd : 0 ≤ ecmd ∧ ecmd < Entrega2.N_CALLBACK) :
    (∃ f, (Examen.game_callback_fn_list MAX_SPACES WORD_SIZE)[cmd.toNat]? = some f ∧
      Examen.game_update MAX_SPACES WORD_SIZE g cmd input =
        some (STATUS.OK, f { g with description := "", last_cmd := cmd } input) ∧
      Examen.game_get_last_command (f { g with description := "", last_cmd := cmd } input) =
        cmd ∧
      (cmd ≠ Examen.LOOK →
        Examen.game_get_description (f { g with description := "", last_cmd := cmd } input) =
          "")) ∧
    ∃ r, Entrega2.game_update MAX_SPACES MAX_OBJECTS MAX_ID h ecmd inp = some (STATUS.OK, r) ∧
      Entrega2.game_get_last_command r = ecmd := by
  obtain ⟨h0, h7⟩ := hcmd
  obtain ⟨e0, e9⟩ := hecmd
  simp only [Examen.N_CALLBACK, Nat.cast_ofNat] at h7
  simp only [Entrega2.N_CALLBACK, Nat.cast_ofNat] at e9
  have hex := Examen.exam_handlers_frame MAX_SPACES { g with description := "", last_cmd := cmd }
  have hlk := Examen.look_frame MAX_SPACES WORD_SIZE
    { g with description := "", last_cmd := cmd } input
  have hen := Entrega2.handlers_last_cmd MAX_SPACES MAX_OBJECTS MAX_ID
    { h with last_cmd := ecmd } inp
  constructor
  · interval_cases cmd
    · exact ⟨_, rfl, rfl, rfl, fun _ => rfl⟩
    · exact ⟨_, rfl, rfl, rfl, fun _ => rfl⟩
    · exact ⟨_, rfl, rfl, hex.1.1, fun _ => hex.1.2.1⟩
    · exact ⟨_, rfl, rfl, hex.2.1.1, fun _ => hex.2.1.2.1⟩
    · exact ⟨_, rfl, rfl, hex.2.2.1.1, fun _ => hex.2.2.1.2.1⟩
    · exact ⟨_, rfl, rfl, hex.2.2.2.1, fun _ => hex.2.2.2.2.1⟩
    · exact ⟨_, rfl, rfl, hlk.1, fun hne => absurd rfl hne⟩
  · interval_cases ecmd
    · exact ⟨_, rfl, rfl⟩
    · exact ⟨_, rfl, rfl⟩
    · exact ⟨_, rfl, hen.1⟩
    · exact ⟨_, rfl, hen.2.1⟩
    · exact ⟨_, rfl, hen.2.2.1⟩
    · exact ⟨_, rfl, hen.2.2.2.1⟩
    · exact ⟨_, rfl, hen.2.2.2.2.1⟩
    · exact ⟨_, rfl, hen.2.2.2.2.2.1⟩
    · exact ⟨_, rfl, hen.2.2.2.2.2.2⟩

/-- Witness of C13: the back command in the two-space game of Examen, whose description is
"old", and the drop command in the two-space game of Entrega 2. -/
theorem update_dispatch_witness :
    (∃ f, (Examen.game_callback_fn_list 4 30)[(Examen.BACK).toNat]? = some f ∧
      Examen.game_update 4 30 { movementExam with description := "old" } Examen.BACK "" =
        some (STATUS.OK,
          f { { movementExam with description := "old" } with
              description := "", last_cmd := Examen.BACK } "") ∧
      Examen.game_get_last_command
          (f { { movementExam with description := "old" } with
               description := "", last_cmd := Examen.BACK } "") = Examen.BACK ∧
      (Examen.BACK ≠ Examen.LOOK →
        Examen.game_get_description
          (f { { movementExam with description := "old" } with
               description := "", last_cmd := Examen.BACK } "") = "")) ∧
    ∃ r, Entrega2.game_update 4 4 4 carryingGame Entrega2.DROP ⟨"", 0⟩ = some (STATUS.OK, r) ∧
      Entrega2.game_get_last_command r = Entrega2.DROP :=
  update_dispatch 4 30 4 4 { movementExam with description := "old" } "" Examen.BACK
    carryingGame ⟨"", 0⟩ Entrega2.DROP (by decide) (by decide)

/-- C19. In Examen, `game_set_player_location` with `NO_ID` returns `ERROR` and leaves the
game as it was, and for every game whose player location is not `NO_ID` and every command
value within the callback table the player location after `game_update` is not `NO_ID`
either. It can be an id that no registered space has: in the game `movementExam` with the
south link of its first space set to 9, the next command moves the player to 9. -/
theorem player_location_stays_set (MAX_SPACES WORD_SIZE : Nat) (g : Examen.Game)
    (cmd : T_Command) (input : String)
    (hloc : Examen.game_get_player_location g ≠ NO_ID)
    (hcmd : 0 ≤ cmd ∧ cmd < Examen.N_CALLBACK) :
    Examen.game_set_player_location g NO_ID = (STATUS.ERROR, g) ∧
    (∃ r, Examen.game_update MAX_SPACES WORD_SIZE g cmd input = some (STATUS.OK, r) ∧
      Examen.game_get_player_location r ≠ NO_ID) ∧
    (∃ r,
      Examen.game_update 4 30
          { movementExam with spaces := (movementExam.spaces.set 0
              (some { id := 1, name := "A", north := NO_ID, east := NO_ID, south := 9,
                      west := NO_ID, illuminated := BOOL.TRUE })) }
          Examen.NEXT "" = some (STATUS.OK, r) ∧
        Examen.game_get_player_location r = 9 ∧ Examen.game_get_space 4 r 9 = none) := by
  obtain ⟨h0, h7⟩ := hcmd
  simp only [Examen.N_CALLBACK, Nat.cast_ofNat] at h7
  have hloc1 : ({ g with description := "", last_cmd := cmd } : Examen.Game).player_location ≠
      NO_ID := hloc
  have hex := Examen.exam_handlers_frame MAX_SPACES { g with description := "", last_cmd := cmd }
  have hlk := Examen.look_frame MAX_SPACES WORD_SIZE
    { g with description := "", last_cmd := cmd } input
  refine ⟨by simp [Examen.game_set_player_location], ?_, ⟨_, rfl, by decide, by decide⟩⟩
  unfold Examen.game_get_player_location
  interval_cases cmd
  · exact ⟨_, rfl, hloc⟩
  · exact ⟨_, rfl, hloc⟩
  · exact ⟨_, rfl, hex.1.2.2 hloc1⟩
  · exact ⟨_, rfl, hex.2.1.2.2 hloc1⟩
  · exact ⟨_, rfl, fun e => hloc1 (hex.2.2.1.2.2.symm.trans e)⟩
  · exact ⟨_, rfl, fun e => hloc1 (hex.2.2.2.2.2.symm.trans e)⟩
  · exact ⟨_, rfl, fun e => hloc1 (hlk.2.1.symm.trans e)⟩

/-- Witness of C19: the next command in the two-space game of Examen, the player in space
1. -/
theorem player_location_stays_set_witness :
    ∃ r, Examen.game_update 4 30 movementExam Examen.NEXT "" = some (STATUS.OK, r) ∧
      Examen.game_get_player_location r ≠ NO_ID :=
  (player_location_stays_set 4 30 movementExam Examen.NEXT "" (by decide) (by decide)).2.1

/-- C20. In Entrega 2, `game_update` with the unknown or the exit command returns the game
with only `last_cmd` written: the player, every space, every object, the die and the last
status are what they were, so `game_get_status` still reports the status of the command
before. -/
theorem unknown_exit_frame (MAX_SPACES MAX_OBJECTS MAX_ID : Nat) (g : Entrega2.Game)
    (inp : Entrega2.Input) :
    Entrega2.game_update MAX_SPACES MAX_OBJECTS MAX_ID g Entrega2.UNKNOWN inp =
      some (STATUS.OK, { g with last_cmd := Entrega2.UNKNOWN }) ∧
    Entrega2.game_update MAX_SPACES MAX_OBJECTS MAX_ID g Entrega2.EXIT inp =
      some (STATUS.OK, { g with last_cmd := Entrega2.EXIT }) ∧
    Entrega2.game_get_status ({ g with last_cmd := Entrega2.UNKNOWN } : Entrega2.Game) =
      Entrega2.game_get_status g ∧
    Entrega2.game_get_status ({ g with last_cmd := Entrega2.EXIT } : Entrega2.Game) =
      Entrega2.game_get_status g :=
  ⟨rfl, rfl, rfl, rfl⟩

/-! ## The scenario of the spec -/

/-- C17. In Examen, in a game whose first two registered spaces are A (id 1, south link 2,
illuminated) and B (id 2, north link 1, south link `NO_ID`, not illuminated), with the player
in A, `game_update` with next, next, look "back", back in that order leaves the player in 2,
2, 2 and 1, and the description after the look is the name of A. -/
theorem scenario_next_next_look_back (MAX_SPACES WORD_SIZE : Nat) (g : Examen.Game)
    (A B : Examen.Space) (rest : List (Option Examen.Space))
    (hM : 2 ≤ MAX_SPACES) (hW : A.name.length < WORD_SIZE)
    (hg : g.spaces = some A :: some B :: rest) (hp : g.player_location = 1)
    (hA : A.id = 1 ∧ A.south = 2 ∧ A.illuminated = BOOL.TRUE)
    (hB : B.id = 2 ∧ B.north = 1 ∧ B.south = NO_ID ∧ B.illuminated = BOOL.FALSE) :
    ∃ g1 g2 g3 g4,
      Examen.game_update MAX_SPACES WORD_SIZE g Examen.NEXT "" = some (STATUS.OK, g1) ∧
      Examen.game_get_player_location g1 = 2 ∧
      Examen.game_update MAX_SPACES WORD_SIZE g1 Examen.NEXT "" = some (STATUS.OK, g2) ∧
      Examen.game_get_player_location g2 = 2 ∧
      Examen.game_update MAX_SPACES WORD_SIZE g2 Examen.LOOK "back" = some (STATUS.OK, g3) ∧
      Examen.game_get_player_location g3 = 2 ∧
      Examen.game_get_description g3 = A.name ∧
      Examen.game_update MAX_SPACES WORD_SIZE g3 Examen.BACK "" = some (STATUS.OK, g4) ∧
      Examen.game_get_player_location g4 = 1 := by
  obtain ⟨m, rfl⟩ : ∃ m, MAX_SPACES = m + 2 := ⟨MAX_SPACES - 2, by omega⟩
  obtain ⟨hA1, hA2, hA3⟩ := hA
  obtain ⟨hB1, hB2, hB3, hB4⟩ := hB
  have hcopy := Examen.strncpy_of_length_le A.name WORD_SIZE (Nat.le_of_lt hW)
  have n1 : ¬ ((1 : Id) = NO_ID) := by decide
  have n2 : ¬ ((2 : Id) = NO_ID) := by decide
  have n12 : ¬ ((1 : Id) = 2) := by decide
  have n21 : ¬ ((2 : Id) = 1) := by decide
  have hint2 : Examen.int_of_long 2 = 2 := by decide
  refine ⟨{ g with description := "", last_cmd := Examen.NEXT, player_location := 2 },
    { g with description := "", last_cmd := Examen.NEXT, player_location := 2 },
    { g with description := A.name, last_cmd := Examen.LOOK, player_location := 2 },
    { g with description := "", last_cmd := Examen.BACK, player_location := 1 },
    ?_, rfl, ?_, rfl, ?_, rfl, rfl, ?_, rfl⟩
  · simp [Examen.game_update, Examen.game_callback_fn_list, Examen.NEXT,
      Examen.game_callback_next, Examen.game_get_player_location, Examen.move_loop,
      Examen.space_get_id, Examen.space_get_south, Examen.game_set_player_location,
      hg, hp, hA1, hA2, n1, n2]
  · simp [Examen.game_update, Examen.game_callback_fn_list, Examen.NEXT,
      Examen.game_callback_next, Examen.game_get_player_location, Examen.move_loop,
      Examen.space_get_id, Examen.space_get_south, hg, hA1, hB1, hB3, n2, n12]
  · simp [Examen.game_update, Examen.game_callback_fn_list, Examen.LOOK,
      Examen.game_callback_look, Examen.look_block, Examen.game_get_player_location,
      Examen.game_get_space, Examen.game_get_space_index, Examen.find_space,
      Examen.space_get_id, Examen.space_get_north, Examen.space_get_south,
      Examen.space_get_illuminated, Examen.space_get_name, Examen.game_set_description,
      slot, hg, hA1, hA3, hB1, hB2, hB3, n1, n2, n21, hcopy, hint2]
  · simp [Examen.game_update, Examen.game_callback_fn_list, Examen.BACK,
      Examen.game_callback_back, Examen.game_get_player_location, Examen.move_loop,
      Examen.space_get_id, Examen.space_get_north, Examen.game_set_player_location,
      hg, hA1, hB1, hB2, n1, n2, n12, Ne.symm n2]

/-- Witness of C17: the two-space game `movementExam`, whose space A is named "A". -/
theorem scenario_next_next_look_back_witness :
    ∃ g1 g2 g3 g4,
      Examen.game_update 4 30 movementExam Examen.NEXT "" = some (STATUS.OK, g1) ∧
      Examen.game_get_player_location g1 = 2 ∧
      Examen.game_update 4 30 g1 Examen.NEXT "" = some (STATUS.OK, g2) ∧
      Examen.game_get_player_location g2 = 2 ∧
      Examen.game_update 4 30 g2 Examen.LOOK "back" = some (STATUS.OK, g3) ∧
      Examen.game_get_player_location g3 = 2 ∧
      Examen.game_get_description g3 = "A" ∧
      Examen.game_update 4 30 g3 Examen.BACK "" = some (STATUS.OK, g4) ∧
      Examen.game_get_player_location g4 = 1 :=
  scenario_next_next_look_back 4 30 movementExam
    { id := 1, name := "A", north := NO_ID, east := NO_ID, south := 2, west := NO_ID,
      illuminated := BOOL.TRUE }
    { id := 2, name := "B", north := 1, east := NO_ID, south := NO_ID, west := NO_ID,
      illuminated := BOOL.FALSE }
    [none] (by decide) (by decide) rfl rfl (by decide) (by decide)

/-! ## Failure of take after the object was given to the player -/

/-- C18 (evaluation at the failing inputs). In the game whose unlocated player carries nothing
and whose "key" (id 8) lies in no space, and in the game where two registered spaces share the
id 1 and the "key" lies in the second, `game_callback_take` of "key" ends with status `ERROR`
and the player carries 8 afterwards; in the second game the key is still in its space. -/
theorem take_error_keeps_object_in_hand :
    Entrega2.player_get_object unlocatedGame.player = NO_ID ∧
    (Entrega2.game_callback_take 4 4 4 unlocatedGame "key").status = STATUS.ERROR ∧
    Entrega2.player_get_object (Entrega2.game_callback_take 4 4 4 unlocatedGame "key").player =
      8 ∧
    Entrega2.player_get_object shadowedGame.player = NO_ID ∧
    (Entrega2.game_callback_take 4 4 4 shadowedGame "key").status = STATUS.ERROR ∧
    Entrega2.player_get_object (Entrega2.game_callback_take 4 4 4 shadowedGame "key").player =
      8 ∧
    (Entrega2.game_callback_take 4 4 4 shadowedGame "key").spaces = shadowedGame.spaces := by
  decide

/-- The handler `game_callback_drop` is atomic on failure: when it ends with status `ERROR`
nothing but the status was written. -/
theorem drop_error_writes_nothing (MAX_SPACES MAX_ID : Nat) (g : Entrega2.Game)
    (h : (Entrega2.game_callback_drop MAX_SPACES MAX_ID g).status = STATUS.ERROR) :
    Entrega2.game_callback_drop MAX_SPACES MAX_ID g = { g with status := STATUS.ERROR } := by
  rcases Entrega2.drop_cases MAX_SPACES MAX_ID g with h1 | ⟨p, k, s, hp, hcar, hidx, _, hk, hroom⟩
  · exact h1
  · rw [Entrega2.drop_some MAX_SPACES MAX_ID g p k s hp hcar hidx hk hroom] at h
    cases h

/-! ## Adding to a registry -/

/-- Starting the loop of `game_add_space` one index later shifts the index it stops at. -/
theorem first_free_shift {α : Type} (l : List (Option α)) (i : Nat) :
    first_free l (i + 1) = first_free l i + 1 := by
  induction l generalizing i with
  | nil => rfl
  | cons x rest ih =>
    cases x with
    | none => rfl
    | some a => simp [first_free, ih (i + 1)]

/-- Where the loop of `game_add_space` stops: at most at `MAX`, after non-empty slots only,
and on an empty slot when before `MAX`. -/
theorem first_free_spec {α : Type} (xs : List (Option α)) (MAX : Nat) :
    first_free (xs.take MAX) 0 ≤ MAX ∧
      (∀ j, j < first_free (xs.take MAX) 0 → slot xs j ≠ none) ∧
      (first_free (xs.take MAX) 0 < MAX → slot xs (first_free (xs.take MAX) 0) = none) := by
  induction xs generalizing MAX with
  | nil => simp [first_free, slot]
  | cons x rest ih =>
    cases MAX with
    | zero => simp [first_free]
    | succ m =>
      cases x with
      | none => simp [first_free, slot]
      | some a =>
        obtain ⟨h1, h2, h3⟩ := ih m
        simp only [List.take_succ_cons, first_free, first_free_shift, zero_add]
        refine ⟨by omega, fun j hj => ?_, fun hlt => ?_⟩
        · cases j with
          | zero => simp [slot]
          | succ n =>
            rw [slot_cons_succ]
            exact h2 n (by omega)
        · rw [slot_cons_succ]
          exact h3 (by omega)

/-- Reading a registry after one slot was written. -/
theorem slot_write_slot {α : Type} (xs : List (Option α)) (i j : Nat) (x : Option α) :
    slot (write_slot xs i x) j = if j = i then x else slot xs j := by
  induction xs generalizing i j with
  | nil =>
    simp only [write_slot, List.length_nil, Nat.not_lt_zero, if_false, Nat.sub_zero,
      List.nil_append]
    induction i generalizing j with
    | zero =>
      cases j with
      | zero => simp [slot]
      | succ n => simp [slot]
    | succ m ih =>
      cases j with
      | zero => simp [slot, List.replicate_succ]
      | succ n =>
        simp only [List.replicate_succ, List.cons_append, slot_cons_succ, ih n]
        simp [slot]
  | cons y ys ih =>
    cases i with
    | zero =>
      cases j with
      | zero => simp [write_slot, slot]
      | succ n => simp [write_slot, slot]
    | succ m =>
      have hw : write_slot (y :: ys) (m + 1) x = y :: write_slot ys m x := by
        unfold write_slot
        by_cases hm : m < ys.length
        · simp [hm]
        · simp [hm]
      rw [hw]
      cases j with
      | zero => simp [slot]
      | succ n =>
        rw [slot_cons_succ, slot_cons_succ, ih m n]
        simp

/-- The loop of `game_add_space` runs to `MAX` exactly when the first `MAX` slots are all
non-empty. -/
theorem first_free_full_iff {α : Type} (xs : List (Option α)) (MAX : Nat) :
    MAX ≤ first_free (xs.take MAX) 0 ↔ ∀ i, i < MAX → slot xs i ≠ none := by
  obtain ⟨h1, h2, h3⟩ := first_free_spec xs MAX
  constructor
  · intro h i hi
    exact h2 i (by omega)
  · intro h
    by_contra hlt
    exact h _ (by omega) (h3 (by omega))

/-- What adding to a registry with room writes: the first empty slot, and no other. -/
theorem registry_add_room {α : Type} (xs : List (Option α)) (MAX : Nat) (a : α)
    (hroom : ¬ ∀ i, i < MAX → slot xs i ≠ none) :
    first_free (xs.take MAX) 0 < MAX ∧
      slot xs (first_free (xs.take MAX) 0) = none ∧
      (∀ j, j < first_free (xs.take MAX) 0 → slot xs j ≠ none) ∧
      slot (write_slot xs (first_free (xs.take MAX) 0) (some a))
        (first_free (xs.take MAX) 0) = some a ∧
      ∀ j, j ≠ first_free (xs.take MAX) 0 →
        slot (write_slot xs (first_free (xs.take MAX) 0) (some a)) j = slot xs j := by
  obtain ⟨h1, h2, h3⟩ := first_free_spec xs MAX
  have hlt : first_free (xs.take MAX) 0 < MAX := by
    by_contra hge
    exact hroom ((first_free_full_iff xs MAX).mp (by omega))
  refine ⟨hlt, h3 hlt, h2, ?_, fun j hj => ?_⟩
  · rw [slot_write_slot]
    simp
  · rw [slot_write_slot]
    simp [hj]

/-- C14. For `game_add_space` of Entrega 2 and of Examen and for `game_set_object` of Entrega
2, in every game: with a `NULL` argument the call returns `ERROR` and the game is as it was,
whether the registry is full or not; with an argument, when the registry already holds `MAX`
entries (each of its first `MAX` slots is non-empty) the call returns `ERROR` and the game is
as it was; otherwise it returns `OK`, the argument is stored in the first empty slot `i` (every
slot before it is non-empty), every other slot reads as before, and no other field of the game
is written. Each registry is taken by itself: nothing is asked of the other one. -/
theorem add_to_registry (MAX_SPACES MAX_OBJECTS : Nat) (g : Entrega2.Game)
    (e : Examen.Game) (s : Entrega2.Space) (o : Entrega2.Object) (t : Examen.Space) :
    (Entrega2.game_add_space MAX_SPACES g none = (STATUS.ERROR, g) ∧
      Entrega2.game_set_object MAX_OBJECTS g none = (STATUS.ERROR, g) ∧
      Examen.game_add_space MAX_SPACES e none = (STATUS.ERROR, e)) ∧
    ((∀ i, i < MAX_SPACES → slot g.spaces i ≠ none) →
      Entrega2.game_add_space MAX_SPACES g (some s) = (STATUS.ERROR, g)) ∧
    ((∀ i, i < MAX_OBJECTS → slot g.objects i ≠ none) →
      Entrega2.game_set_object MAX_OBJECTS g (some o) = (STATUS.ERROR, g)) ∧
    ((∀ i, i < MAX_SPACES → slot e.spaces i ≠ none) →
      Examen.game_add_space MAX_SPACES e (some t) = (STATUS.ERROR, e)) ∧
    ((¬ ∀ i, i < MAX_SPACES → slot g.spaces i ≠ none) →
      ∃ i, i < MAX_SPACES ∧ slot g.spaces i = none ∧ (∀ j, j < i → slot g.spaces j ≠ none) ∧
        Entrega2.game_add_space MAX_SPACES g (some s) =
          (STATUS.OK, { g with spaces := write_slot g.spaces i (some s) }) ∧
        slot (write_slot g.spaces i (some s)) i = some s ∧
        ∀ j, j ≠ i → slot (write_slot g.spaces i (some s)) j = slot g.spaces j) ∧
    ((¬ ∀ i, i < MAX_OBJECTS → slot g.objects i ≠ none) →
      ∃ i, i < MAX_OBJECTS ∧ slot g.objects i = none ∧
        (∀ j, j < i → slot g.objects j ≠ none) ∧
        Entrega2.game_set_object MAX_OBJECTS g (some o) =
          (STATUS.OK, { g with objects := write_slot g.objects i (some o) }) ∧
        slot (write_slot g.objects i (some o)) i = some o ∧
        ∀ j, j ≠ i → slot (write_slot g.objects i (some o)) j = slot g.objects j) ∧
    ((¬ ∀ i, i < MAX_SPACES → slot e.spaces i ≠ none) →
      ∃ i, i < MAX_SPACES ∧ slot e.spaces i = none ∧ (∀ j, j < i → slot e.spaces j ≠ none) ∧
        Examen.game_add_space MAX_SPACES e (some t) =
          (STATUS.OK, { e with spaces := write_slot e.spaces i (some t) }) ∧
        slot (write_slot e.spaces i (some t)) i = some t ∧
        ∀ j, j ≠ i → slot (write_slot e.spaces i (some t)) j = slot e.spaces j) := by
  refine ⟨⟨rfl, rfl, rfl⟩, fun hfs => ?_, fun hfo => ?_, fun hfe => ?_, fun hrs => ?_,
    fun hro => ?_, fun hre => ?_⟩
  · simp [Entrega2.game_add_space, (first_free_full_iff g.spaces MAX_SPACES).mpr hfs]
  · simp [Entrega2.game_set_object, (first_free_full_iff g.objects MAX_OBJECTS).mpr hfo]
  · simp [Examen.game_add_space, (first_free_full_iff e.spaces MAX_SPACES).mpr hfe]
  · obtain ⟨h1, h2, h3, h4, h5⟩ := registry_add_room g.spaces MAX_SPACES s hrs
    exact ⟨_, h1, h2, h3, by simp [Entrega2.game_add_space, Nat.not_le.mpr h1], h4, h5⟩
  · obtain ⟨h1, h2, h3, h4, h5⟩ := registry_add_room g.objects MAX_OBJECTS o hro
    exact ⟨_, h1, h2, h3, by simp [Entrega2.game_set_object, Nat.not_le.mpr h1], h4, h5⟩
  · obtain ⟨h1, h2, h3, h4, h5⟩ := registry_add_room e.spaces MAX_SPACES t hre
    exact ⟨_, h1, h2, h3, by simp [Examen.game_add_space, Nat.not_le.mpr h1], h4, h5⟩

/-- Witness of C14, with registries of two slots: in the game `stockedGame` of Entrega 2 the
space registry has room and the object registry too, in `carryingGame` both are full, and a
`NULL` argument is refused in the full game as well; the fresh game of Examen has room, the
two-space game is full. -/
theorem add_to_registry_witness :
    (Entrega2.game_add_space 2 carryingGame none = (STATUS.ERROR, carryingGame) ∧
      Entrega2.game_set_object 2 carryingGame none = (STATUS.ERROR, carryingGame) ∧
      Examen.game_add_space 2 movementExam none = (STATUS.ERROR, movementExam)) ∧
    Entrega2.game_add_space 2 carryingGame
        (some { id := 3, name := "C", north := NO_ID, east := NO_ID, south := NO_ID,
                west := NO_ID, objects := [] }) = (STATUS.ERROR, carryingGame) ∧
    Entrega2.game_set_object 2 carryingGame (some { id := 9, name := "coin" }) =
      (STATUS.ERROR, carryingGame) ∧
    Examen.game_add_space 2 movementExam
        (some { id := 3, name := "C", north := NO_ID, east := NO_ID, south := NO_ID,
                west := NO_ID, illuminated := BOOL.TRUE }) = (STATUS.ERROR, movementExam) ∧
    Entrega2.game_set_object 2 stockedGame (some { id := 9, name := "coin" }) =
      (STATUS.OK, { stockedGame with
        objects := [some { id := 8, name := "key" }, some { id := 9, name := "coin" }, none] }) ∧
    Examen.game_add_space 2 freshExam
        (some { id := 3, name := "C", north := NO_ID, east := NO_ID, south := NO_ID,
                west := NO_ID, illuminated := BOOL.TRUE }) =
      (STATUS.OK, { freshExam with spaces :=
        [some { id := 3, name := "C", north := NO_ID, east := NO_ID, south := NO_ID,
                west := NO_ID, illuminated := BOOL.TRUE }, none, none] }) :=
  have h := add_to_registry 2 2 carryingGame movementExam
    { id := 3, name := "C", north := NO_ID, east := NO_ID, south := NO_ID, west := NO_ID,
      objects := [] }
    { id := 9, name := "coin" }
    { id := 3, name := "C", north := NO_ID, east := NO_ID, south := NO_ID, west := NO_ID,
      illuminated := BOOL.TRUE }
  ⟨h.1, h.2.1 (by decide), h.2.2.1 (by decide), h.2.2.2.1 (by decide), by decide, by decide⟩

/-! ## Lookup by id in a left-packed registry -/

/-- In a left-packed registry a non-empty slot among the first `MAX` is preceded by non-empty
slots only. -/
theorem left_packed_before {α : Type} (MAX : Nat) (xs : List (Option α))
    (hp : left_packed MAX xs) (k j : Nat) (hk : k < MAX) (hne : slot xs k ≠ none)
    (hj : j < k) : slot xs j ≠ none := by
  obtain ⟨K, _, hfull, hempty⟩ := hp
  have hkK : k < K := by
    by_contra hge
    exact hne (hempty k (by omega) hk)
  exact hfull j (by omega)

/-- The scan to the first match over the first `MAX` slots of a left-packed registry finds the
smallest index among all of them that holds a match, and nothing when none does. -/
theorem first_match_packed {α : Type} (p : α → Bool) (xs : List (Option α)) (MAX : Nat)
    (hp : left_packed MAX xs) :
    (∀ k, first_match p (xs.take MAX) 0 = some k ↔
      k < MAX ∧ (∃ a, slot xs k = some a ∧ p a = true) ∧
        ∀ j, j < k → ∀ b, slot xs j = some b → p b = false) ∧
    (first_match p (xs.take MAX) 0 = none ↔
      ∀ k, k < MAX → ∀ b, slot xs k = some b → p b = false) := by
  have hsome : ∀ k, first_match p (xs.take MAX) 0 = some k ↔
      k < MAX ∧ (∃ a, slot xs k = some a ∧ p a = true) ∧
        ∀ j, j < k → ∀ b, slot xs j = some b → p b = false := by
    intro k
    rw [first_match_some_iff]
    constructor
    · intro ⟨⟨a, ha, hpa⟩, hall⟩
      obtain ⟨hk, hsl⟩ := (slot_take xs MAX k a).mp ha
      refine ⟨hk, ⟨a, hsl, hpa⟩, fun j hj b hb => ?_⟩
      obtain ⟨c, hc, hpc⟩ := hall j hj
      have hc2 := ((slot_take xs MAX j c).mp hc).2
      rw [hc2] at hb
      have : c = b := by simpa using hb
      rw [← this]
      exact hpc
    · intro ⟨hk, ⟨a, hsl, hpa⟩, hall⟩
      refine ⟨⟨a, (slot_take xs MAX k a).mpr ⟨hk, hsl⟩, hpa⟩, fun j hj => ?_⟩
      have hne : slot xs j ≠ none :=
        left_packed_before MAX xs hp k j hk (by rw [hsl]; simp) hj
      cases hb : slot xs j with
      | none => exact absurd hb hne
      | some b => exact ⟨b, (slot_take xs MAX j b).mpr ⟨by omega, hb⟩, hall j hj b hb⟩
  refine ⟨hsome, ?_⟩
  constructor
  · intro hnone k
    induction k using Nat.strong_induction_on with
    | _ k ih =>
      intro hk b hb
      by_contra hpb
      have hpb' : p b = true := by simpa using hpb
      have := (hsome k).mpr ⟨hk, ⟨b, hb, hpb'⟩, fun j hj c hc => ih j hj (by omega) c hc⟩
      rw [hnone] at this
      cases this
  · intro hall
    cases hf : first_match p (xs.take MAX) 0 with
    | none => rfl
    | some k =>
      obtain ⟨hk, ⟨a, hsl, hpa⟩, _⟩ := (hsome k).mp hf
      rw [hall k hk a hsl] at hpa
      cases hpa

/-- The result of a lookup that scans to the first entry with the id and returns the slot it
stops at is the first match of the registry. -/
theorem lookup_returns_first_match {α : Type} (ident : α → Id) (id : Id)
    (xs : List (Option α)) (MAX : Nat) (hp : left_packed MAX xs) :
    returns_first_match MAX xs (fun a => ident a = id)
      (match first_match (fun a => decide (id = ident a)) (xs.take MAX) 0 with
        | none => none
        | some k => slot xs k) := by
  obtain ⟨hsome, hnone⟩ := first_match_packed (fun a => decide (id = ident a)) xs MAX hp
  constructor
  · intro a
    constructor
    · intro h
      cases hf : first_match (fun a => decide (id = ident a)) (xs.take MAX) 0 with
      | none => simp [hf] at h
      | some k =>
        simp only [hf] at h
        obtain ⟨hk, ⟨b, hb, hpb⟩, hall⟩ := (hsome k).mp hf
        rw [hb] at h
        have : b = a := by simpa using h
        subst this
        refine ⟨k, hk, hb, (of_decide_eq_true hpb).symm, fun j hj c hc e => ?_⟩
        have := hall j hj c hc
        simp [e] at this
    · intro ⟨k, hk, hsl, hpa, hall⟩
      have hf : first_match (fun a => decide (id = ident a)) (xs.take MAX) 0 = some k :=
        (hsome k).mpr ⟨hk, ⟨a, hsl, by simp [hpa]⟩, fun j hj b hb => by
          have := hall j hj b hb
          simpa using fun e : id = ident b => this e.symm⟩
      simp only [hf]
      exact hsl
  · constructor
    · intro h k hk b hb e
      cases hf : first_match (fun a => decide (id = ident a)) (xs.take MAX) 0 with
      | none =>
        have := hnone.mp hf k hk b hb
        simp [e] at this
      | some n =>
        simp only [hf] at h
        obtain ⟨_, ⟨c, hc, _⟩, _⟩ := (hsome n).mp hf
        rw [hc] at h
        cases h
    · intro hall
      have hf : first_match (fun a => decide (id = ident a)) (xs.take MAX) 0 = none :=
        hnone.mpr (fun k hk b hb => by
          have := hall k hk b hb
          simpa using fun e : id = ident b => this e.symm)
      simp only [hf]

/-- The loop of `game_get_object` returns the entry of the slot at which the scan to the first
object with the id stops. -/
theorem find_object_eq_first_match (id : Id) (l : List (Option Entrega2.Object)) :
    Entrega2.find_object id l =
      match first_match (fun o : Entrega2.Object => decide (id = o.id)) l 0 with
      | none => none
      | some k => slot l k := by
  induction l with
  | nil => rfl
  | cons x rest ih =>
    cases x with
    | none => rfl
    | some o =>
      by_cases ho : id = o.id
      · simp [Entrega2.find_object, first_match, Entrega2.object_get_id, ho, slot]
      · simp only [Entrega2.find_object, first_match, Entrega2.object_get_id, ho, if_false,
          decide_False, Bool.false_eq_true, first_match_shift, zero_add, ih]
        cases first_match (fun o : Entrega2.Object => decide (id = o.id)) rest 0 with
        | none => rfl
        | some k => simp [slot_cons_succ]

/-- A slot among the first `MAX` read from the slots a scan visits. -/
theorem slot_take_of_lt {α : Type} (xs : List (Option α)) (MAX k : Nat) (hk : k < MAX) :
    slot (xs.take MAX) k = slot xs k := by
  unfold slot
  rw [List.getElem?_take]
  simp [hk]

/-- The lookups by id as scans to the first match. -/
theorem lookups_eq_first_match (MAX_SPACES MAX_OBJECTS : Nat) (g : Entrega2.Game)
    (e : Examen.Game) (id : Id) (hid : id ≠ NO_ID) :
    Entrega2.game_get_space MAX_SPACES g id =
      (match first_match (fun s : Entrega2.Space => decide (id = s.id))
          (g.spaces.take MAX_SPACES) 0 with
        | none => none
        | some k => slot g.spaces k) ∧
    Entrega2.game_get_object MAX_OBJECTS g id =
      (match first_match (fun o : Entrega2.Object => decide (id = o.id))
          (g.objects.take MAX_OBJECTS) 0 with
        | none => none
        | some k => slot g.objects k) ∧
    Examen.game_get_space MAX_SPACES e id =
      (match first_match (fun s : Examen.Space => decide (id = s.id))
          (e.spaces.take MAX_SPACES) 0 with
        | none => none
        | some k => slot e.spaces k) := by
  refine ⟨?_, ?_, ?_⟩
  · simp only [Entrega2.game_get_space, Entrega2.game_get_space_index, hid, if_false,
      find_space_eq_first_match]
  · simp only [Entrega2.game_get_object, hid, if_false, find_object_eq_first_match]
    cases hf : first_match (fun o : Entrega2.Object => decide (id = o.id))
        (g.objects.take MAX_OBJECTS) 0 with
    | none => rfl
    | some k =>
      obtain ⟨⟨a, ha, _⟩, _⟩ := (first_match_some_iff _ _ k).mp hf
      have hk := ((slot_take g.objects MAX_OBJECTS k a).mp ha).1
      exact slot_take_of_lt g.objects MAX_OBJECTS k hk
  · simp only [Examen.game_get_space, Examen.game_get_space_index, hid, if_false,
      exam_find_space_eq_first_match]

/-- C16. For left-packed registries and every id: `game_get_space` of Entrega 2 and of Examen
return `NULL` for `NO_ID`, and otherwise the first match of the space registry, that is the
registered space with the smallest index whose id is the one asked for (a later space with
the same id is never returned) and `NULL` when no registered space has the id; so does
`game_get_object` of Entrega 2 over the object registry. -/
theorem lookup_first_match (MAX_SPACES MAX_OBJECTS : Nat) (g : Entrega2.Game)
    (e : Examen.Game) (id : Id) (hs : left_packed MAX_SPACES g.spaces)
    (ho : left_packed MAX_OBJECTS g.objects) (he : left_packed MAX_SPACES e.spaces) :
    (Entrega2.game_get_space MAX_SPACES g NO_ID = none ∧
      Entrega2.game_get_object MAX_OBJECTS g NO_ID = none ∧
      Examen.game_get_space MAX_SPACES e NO_ID = none) ∧
    (id ≠ NO_ID →
      returns_first_match MAX_SPACES g.spaces (fun s => s.id = id)
        (Entrega2.game_get_space MAX_SPACES g id) ∧
      returns_first_match MAX_OBJECTS g.objects (fun o => o.id = id)
        (Entrega2.game_get_object MAX_OBJECTS g id) ∧
      returns_first_match MAX_SPACES e.spaces (fun s => s.id = id)
        (Examen.game_get_space MAX_SPACES e id)) := by
  refine ⟨⟨?_, ?_, ?_⟩, fun hid => ?_⟩
  · simp [Entrega2.game_get_space, Entrega2.game_get_space_index]
  · simp [Entrega2.game_get_object]
  · simp [Examen.game_get_space, Examen.game_get_space_index]
  · obtain ⟨h1, h2, h3⟩ := lookups_eq_first_match MAX_SPACES MAX_OBJECTS g e id hid
    rw [h1, h2, h3]
    exact ⟨lookup_returns_first_match (fun s : Entrega2.Space => s.id) id g.spaces MAX_SPACES hs,
      lookup_returns_first_match (fun o : Entrega2.Object => o.id) id g.objects MAX_OBJECTS ho,
      lookup_returns_first_match (fun s : Examen.Space => s.id) id e.spaces MAX_SPACES he⟩

/-- Witness of C16: the two-space, two-object game of Entrega 2 and the two-space game of
Examen, in registries of four slots, asked for the id 2. -/
theorem lookup_first_match_witness :
    (Entrega2.game_get_space 4 carryingGame NO_ID = none ∧
      Entrega2.game_get_object 4 carryingGame NO_ID = none ∧
      Examen.game_get_space 4 movementExam NO_ID = none) ∧
    ((2 : Id) ≠ NO_ID →
      returns_first_match 4 carryingGame.spaces (fun s => s.id = 2)
        (Entrega2.game_get_space 4 carryingGame 2) ∧
      returns_first_match 4 carryingGame.objects (fun o => o.id = 2)
        (Entrega2.game_get_object 4 carryingGame 2) ∧
      returns_first_match 4 movementExam.spaces (fun s => s.id = 2)
        (Examen.game_get_space 4 movementExam 2)) :=
  lookup_first_match 4 4 carryingGame movementExam 2
    ⟨2, by decide, by decide, by decide⟩ ⟨2, by decide, by decide, by decide⟩
    ⟨2, by decide, by decide, by decide⟩

/-! ## The registries stay left-packed -/

/-- The slots that `game_create` cleared read as `NULL`. -/
theorem slot_replicate_append {α : Type} (n i : Nat) (ys : List (Option α)) (h : i < n) :
    slot (List.replicate n none ++ ys) i = none := by
  unfold slot
  rw [List.getElem?_append_left (by simpa using h)]
  simp [h]

/-- Two registries with the same empty slots are left-packed together. -/
theorem left_packed_congr {α β : Type} (MAX : Nat) (xs : List (Option α))
    (ys : List (Option β)) (h : ∀ i, slot ys i = none ↔ slot xs i = none)
    (hp : left_packed MAX xs) : left_packed MAX ys := by
  obtain ⟨k, hk, hfull, hempty⟩ := hp
  exact ⟨k, hk, fun i hi e => hfull i hi ((h i).mp e), fun i h1 h2 => (h i).mpr (hempty i h1 h2)⟩

/-- Adding to a left-packed registry with room leaves it left-packed. -/
theorem left_packed_write {α : Type} (MAX : Nat) (xs : List (Option α)) (a : α)
    (hp : left_packed MAX xs) (hlt : first_free (xs.take MAX) 0 < MAX) :
    left_packed MAX (write_slot xs (first_free (xs.take MAX) 0) (some a)) := by
  obtain ⟨_, h2, h3⟩ := first_free_spec xs MAX
  obtain ⟨k, hk, hfull, hempty⟩ := hp
  have hge : k ≤ first_free (xs.take MAX) 0 := by
    by_contra hlt2
    exact hfull _ (by omega) (h3 hlt)
  refine ⟨first_free (xs.take MAX) 0 + 1, by omega, fun i hi => ?_, fun i h1 h4 => ?_⟩
  · rw [slot_write_slot]
    by_cases hi2 : i = first_free (xs.take MAX) 0
    · simp [hi2]
    · simp only [hi2, if_false]
      exact h2 i (by omega)
  · rw [slot_write_slot]
    have hi2 : ¬ i = first_free (xs.take MAX) 0 := by omega
    simp only [hi2, if_false]
    exact hempty i (by omega) h4

/-- A slot reads as an entry exactly when the list records that entry there. -/
theorem slot_eq_some {α : Type} (xs : List (Option α)) (k : Nat) (a : α) :
    slot xs k = some a ↔ xs[k]? = some (some a) := by
  unfold slot
  cases xs[k]? with
  | none => simp
  | some x => simp

namespace Entrega2

/-- A game whose registries are those of `g` is in frame with `g`. -/
theorem slots_frame_of_eq (g r : Game) (ho : r.objects = g.objects) (hs : r.spaces = g.spaces) :
    slots_frame g r := by
  refine ⟨ho, fun i => by rw [hs], fun i s h => ⟨s, by rw [hs]; exact h, rfl⟩⟩

/-- Writing, through the pointer of `game_get_space`, the space it points to with at most its
object set changed fills, empties and moves nothing. -/
theorem store_space_frame (MAX_SPACES : Nat) (g : Game) (id : Id) (sp : Option Space)
    (h : ∀ s, game_get_space MAX_SPACES g id = some s →
      ∃ t, sp = some t ∧ t = { s with objects := t.objects }) :
    slots_frame g (store_space g (game_get_space_index MAX_SPACES g id) sp) := by
  cases hidx : game_get_space_index MAX_SPACES g id with
  | none => exact slots_frame_of_eq g _ rfl rfl
  | some k =>
    have hsp : game_get_space MAX_SPACES g id = slot g.spaces k := by
      simp [game_get_space, hidx]
    have hfs : find_space id (g.spaces.take MAX_SPACES) 0 = some k := by
      unfold game_get_space_index at hidx
      by_cases hid : id = NO_ID
      · simp [hid] at hidx
      · simpa [hid] using hidx
    obtain ⟨_, s, hs, _⟩ := find_space_spec id _ 0 k hfs
    simp only [Nat.sub_zero] at hs
    obtain ⟨_, hsl⟩ := (slot_take g.spaces MAX_SPACES k s).mp hs
    obtain ⟨t, ht, hst⟩ := h s (by rw [hsp, hsl])
    subst ht
    have hk2 : g.spaces[k]? = some (some s) := (slot_eq_some g.spaces k s).mp hsl
    have hlt : k < g.spaces.length := (List.getElem?_eq_some.mp hk2).1
    refine ⟨rfl, fun i => ?_, fun i u hu => ?_⟩
    · by_cases hi : i = k
      · subst hi
        simp [store_space, slot_set_self _ _ _ hlt, hsl]
      · simp [store_space, slot_set_ne _ _ _ _ hi]
    · by_cases hi : i = k
      · subst hi
        rw [hsl] at hu
        have : s = u := by simpa using hu
        subst this
        exact ⟨t, by simp [store_space, slot_set_self _ _ _ hlt], hst⟩
      · exact ⟨u, by simp [store_space, slot_set_ne _ _ _ _ hi, hu], rfl⟩

/-- Modelled `space_del_object` and `space_set_object` return the space with at most its
object set changed. -/
theorem space_helpers_keep (MAX_ID : Nat) (s : Space) (id : Id) :
    (∃ t, (space_del_object (some s) id).2 = some t ∧ t = { s with objects := t.objects }) ∧
    (∃ t, (space_set_object MAX_ID (some s) id).2 = some t ∧
      t = { s with objects := t.objects }) := by
  constructor
  · by_cases h : id ∈ s.objects
    · exact ⟨{ s with objects := s.objects.erase id }, by simp [space_del_object, h], rfl⟩
    · exact ⟨s, by simp [space_del_object, h], rfl⟩
  · by_cases h1 : id = NO_ID
    · exact ⟨s, by simp [space_set_object, h1], rfl⟩
    · by_cases h2 : MAX_ID ≤ s.objects.length
      · exact ⟨s, by simp [space_set_object, h1, h2], rfl⟩
      · exact ⟨{ s with objects := s.objects ++ [id] }, by simp [space_set_object, h1, h2],
          rfl⟩

/-- The frame of `game_callback_take` and `game_callback_drop` on the registries. -/
theorem take_drop_frame (MAX_SPACES MAX_OBJECTS MAX_ID : Nat) (g : Game) (input : String) :
    slots_frame g (game_callback_take MAX_SPACES MAX_OBJECTS MAX_ID g input) ∧
      slots_frame g (game_callback_drop MAX_SPACES MAX_ID g) := by
  constructor
  · unfold game_callback_take
    dsimp only
    split_ifs
    · exact slots_frame_of_eq g _ rfl rfl
    · exact slots_frame_of_eq g _ rfl rfl
    · exact slots_frame_of_eq g _ rfl rfl
    · exact store_space_frame MAX_SPACES
        { g with player := (player_set_object g.player
          (object_get_id (game_get_object_by_name MAX_OBJECTS g input))).2 } _ _
        (fun s hs => by rw [hs]; exact (space_helpers_keep MAX_ID s _).1)
    · exact store_space_frame MAX_SPACES
        { g with player := (player_set_object g.player
          (object_get_id (game_get_object_by_name MAX_OBJECTS g input))).2 } _ _
        (fun s hs => by rw [hs]; exact (space_helpers_keep MAX_ID s _).1)
  · unfold game_callback_drop
    dsimp only
    split_ifs
    · exact slots_frame_of_eq g _ rfl rfl
    · exact store_space_frame MAX_SPACES g _ _
        (fun s hs => by rw [hs]; exact (space_helpers_keep MAX_ID s _).2)
    · exact store_space_frame MAX_SPACES g _ _
        (fun s hs => by rw [hs]; exact (space_helpers_keep MAX_ID s _).2)
    · exact store_space_frame MAX_SPACES g _ _
        (fun s hs => by rw [hs]; exact (space_helpers_keep MAX_ID s _).2)

end Entrega2

namespace Entrega2

/-- Every handler run by `game_update` fills, empties and moves no slot of the registries. -/
theorem game_update_frame (MAX_SPACES MAX_OBJECTS MAX_ID : Nat) (g : Game) (cmd : T_Command)
    (inp : Input) (r : STATUS × Game)
    (h : game_update MAX_SPACES MAX_OBJECTS MAX_ID g cmd inp = some r) : slots_frame g r.2 := by
  unfold game_update at h
  by_cases hneg : cmd < 0
  · simp [hneg] at h
  · simp only [hneg, if_false] at h
    have hmove := movement_frame MAX_SPACES { g with last_cmd := cmd }
    have htd := take_drop_frame MAX_SPACES MAX_OBJECTS MAX_ID { g with last_cmd := cmd }
      inp.token
    have hroll := roll_frame { g with last_cmd := cmd } inp.rnd
    rcases Nat.lt_or_ge cmd.toNat 9 with hlt | hge
    · generalize hn : cmd.toNat = n at h hlt
      interval_cases n <;> simp only [game_callback_fn_list, List.getElem?_cons_zero,
        List.getElem?_cons_succ, Option.some.injEq] at h <;> subst h
      · exact slots_frame_of_eq g _ rfl rfl
      · exact slots_frame_of_eq g _ rfl rfl
      · exact slots_frame_of_eq g _ hmove.1.1 hmove.1.2.1
      · exact slots_frame_of_eq g _ hmove.2.1.1 hmove.2.1.2.1
      · exact htd.1
      · exact htd.2
      · exact slots_frame_of_eq g _ hroll.1 hroll.2.1
      · exact slots_frame_of_eq g _ hmove.2.2.1.1 hmove.2.2.1.2.1
      · exact slots_frame_of_eq g _ hmove.2.2.2.1 hmove.2.2.2.2.1
    · have : (game_callback_fn_list MAX_SPACES MAX_OBJECTS MAX_ID)[cmd.toNat]? = none := by
        apply List.getElem?_eq_none
        simpa [game_callback_fn_list] using hge
      simp [this] at h

/-- One call keeps the registries left-packed and removes or moves no stored entry. -/
theorem run_call_packed (MAX_SPACES MAX_OBJECTS MAX_ID : Nat) (g r : Game) (c : Call)
    (hs : left_packed MAX_SPACES g.spaces) (ho : left_packed MAX_OBJECTS g.objects)
    (h : run_call MAX_SPACES MAX_OBJECTS MAX_ID g c = some r) :
    left_packed MAX_SPACES r.spaces ∧ left_packed MAX_OBJECTS r.objects ∧ entries_kept g r := by
  have hrefl : entries_kept g g := ⟨fun i s hi => ⟨s, hi, rfl⟩, fun i o hi => hi⟩
  cases c with
  | add_space space =>
    simp only [run_call, Option.some.injEq] at h
    subst h
    cases space with
    | none => exact ⟨hs, ho, hrefl⟩
    | some s =>
      unfold game_add_space
      dsimp only
      split_ifs with hfull
      · exact ⟨hs, ho, hrefl⟩
      · have hlt : first_free (g.spaces.take MAX_SPACES) 0 < MAX_SPACES := by omega
        obtain ⟨_, _, h3⟩ := first_free_spec g.spaces MAX_SPACES
        refine ⟨left_packed_write MAX_SPACES g.spaces s hs hlt, ho, fun i u hu => ?_,
          fun i o hi => hi⟩
        refine ⟨u, ?_, rfl⟩
        show slot (write_slot g.spaces _ (some s)) i = some u
        rw [slot_write_slot]
        have hi : ¬ i = first_free (g.spaces.take MAX_SPACES) 0 := by
          intro e
          rw [e, h3 hlt] at hu
          cases hu
        simp only [hi, if_false]
        exact hu
  | set_object object =>
    simp only [run_call, Option.some.injEq] at h
    subst h
    cases object with
    | none => exact ⟨hs, ho, hrefl⟩
    | some o =>
      unfold game_set_object
      dsimp only
      split_ifs with hfull
      · exact ⟨hs, ho, hrefl⟩
      · have hlt : first_free (g.objects.take MAX_OBJECTS) 0 < MAX_OBJECTS := by omega
        obtain ⟨_, _, h3⟩ := first_free_spec g.objects MAX_OBJECTS
        refine ⟨hs, left_packed_write MAX_OBJECTS g.objects o ho hlt,
          fun i u hu => ⟨u, hu, rfl⟩, fun i u hu => ?_⟩
        show slot (write_slot g.objects _ (some o)) i = some u
        rw [slot_write_slot]
        have hi : ¬ i = first_free (g.objects.take MAX_OBJECTS) 0 := by
          intro e
          rw [e, h3 hlt] at hu
          cases hu
        simp only [hi, if_false]
        exact hu
  | set_player player =>
    simp only [run_call, Option.some.injEq] at h
    subst h
    cases player with
    | none => exact ⟨hs, ho, hrefl⟩
    | some p => exact ⟨hs, ho, hrefl⟩
  | update cmd inp =>
    simp only [run_call] at h
    cases hu : game_update MAX_SPACES MAX_OBJECTS MAX_ID g cmd inp with
    | none => simp [hu] at h
    | some x =>
      simp only [hu, Option.some.injEq] at h
      subst h
      obtain ⟨hobj, hnull, hkept⟩ := game_update_frame MAX_SPACES MAX_OBJECTS MAX_ID g cmd inp x hu
      refine ⟨left_packed_congr MAX_SPACES g.spaces _ hnull hs, by rw [hobj]; exact ho, hkept,
        fun i o hi => by rw [hobj]; exact hi⟩

/-- Kept entries compose along two stretches of calls. -/
theorem entries_kept_trans (g r u : Game) (h1 : entries_kept g r) (h2 : entries_kept r u) :
    entries_kept g u := by
  refine ⟨fun i s hs => ?_, fun i o ho => h2.2 i o (h1.2 i o ho)⟩
  obtain ⟨t, ht, hst⟩ := h1.1 i s hs
  obtain ⟨v, hv, htv⟩ := h2.1 i t ht
  refine ⟨v, hv, ?_⟩
  rw [htv, hst]

/-- A sequence of calls keeps the registries left-packed and removes or moves no stored
entry. -/
theorem run_calls_packed (MAX_SPACES MAX_OBJECTS MAX_ID : Nat) (cs : List Call) (g r : Game)
    (hs : left_packed MAX_SPACES g.spaces) (ho : left_packed MAX_OBJECTS g.objects)
    (h : run_calls MAX_SPACES MAX_OBJECTS MAX_ID g cs = some r) :
    left_packed MAX_SPACES r.spaces ∧ left_packed MAX_OBJECTS r.objects ∧ entries_kept g r := by
  induction cs generalizing g with
  | nil =>
    simp only [run_calls, Option.some.injEq] at h
    subst h
    exact ⟨hs, ho, fun i s hi => ⟨s, hi, rfl⟩, fun i o hi => hi⟩
  | cons c rest ih =>
    simp only [run_calls] at h
    cases hc : run_call MAX_SPACES MAX_OBJECTS MAX_ID g c with
    | none => simp [hc] at h
    | some m =>
      simp only [hc] at h
      obtain ⟨hs1, ho1, hk1⟩ := run_call_packed MAX_SPACES MAX_OBJECTS MAX_ID g m c hs ho hc
      obtain ⟨hs2, ho2, hk2⟩ := ih m hs1 ho1 h
      exact ⟨hs2, ho2, entries_kept_trans g m r hk1 hk2⟩

end Entrega2

/-- C15. In Entrega 2, `game_create` produces a game whose first `MAX_SPACES` space slots and
first `MAX_OBJECTS` object slots are empty; after any sequence of calls of `game_add_space`,
`game_set_object`, `game_set_player` (successful or failing) and of commands run through
`game_update`, both registries are left-packed (non-empty up to some index, empty from there
to `MAX`), and along any further sequence of calls no stored entry is removed or moved. -/
theorem registries_stay_packed (MAX_SPACES MAX_OBJECTS MAX_ID : Nat) (mem : Entrega2.Game)
    (die : Option Entrega2.Die) (g0 g1 g2 : Entrega2.Game) (cs1 cs2 : List Entrega2.Call)
    (hc : Entrega2.game_create MAX_SPACES MAX_OBJECTS (some mem) die = some g0)
    (h1 : Entrega2.run_calls MAX_SPACES MAX_OBJECTS MAX_ID g0 cs1 = some g1)
    (h2 : Entrega2.run_calls MAX_SPACES MAX_OBJECTS MAX_ID g1 cs2 = some g2) :
    ((∀ i, i < MAX_SPACES → slot g0.spaces i = none) ∧
      (∀ i, i < MAX_OBJECTS → slot g0.objects i = none)) ∧
    (left_packed MAX_SPACES g1.spaces ∧ left_packed MAX_OBJECTS g1.objects) ∧
    (left_packed MAX_SPACES g2.spaces ∧ left_packed MAX_OBJECTS g2.objects) ∧
    Entrega2.entries_kept g1 g2 := by
  have hg0 : (∀ i, i < MAX_SPACES → slot g0.spaces i = none) ∧
      (∀ i, i < MAX_OBJECTS → slot g0.objects i = none) := by
    unfold Entrega2.game_create at hc
    by_cases hd : die = none
    · simp [hd] at hc
    · simp only [hd, if_false, Option.some.injEq] at hc
      subst hc
      exact ⟨fun i hi => slot_replicate_append _ _ _ hi,
        fun i hi => slot_replicate_append _ _ _ hi⟩
  have hp0 : left_packed MAX_SPACES g0.spaces ∧ left_packed MAX_OBJECTS g0.objects :=
    ⟨⟨0, Nat.zero_le _, fun i hi => absurd hi (Nat.not_lt_zero i), fun i _ hi => hg0.1 i hi⟩,
      ⟨0, Nat.zero_le _, fun i hi => absurd hi (Nat.not_lt_zero i), fun i _ hi => hg0.2 i hi⟩⟩
  obtain ⟨hs1, ho1, _⟩ :=
    Entrega2.run_calls_packed MAX_SPACES MAX_OBJECTS MAX_ID cs1 g0 g1 hp0.1 hp0.2 h1
  obtain ⟨hs2, ho2, hk⟩ :=
    Entrega2.run_calls_packed MAX_SPACES MAX_OBJECTS MAX_ID cs2 g1 g2 hs1 ho1 h2
  exact ⟨hg0, ⟨hs1, ho1⟩, ⟨hs2, ho2⟩, hk⟩

/-- Witness of C15, with registries of two slots: `game_create` over the memory of an old game
gives the fresh game, which is stocked and then played. -/
theorem registries_stay_packed_witness :
    (Entrega2.game_create 2 2 (some carryingGame) freshGame.die = some freshGame ∧
      Entrega2.run_calls 2 2 4 freshGame stockingCalls = some stockedGame ∧
      Entrega2.run_calls 2 2 4 stockedGame playingCalls = some playedGame) ∧
    ((∀ i, i < 2 → slot freshGame.spaces i = none) ∧
      (∀ i, i < 2 → slot freshGame.objects i = none)) ∧
    (left_packed 2 stockedGame.spaces ∧ left_packed 2 stockedGame.objects) ∧
    (left_packed 2 playedGame.spaces ∧ left_packed 2 playedGame.objects) ∧
    Entrega2.entries_kept stockedGame playedGame :=
  ⟨⟨by decide, by decide, by decide⟩,
    registries_stay_packed 2 2 4 carryingGame freshGame.die freshGame stockedGame playedGame
      stockingCalls playingCalls (by decide) (by decide) (by decide)⟩

/-! ## Loading the spaces of a file -/

namespace Examen

/-- Adding a space to a registry whose first `MAX_SPACES` slots hold the spaces `pre` in order
makes them hold `pre` followed by the space, cut at `MAX_SPACES`; the locations are not
written. -/
theorem add_space_fill (MAX_SPACES : Nat) (g : Game) (pre : List Space) (s : Space)
    (h : ∀ i, i < MAX_SPACES → slot g.spaces i = pre[i]?) :
    (∀ i, i < MAX_SPACES →
      slot (game_add_space MAX_SPACES g (some s)).2.spaces i = (pre ++ [s])[i]?) ∧
    (game_add_space MAX_SPACES g (some s)).2.player_location = g.player_location ∧
    (game_add_space MAX_SPACES g (some s)).2.object_location = g.object_location := by
  obtain ⟨h1, h2, h3⟩ := first_free_spec g.spaces MAX_SPACES
  unfold game_add_space
  dsimp only
  split_ifs with hfull
  · refine ⟨fun i hi => ?_, rfl, rfl⟩
    have hne := h2 i (by omega)
    rw [h i hi] at hne
    have hlen : i < pre.length := by
      by_contra hge
      exact hne (List.getElem?_eq_none (by omega))
    show slot g.spaces i = (pre ++ [s])[i]?
    rw [List.getElem?_append_left hlen]
    exact h i hi
  · have hlt : first_free (g.spaces.take MAX_SPACES) 0 < MAX_SPACES := by omega
    have hnone := h3 hlt
    rw [h _ hlt] at hnone
    have hge : pre.length ≤ first_free (g.spaces.take MAX_SPACES) 0 := by
      by_contra hlt2
      have hlt3 : first_free (g.spaces.take MAX_SPACES) 0 < pre.length := by omega
      rw [List.getElem?_eq_getElem hlt3] at hnone
      cases hnone
    have hle : first_free (g.spaces.take MAX_SPACES) 0 ≤ pre.length := by
      by_contra hgt
      have hne := h2 pre.length (by omega)
      rw [h pre.length (by omega)] at hne
      exact hne (List.getElem?_eq_none (Nat.le_refl _))
    have heq : first_free (g.spaces.take MAX_SPACES) 0 = pre.length := by omega
    refine ⟨fun i hi => ?_, rfl, rfl⟩
    show slot (write_slot g.spaces _ (some s)) i = (pre ++ [s])[i]?
    rw [slot_write_slot, heq]
    by_cases hi2 : i = pre.length
    · subst hi2
      simp
    · simp only [hi2, if_false]
      rw [h i hi]
      rcases Nat.lt_or_ge i pre.length with hl | hg
      · rw [List.getElem?_append_left hl]
      · rw [List.getElem?_eq_none hg, List.getElem?_eq_none]
        simp only [List.length_append, List.length_singleton]
        omega

/-- The loop of `game_load_spaces`, run on a registry whose first `MAX_SPACES` slots hold the
spaces `pre` in order, ends exactly when no pass is undefined, and then these slots hold `pre`
followed by the spaces the lines define, cut at `MAX_SPACES`; the locations are not written. -/
theorem load_loop_fill (MAX_SPACES : Nat) (lines : List Line) (g : Game) (pre : List Space)
    (h : ∀ i, i < MAX_SPACES → slot g.spaces i = pre[i]?) :
    (∀ r, load_loop MAX_SPACES g lines = some r →
      ∃ defs, defined_spaces lines = some defs ∧
        (∀ i, i < MAX_SPACES → slot r.spaces i = (pre ++ defs)[i]?) ∧
        r.player_location = g.player_location ∧ r.object_location = g.object_location) ∧
    (∀ defs, defined_spaces lines = some defs → ∃ r, load_loop MAX_SPACES g lines = some r) := by
  induction lines generalizing g pre with
  | nil =>
    refine ⟨fun r hr => ?_, fun defs _ => ⟨g, rfl⟩⟩
    simp only [load_loop, Option.some.injEq] at hr
    subst hr
    exact ⟨[], rfl, fun i hi => by simpa using h i hi, rfl, rfl⟩
  | cons l ls ih =>
    cases hl : read_space l with
    | none =>
      refine ⟨fun r hr => ?_, fun defs hd => ?_⟩
      · simp [load_loop, load_line, hl] at hr
      · simp [defined_spaces, hl] at hd
    | some o =>
      cases o with
      | none =>
        obtain ⟨ih1, ih2⟩ := ih g pre h
        refine ⟨fun r hr => ?_, fun defs hd => ?_⟩
        · simp only [load_loop, load_line, hl] at hr
          obtain ⟨defs, hd, hrest⟩ := ih1 r hr
          exact ⟨defs, by simp [defined_spaces, hl, hd], hrest⟩
        · simp only [load_loop, load_line, hl]
          cases hd2 : defined_spaces ls with
          | none => simp [defined_spaces, hl, hd2] at hd
          | some rest => exact ih2 rest hd2
      | some s =>
        obtain ⟨hfill, hp, ho⟩ := add_space_fill MAX_SPACES g pre s h
        obtain ⟨ih1, ih2⟩ := ih (game_add_space MAX_SPACES g (some s)).2 (pre ++ [s]) hfill
        refine ⟨fun r hr => ?_, fun defs hd => ?_⟩
        · simp only [load_loop, load_line, hl] at hr
          obtain ⟨defs, hd, hslots, hp2, ho2⟩ := ih1 r hr
          refine ⟨s :: defs, by simp [defined_spaces, hl, hd], fun i hi => ?_, hp2.trans hp,
            ho2.trans ho⟩
          rw [hslots i hi, List.append_assoc, List.singleton_append]
        · simp only [load_loop, load_line, hl]
          cases hd2 : defined_spaces ls with
          | none => simp [defined_spaces, hl, hd2] at hd
          | some rest => exact ih2 rest hd2

end Examen

namespace Examen

/-- When `game_create_from_file` returns `OK` the file was opened, its loop ended and `ferror`
reported nothing. -/
theorem create_from_file_ok (MAX_SPACES : Nat) (mem : Game) (filename : Option String)
    (file : Option File) (r : Game)
    (h : game_create_from_file MAX_SPACES mem filename file = some (STATUS.OK, r)) :
    ∃ name f g1, filename = some name ∧ file = some f ∧ f.error = false ∧
      load_loop MAX_SPACES (game_create MAX_SPACES mem).2 f.lines = some g1 := by
  cases filename with
  | none => simp [game_create_from_file, game_create, game_load_spaces] at h
  | some name =>
    cases file with
    | none => simp [game_create_from_file, game_create, game_load_spaces] at h
    | some f =>
      cases hl : load_loop MAX_SPACES (game_create MAX_SPACES mem).2 f.lines with
      | none =>
        simp only [game_create] at hl
        simp [game_create_from_file, game_create, game_load_spaces, hl] at h
      | some g1 =>
        cases he : f.error with
        | true =>
          simp only [game_create] at hl
          simp [game_create_from_file, game_create, game_load_spaces, hl, he] at h
        | false => exact ⟨name, f, g1, rfl, rfl, he, hl⟩

/-- What `game_create_from_file` returns for an opened file whose loop ends without an error
of the stream: `OK`, and the loaded game with both locations set to the id in slot 0, unless
that is `NO_ID`. -/
theorem create_from_file_eq (MAX_SPACES : Nat) (mem : Game) (name : String) (f : File)
    (g1 : Game) (he : f.error = false)
    (hl : load_loop MAX_SPACES (game_create MAX_SPACES mem).2 f.lines = some g1) :
    game_create_from_file MAX_SPACES mem (some name) (some f) =
      some (STATUS.OK,
        if game_get_space_id_at MAX_SPACES g1 0 = NO_ID then g1
        else { g1 with player_location := game_get_space_id_at MAX_SPACES g1 0,
                       object_location := game_get_space_id_at MAX_SPACES g1 0 }) := by
  simp only [game_create] at hl
  by_cases hid : game_get_space_id_at MAX_SPACES g1 0 = NO_ID
  · simp [game_create_from_file, game_create, game_load_spaces, hl, he,
      game_set_player_location, game_set_object_location, hid]
  · have hid2 : game_get_space_id_at MAX_SPACES
        { g1 with player_location := game_get_space_id_at MAX_SPACES g1 0 } 0 =
        game_get_space_id_at MAX_SPACES g1 0 := rfl
    simp [game_create_from_file, game_create, game_load_spaces, hl, he,
      game_set_player_location, game_set_object_location, hid, hid2]

end Examen

namespace Examen

/-- The id `game_get_space_id_at` reads at position 0. -/
theorem space_id_at_zero (MAX_SPACES : Nat) (g : Game) :
    game_get_space_id_at MAX_SPACES g 0 =
      if MAX_SPACES = 0 then NO_ID else space_get_id (slot g.spaces 0) := by
  unfold game_get_space_id_at
  by_cases hM : MAX_SPACES = 0
  · simp [hM]
  · have h1 : ¬ ((MAX_SPACES : Int) ≤ 0) := by omega
    simp [hM, h1]

/-- The game loaded from a file by the loop of `game_load_spaces` after `game_create`: the
spaces the file defines fill the registry in order, and both locations are `NO_ID`. -/
theorem load_after_create (MAX_SPACES : Nat) (mem : Game) (lines : List Line) :
    (∀ g1, load_loop MAX_SPACES (game_create MAX_SPACES mem).2 lines = some g1 →
      ∃ defs, defined_spaces lines = some defs ∧
        (∀ i, i < MAX_SPACES → slot g1.spaces i = defs[i]?) ∧
        g1.player_location = NO_ID ∧ g1.object_location = NO_ID) ∧
    (∀ defs, defined_spaces lines = some defs →
      ∃ g1, load_loop MAX_SPACES (game_create MAX_SPACES mem).2 lines = some g1) := by
  have h0 : ∀ i, i < MAX_SPACES →
      slot (game_create MAX_SPACES mem).2.spaces i = ([] : List Space)[i]? := by
    intro i hi
    simp only [game_create, List.getElem?_nil]
    exact slot_replicate_append _ _ _ hi
  obtain ⟨h1, h2⟩ := load_loop_fill MAX_SPACES lines (game_create MAX_SPACES mem).2 [] h0
  refine ⟨fun g1 hl => ?_, h2⟩
  obtain ⟨defs, hd, hslots, hp, ho⟩ := h1 g1 hl
  exact ⟨defs, hd, fun i hi => by simpa using hslots i hi, hp, ho⟩

end Examen

/-- C21. In Examen, whenever `game_create_from_file` returns `OK`, the file was opened and the
spaces it defines (those its lines hand to `game_add_space`, in order) fill the registry from
slot 0 on; if it defines at least one, both the player location and the object location are
the id of the first of them, provided the registry has a slot and that id is not `NO_ID` (if
it is `NO_ID`, both locations are `NO_ID`); if it defines none, both locations are `NO_ID`.
And for a file that defines no space and reads without error the call does return `OK`. -/
theorem create_from_file_locations (MAX_SPACES : Nat) (mem : Examen.Game)
    (filename : Option String) (file : Option Examen.File) (r : Examen.Game)
    (h : Examen.game_create_from_file MAX_SPACES mem filename file = some (STATUS.OK, r)) :
    (∃ f defs, file = some f ∧ Examen.defined_spaces f.lines = some defs ∧
      (∀ i, i < MAX_SPACES → slot r.spaces i = defs[i]?) ∧
      (∀ s rest, defs = s :: rest → 0 < MAX_SPACES → s.id ≠ NO_ID →
        Examen.game_get_player_location r = s.id ∧
          Examen.game_get_object_location r = s.id) ∧
      (∀ s rest, defs = s :: rest → s.id = NO_ID →
        Examen.game_get_player_location r = NO_ID ∧
          Examen.game_get_object_location r = NO_ID) ∧
      (defs = [] →
        Examen.game_get_player_location r = NO_ID ∧
          Examen.game_get_object_location r = NO_ID)) ∧
    (∀ (name : String) (f : Examen.File), f.error = false →
      Examen.defined_spaces f.lines = some [] →
      ∃ r0, Examen.game_create_from_file MAX_SPACES mem (some name) (some f) =
          some (STATUS.OK, r0) ∧
        Examen.game_get_player_location r0 = NO_ID ∧
          Examen.game_get_object_location r0 = NO_ID) := by
  constructor
  · obtain ⟨name, f, g1, rfl, rfl, he, hl⟩ :=
      Examen.create_from_file_ok MAX_SPACES mem filename file r h
    obtain ⟨defs, hd, hslots, hp, ho⟩ := (Examen.load_after_create MAX_SPACES mem f.lines).1 g1 hl
    rw [Examen.create_from_file_eq MAX_SPACES mem name f g1 he hl] at h
    simp only [Option.some.injEq, Prod.mk.injEq, true_and] at h
    have hid := Examen.space_id_at_zero MAX_SPACES g1
    refine ⟨f, defs, rfl, hd, ?_, ?_, ?_, ?_⟩
    · intro i hi
      rw [← h]
      split_ifs
      · exact hslots i hi
      · exact hslots i hi
    · intro s rest hdefs hM hs
      have hslot0 : slot g1.spaces 0 = some s := by
        rw [hslots 0 hM, hdefs]
        simp
      have hx : Examen.game_get_space_id_at MAX_SPACES g1 0 = s.id := by
        rw [hid, if_neg (by omega), hslot0]
        rfl
      rw [← h, hx, if_neg hs]
      exact ⟨rfl, rfl⟩
    · intro s rest hdefs hs
      have hx : Examen.game_get_space_id_at MAX_SPACES g1 0 = NO_ID := by
        rw [hid]
        split_ifs with hM
        · rfl
        · rw [hslots 0 (by omega), hdefs]
          simpa [Examen.space_get_id] using hs
      rw [← h, if_pos hx]
      exact ⟨hp, ho⟩
    · intro hdefs
      have hx : Examen.game_get_space_id_at MAX_SPACES g1 0 = NO_ID := by
        rw [hid]
        split_ifs with hM
        · rfl
        · rw [hslots 0 (by omega), hdefs]
          rfl
      rw [← h, if_pos hx]
      exact ⟨hp, ho⟩
  · intro name f he hd
    obtain ⟨g1, hl⟩ := (Examen.load_after_create MAX_SPACES mem f.lines).2 [] hd
    obtain ⟨defs, hd2, hslots, hp, ho⟩ :=
      (Examen.load_after_create MAX_SPACES mem f.lines).1 g1 hl
    have hdefs : defs = [] := by
      rw [hd] at hd2
      simpa using hd2.symm
    have hx : Examen.game_get_space_id_at MAX_SPACES g1 0 = NO_ID := by
      rw [Examen.space_id_at_zero]
      split_ifs with hM
      · rfl
      · rw [hslots 0 (by omega), hdefs]
        rfl
    refine ⟨g1, ?_, hp, ho⟩
    rw [Examen.create_from_file_eq MAX_SPACES mem name f g1 he hl, if_pos hx]

/-- Witness of C21: the world file of two spaces, loaded into registries of four slots over
the memory of an old game, leaves the player and the object in space 1; the file without a
space leaves them unlocated. -/
theorem create_from_file_locations_witness :
    Examen.game_create_from_file 4 movementExam (some "spaces.dat") (some worldFile) =
      some (STATUS.OK, loadedExam) ∧
    Examen.defined_spaces worldFile.lines =
      some [{ id := 1, name := "A", north := NO_ID, east := NO_ID, south := 2, west := NO_ID,
              illuminated := BOOL.TRUE },
            { id := 2, name := "B", north := 1, east := NO_ID, south := NO_ID, west := NO_ID,
              illuminated := BOOL.FALSE }] ∧
    Examen.game_get_player_location loadedExam = 1 ∧
    Examen.game_get_object_location loadedExam = 1 ∧
    ∃ r0, Examen.game_create_from_file 4 movementExam (some "spaces.dat")
        (some emptyWorldFile) = some (STATUS.OK, r0) ∧
      Examen.game_get_player_location r0 = NO_ID ∧
        Examen.game_get_object_location r0 = NO_ID :=
  have h := create_from_file_locations 4 movementExam (some "spaces.dat") (some worldFile)
    loadedExam (by decide)
  ⟨by decide, by decide, by decide, by decide,
    h.2 "spaces.dat" emptyWorldFile (by decide) (by decide)⟩

/-! ## Look beyond the range of `int` -/

/-- C10 (evaluation at the failing inputs). In the game `farExam` the player's current space,
id 4294967297, is registered, illuminated and named "Far", but `game_update` with the look
command and the token "here" (or "h") leaves the description empty: the handler looks up the
location narrowed to `int`, which is 1, an id no registered space has. In the game `strayExam`
no registered space has the player's location 4294967297, but the description is "A", the name
of the space with id 1. -/
theorem look_here_narrows_location :
    Examen.int_of_long (Examen.game_get_player_location farExam) = 1 ∧
    (Examen.game_get_space 4 farExam (Examen.game_get_player_location farExam)).map
        (fun s => (s.name, s.illuminated)) = some ("Far", BOOL.TRUE) ∧
    (Examen.game_update 4 30 farExam Examen.LOOK "here").map
        (fun r => (r.1, Examen.game_get_description r.2)) = some (STATUS.OK, "") ∧
    (Examen.game_update 4 30 farExam Examen.LOOK "h").map
        (fun r => (r.1, Examen.game_get_description r.2)) = some (STATUS.OK, "") ∧
    Examen.game_get_space 4 strayExam (Examen.game_get_player_location strayExam) = none ∧
    (Examen.game_update 4 30 strayExam Examen.LOOK "here").map
        (fun r => (r.1, Examen.game_get_description r.2)) = some (STATUS.OK, "A") := by
  decide

/-- C11 (evaluation at the failing input). In the game `farExam` the south link of the
player's current space is 4294967298, the id of the registered, illuminated space "Beyond", but
`game_update` with the look command and the token "next" leaves the description empty; with
the player in "Beyond", whose north link is the id of the illuminated space "Far", the token
"back" leaves it empty too. The handler finds no current space, for it looks up the location
narrowed to `int`. -/
theorem look_neighbours_narrows_location :
    (Examen.game_get_space 4 farExam (Examen.space_get_south
        (Examen.game_get_space 4 farExam (Examen.game_get_player_location farExam)))).map
        (fun s => (s.name, s.illuminated)) = some ("Beyond", BOOL.TRUE) ∧
    (Examen.game_update 4 30 farExam Examen.LOOK "next").map
        (fun r => (r.1, Examen.game_get_description r.2)) = some (STATUS.OK, "") ∧
    (Examen.game_get_space 4 farExam (Examen.space_get_north
        (Examen.game_get_space 4 farExam 4294967298))).map
        (fun s => (s.name, s.illuminated)) = some ("Far", BOOL.TRUE) ∧
    (Examen.game_update 4 30 { farExam with player_location := 4294967298 }
        Examen.LOOK "back").map
        (fun r => (r.1, Examen.game_get_description r.2)) = some (STATUS.OK, "") := by
  decide

/-- C12 (evaluation at the failing input). In the game `farExam`, `game_callback_turnoff` and
`game_callback_turnon` do set the flag of the player's space "Far" (slot 0) and nothing else,
but the look command with token "here" right after leaves the description empty, where the
name "Far" is due after turn-on and "Space is not illuminated" after turn-off: the look
handler looks up the location narrowed to `int`. -/
theorem look_after_turn_narrows_location :
    Examen.game_callback_turnoff 4 farExam =
      { farExam with spaces := (farExam.spaces.set 0
          (some { id := 4294967297, name := "Far", north := NO_ID, east := NO_ID,
                  south := 4294967298, west := NO_ID, illuminated := BOOL.FALSE })) } ∧
    Examen.game_callback_turnon 4 (Examen.game_callback_turnoff 4 farExam) = farExam ∧
    (Examen.game_update 4 30 (Examen.game_callback_turnon 4 farExam) Examen.LOOK "here").map
        (fun r => (r.1, Examen.game_get_description r.2)) = some (STATUS.OK, "") ∧
    (Examen.game_update 4 30 (Examen.game_callback_turnoff 4 farExam) Examen.LOOK "here").map
        (fun r => (r.1, Examen.game_get_description r.2)) = some (STATUS.OK, "") := by
  decide

end PPROG
